import Mathlib

/-!
Verification development for a sharded, event-sourced spot-trading matching
engine.  The Go source is shallowly embedded: Go maps become association
lists, pointer-linked FIFO queues become lists of orders, `int64` becomes
`Int` with explicit bound checks where the source checks them, and the
`while` matching loop becomes a fuel-indexed structural recursion (the fuel
is a proven upper bound on the number of loop iterations).  Fallible Go
functions returning `error` become `Except String` / `Option String` with
the source's message strings.  Observational fields (wall-clock timestamps)
are dropped; they never influence control flow.
-/

set_option maxHeartbeats 1600000

/-- Maximum value of a 64-bit signed integer, `1<<63 - 1` in the Go source. -/
def int64Max : Int := 9223372036854775807

namespace Matching

/-- Order side (`Side` in `types.go`): BUY or SELL. -/
inductive Side
  | buy
  | sell
deriving DecidableEq, Repr

/-- Order status (`OrderStatus` in `types.go`).  `partFilled` embeds the
source's PARTIALLY_FILLED status. -/
inductive OrderStatus
  | new
  | partFilled
  | filled
  | canceled
deriving DecidableEq, Repr

/-- Cancellation reason (`CancelReason` in `types.go`). -/
inductive CancelReason
  | user
  | system
  | expired
deriving DecidableEq, Repr

/-- An order resting in or passing through the book (`Order` in the order
book source).  The Go `element *list.Element` back-reference is represented
by storing orders directly in the level queues; `CreatedAt` is
observational and dropped. -/
structure Order where
  orderID : String
  clientOrderID : String
  accountID : String
  symbol : String
  side : Side
  price : Int
  quantity : Int
  remainingQty : Int
  status : OrderStatus
deriving DecidableEq, Repr

/-- A price level (`PriceLevel`): FIFO queue of resting orders plus the
cached total volume. -/
structure PriceLevel where
  price : Int
  queue : List Order
  volume : Int
deriving DecidableEq, Repr

/-- `NewPriceLevel`. -/
def newPriceLevel (price : Int) : PriceLevel :=
  { price := price, queue := [], volume := 0 }

/-- `PriceLevel.AddOrder`: push to the back of the FIFO queue and add the
order's remaining quantity to the cached volume. -/
def PriceLevel.addOrder (pl : PriceLevel) (o : Order) : PriceLevel :=
  { pl with queue := pl.queue ++ [o], volume := pl.volume + o.remainingQty }

/-- `PriceLevel.RemoveOrder`: the Go guard `order.element != nil` (the order
is currently queued) becomes a membership test on the order id. -/
def PriceLevel.removeOrder (pl : PriceLevel) (o : Order) : PriceLevel :=
  if pl.queue.any (fun x => x.orderID == o.orderID) then
    { pl with queue := pl.queue.eraseP (fun x => x.orderID == o.orderID),
              volume := pl.volume - o.remainingQty }
  else pl

/-- `PriceLevel.IsEmpty`. -/
def PriceLevel.isEmpty (pl : PriceLevel) : Bool :=
  pl.queue.isEmpty

/-- Lookup of a price level in a side's map (`levels[price]`). -/
def lookupLevel (levels : List PriceLevel) (price : Int) : Option PriceLevel :=
  levels.find? (fun l => l.price == price)

/-- Replacement of the level stored under a price key (a Go pointer mutation
seen through the map). -/
def updateLevel : List PriceLevel → Int → PriceLevel → List PriceLevel
  | [], _, _ => []
  | l :: ls, p, nl => if l.price == p then nl :: ls else l :: updateLevel ls p nl

/-- `delete(levels, price)`. -/
def removeLevel (levels : List PriceLevel) (price : Int) : List PriceLevel :=
  levels.filter (fun l => l.price != price)

/-- Lookup in the `order_id -> Order` map. -/
def lookupOrder (orders : List (String × Order)) (id : String) : Option Order :=
  (orders.find? (fun e => e.1 == id)).map (·.2)

/-- Store/overwrite in the `order_id -> Order` map. -/
def storeOrder : List (String × Order) → String → Order → List (String × Order)
  | [], id, o => [(id, o)]
  | e :: es, id, o => if e.1 == id then (id, o) :: es else e :: storeOrder es id o

/-- `delete(ob.Orders, id)`. -/
def removeOrderEntry (orders : List (String × Order)) (id : String) :
    List (String × Order) :=
  orders.filter (fun e => e.1 != id)

/-- Lookup in the `closed order_id -> terminal status` map. -/
def lookupClosed (closed : List (String × OrderStatus)) (id : String) :
    Option OrderStatus :=
  (closed.find? (fun e => e.1 == id)).map (·.2)

/-- Store in the closed-orders map. -/
def storeClosed : List (String × OrderStatus) → String → OrderStatus →
    List (String × OrderStatus)
  | [], id, st => [(id, st)]
  | e :: es, id, st => if e.1 == id then (id, st) :: es else e :: storeClosed es id st

/-- The order book for one symbol (`OrderBook`). -/
structure OrderBook where
  symbol : String
  bidLevels : List PriceLevel
  askLevels : List PriceLevel
  orders : List (String × Order)
  closedOrders : List (String × OrderStatus)
  eventSeq : Int
  tradeSeq : Int
deriving DecidableEq, Repr

/-- `NewOrderBook`. -/
def newOrderBook (symbol : String) : OrderBook :=
  { symbol := symbol, bidLevels := [], askLevels := [], orders := [],
    closedOrders := [], eventSeq := 0, tradeSeq := 0 }

/-- `nextEventSequence`: increment and return the event sequence counter. -/
def OrderBook.nextEventSequence (ob : OrderBook) : Int × OrderBook :=
  (ob.eventSeq + 1, { ob with eventSeq := ob.eventSeq + 1 })

/-- `nextTradeID`: increment the trade counter and format `trd_<n>`. -/
def OrderBook.nextTradeID (ob : OrderBook) : String × OrderBook :=
  ("trd_" ++ toString (ob.tradeSeq + 1), { ob with tradeSeq := ob.tradeSeq + 1 })

/-- `getBestBid`: highest bid price or 0, written as the source's loop over
the map's keys. -/
def OrderBook.getBestBid (ob : OrderBook) : Int :=
  ob.bidLevels.foldl (fun best l => if l.price > best then l.price else best) 0

/-- `getBestAsk`: lowest ask price or 0. -/
def OrderBook.getBestAsk (ob : OrderBook) : Int :=
  ob.askLevels.foldl (fun best l => if best = 0 ∨ l.price < best then l.price else best) 0

/-- Store/overwrite one order in the active-orders map (pointer mutations in
Go keep the map entry in sync automatically). -/
def OrderBook.storeOrderEntry (ob : OrderBook) (o : Order) : OrderBook :=
  { ob with orders := storeOrder ob.orders o.orderID o }

/-- `delete(ob.Orders, id)`. -/
def OrderBook.deleteOrder (ob : OrderBook) (id : String) : OrderBook :=
  { ob with orders := removeOrderEntry ob.orders id }

/-- `ob.closedOrders[id] = st`. -/
def OrderBook.setClosed (ob : OrderBook) (id : String) (st : OrderStatus) : OrderBook :=
  { ob with closedOrders := storeClosed ob.closedOrders id st }

/-- `getPriceLevel`. -/
def OrderBook.getPriceLevel (ob : OrderBook) (side : Side) (price : Int) :
    Option PriceLevel :=
  if side = Side.buy then lookupLevel ob.bidLevels price
  else lookupLevel ob.askLevels price

/-- `removePriceLevelIfEmpty`. -/
def OrderBook.removePriceLevelIfEmpty (ob : OrderBook) (side : Side) (price : Int) :
    OrderBook :=
  if side = Side.buy then
    match lookupLevel ob.bidLevels price with
    | some l => if l.isEmpty then { ob with bidLevels := removeLevel ob.bidLevels price } else ob
    | none => ob
  else
    match lookupLevel ob.askLevels price with
    | some l => if l.isEmpty then { ob with askLevels := removeLevel ob.askLevels price } else ob
    | none => ob

/-- Domain event (`Event` interface with its three concrete types).
`occurred_at` is observational and dropped. -/
inductive Event
  | accepted (eventID : String) (seq : Int) (symbol : String)
      (orderID clientOrderID accountID : String) (side : Side)
      (price quantity : Int) (status : OrderStatus)
  | matched (eventID : String) (seq : Int) (symbol : String)
      (tradeID makerOrderID takerOrderID : String)
      (price quantity : Int) (makerSide takerSide : Side)
  | canceled (eventID : String) (seq : Int) (symbol : String)
      (orderID accountID : String) (remainingQty : Int) (canceledBy : CancelReason)
deriving DecidableEq, Repr

/-- `Event.Sequence()`. -/
def Event.sequence : Event → Int
  | .accepted _ seq _ _ _ _ _ _ _ _ => seq
  | .matched _ seq _ _ _ _ _ _ _ _ => seq
  | .canceled _ seq _ _ _ _ _ => seq

/-- `Event.EventType()`. -/
def Event.eventType : Event → String
  | .accepted .. => "OrderAccepted"
  | .matched .. => "OrderMatched"
  | .canceled .. => "OrderCanceled"

/-- `Event.Symbol()`. -/
def Event.symbol : Event → String
  | .accepted _ _ sym _ _ _ _ _ _ _ => sym
  | .matched _ _ sym _ _ _ _ _ _ _ => sym
  | .canceled _ _ sym _ _ _ _ => sym

/-- `Trade` (`OccurredAt` dropped). -/
structure Trade where
  tradeID : String
  symbol : String
  makerOrderID : String
  takerOrderID : String
  price : Int
  quantity : Int
  makerSide : Side
  takerSide : Side
deriving DecidableEq, Repr

/-- `OrderStatusChange`. -/
structure OrderStatusChange where
  orderID : String
  oldStatus : OrderStatus
  newStatus : OrderStatus
  remainingQty : Int
  filledQty : Int
deriving DecidableEq, Repr

/-- `CommandResult`. -/
structure CommandResult where
  orderStatusChanges : List OrderStatusChange
  trades : List Trade
  events : List Event
deriving DecidableEq, Repr

/-- `PlaceOrderRequest`. -/
structure PlaceOrderRequest where
  orderID : String
  clientOrderID : String
  accountID : String
  symbol : String
  side : Side
  priceInt : Int
  quantityInt : Int
deriving DecidableEq, Repr

/-- `PlaceOrderRequest.Validate`; `none` is a nil error.  The Go `Side`
string is already the typed `Side` here, so `IsValid` always holds. -/
def PlaceOrderRequest.validate (r : PlaceOrderRequest) : Option String :=
  if r.orderID = "" then some "order_id required"
  else if r.clientOrderID = "" then some "client_order_id required"
  else if r.accountID = "" then some "account_id required"
  else if r.symbol = "" then some "symbol required"
  else if r.priceInt ≤ 0 then some "price must be positive"
  else if r.quantityInt ≤ 0 then some "quantity must be positive"
  else none

/-- `CancelOrderRequest`. -/
structure CancelOrderRequest where
  orderID : String
  accountID : String
  symbol : String
deriving DecidableEq, Repr

/-- `CancelOrderRequest.Validate`. -/
def CancelOrderRequest.validate (r : CancelOrderRequest) : Option String :=
  if r.orderID = "" then some "order_id required"
  else if r.accountID = "" then some "account_id required"
  else if r.symbol = "" then some "symbol required"
  else none

/-- `updateOrderStatus`: recompute the status from the remaining quantity and
append an `OrderStatusChange` when it changed. -/
def updateOrderStatus (o : Order) (res : CommandResult) : Order × CommandResult :=
  let newStatus :=
    if o.remainingQty = 0 then OrderStatus.filled
    else if o.remainingQty < o.quantity then OrderStatus.partFilled
    else OrderStatus.new
  if newStatus ≠ o.status then
    ({ o with status := newStatus },
     { res with orderStatusChanges := res.orderStatusChanges ++
        [{ orderID := o.orderID, oldStatus := o.status, newStatus := newStatus,
           remainingQty := o.remainingQty, filledQty := o.quantity - o.remainingQty }] })
  else (o, res)

/-- `executeMatch`: compute the match quantity, decrement both remaining
quantities, emit the trade and the `OrderMatched` event, update both
statuses, and keep the active-orders map in sync with the (in Go, aliased)
order records.  Returns the match quantity last, as the source does. -/
def executeMatch (ob : OrderBook) (maker taker : Order) (price : Int)
    (res : CommandResult) : OrderBook × Order × Order × CommandResult × Int :=
  let matchQty := if taker.remainingQty < maker.remainingQty then taker.remainingQty
                  else maker.remainingQty
  let maker1 := { maker with remainingQty := maker.remainingQty - matchQty }
  let taker1 := { taker with remainingQty := taker.remainingQty - matchQty }
  let (tradeID, ob1) := ob.nextTradeID
  let trade : Trade :=
    { tradeID := tradeID, symbol := ob.symbol, makerOrderID := maker.orderID,
      takerOrderID := taker.orderID, price := price, quantity := matchQty,
      makerSide := maker.side, takerSide := taker.side }
  let res1 := { res with trades := res.trades ++ [trade] }
  let (seq, ob2) := ob1.nextEventSequence
  let ev := Event.matched ("evt_" ++ toString seq) seq ob.symbol tradeID
      maker.orderID taker.orderID price matchQty maker.side taker.side
  let res2 := { res1 with events := res1.events ++ [ev] }
  let (maker2, res3) := updateOrderStatus maker1 res2
  let (taker2, res4) := updateOrderStatus taker1 res3
  let ob3 := (ob2.storeOrderEntry maker2).storeOrderEntry taker2
  (ob3, maker2, taker2, res4, matchQty)

/-- Total number of queued orders on one side, used to bound the matching
loop's iteration count. -/
def totalQueueLen (levels : List PriceLevel) : Nat :=
  levels.foldr (fun l acc => l.queue.length + acc) 0

/-- The body of `matchBuyOrder`'s `for` loop, as a fuel-indexed recursion.
Each iteration removes a price level, removes a queue entry, or zeroes the
taker's remaining quantity, so `matchBuyFuel` below is enough fuel for the
loop always to exit through one of the source's `break` conditions.  The
`none` case of the level lookup cannot occur (the best ask is the price of
some level); in Go it would be a map entry holding a nil pointer. -/
def matchBuyLoop : Nat → OrderBook → Order → CommandResult →
    OrderBook × Order × CommandResult
  | 0, ob, taker, res => (ob, taker, res)
  | fuel + 1, ob, taker, res =>
    if taker.remainingQty > 0 then
      let bestAsk := ob.getBestAsk
      if bestAsk = 0 ∨ taker.price < bestAsk then (ob, taker, res)
      else
        match lookupLevel ob.askLevels bestAsk with
        | none => (ob, taker, res)
        | some lvl =>
          if lvl.isEmpty then
            matchBuyLoop fuel { ob with askLevels := removeLevel ob.askLevels bestAsk }
              taker res
          else
            match lvl.queue with
            | [] => (ob, taker, res)
            | maker :: rest =>
              let st := executeMatch ob maker taker maker.price res
              let ob3 := st.1
              let maker2 := st.2.1
              let taker2 := st.2.2.1
              let res4 := st.2.2.2.1
              let matchQty := st.2.2.2.2
              let v := lvl.volume - matchQty
              let lvl1 : PriceLevel :=
                { price := lvl.price, queue := maker2 :: rest,
                  volume := if v < 0 then 0 else v }
              if maker2.remainingQty = 0 then
                let lvl2 := lvl1.removeOrder maker2
                let ob4 := { ob3 with askLevels := updateLevel ob3.askLevels bestAsk lvl2 }
                let ob5 := (ob4.deleteOrder maker2.orderID).setClosed maker2.orderID
                    OrderStatus.filled
                let ob6 := ob5.removePriceLevelIfEmpty Side.sell bestAsk
                matchBuyLoop fuel ob6 taker2 res4
              else
                let ob4 := { ob3 with askLevels := updateLevel ob3.askLevels bestAsk lvl1 }
                matchBuyLoop fuel ob4 taker2 res4
    else (ob, taker, res)

/-- Fuel that provably suffices for `matchBuyLoop` to reach a `break`
condition of the source loop. -/
def matchBuyFuel (ob : OrderBook) (taker : Order) : Nat :=
  ob.askLevels.length + totalQueueLen ob.askLevels + taker.remainingQty.toNat + 2

/-- `matchBuyOrder`. -/
def matchBuyOrder (ob : OrderBook) (taker : Order) (res : CommandResult) :
    OrderBook × Order × CommandResult :=
  matchBuyLoop (matchBuyFuel ob taker) ob taker res

/-- The body of `matchSellOrder`'s loop, symmetric to `matchBuyLoop` against
the bid side. -/
def matchSellLoop : Nat → OrderBook → Order → CommandResult →
    OrderBook × Order × CommandResult
  | 0, ob, taker, res => (ob, taker, res)
  | fuel + 1, ob, taker, res =>
    if taker.remainingQty > 0 then
      let bestBid := ob.getBestBid
      if bestBid = 0 ∨ taker.price > bestBid then (ob, taker, res)
      else
        match lookupLevel ob.bidLevels bestBid with
        | none => (ob, taker, res)
        | some lvl =>
          if lvl.isEmpty then
            matchSellLoop fuel { ob with bidLevels := removeLevel ob.bidLevels bestBid }
              taker res
          else
            match lvl.queue with
            | [] => (ob, taker, res)
            | maker :: rest =>
              let st := executeMatch ob maker taker maker.price res
              let ob3 := st.1
              let maker2 := st.2.1
              let taker2 := st.2.2.1
              let res4 := st.2.2.2.1
              let matchQty := st.2.2.2.2
              let v := lvl.volume - matchQty
              let lvl1 : PriceLevel :=
                { price := lvl.price, queue := maker2 :: rest,
                  volume := if v < 0 then 0 else v }
              if maker2.remainingQty = 0 then
                let lvl2 := lvl1.removeOrder maker2
                let ob4 := { ob3 with bidLevels := updateLevel ob3.bidLevels bestBid lvl2 }
                let ob5 := (ob4.deleteOrder maker2.orderID).setClosed maker2.orderID
                    OrderStatus.filled
                let ob6 := ob5.removePriceLevelIfEmpty Side.buy bestBid
                matchSellLoop fuel ob6 taker2 res4
              else
                let ob4 := { ob3 with bidLevels := updateLevel ob3.bidLevels bestBid lvl1 }
                matchSellLoop fuel ob4 taker2 res4
    else (ob, taker, res)

/-- Fuel bound for the sell loop. -/
def matchSellFuel (ob : OrderBook) (taker : Order) : Nat :=
  ob.bidLevels.length + totalQueueLen ob.bidLevels + taker.remainingQty.toNat + 2

/-- `matchSellOrder`. -/
def matchSellOrder (ob : OrderBook) (taker : Order) (res : CommandResult) :
    OrderBook × Order × CommandResult :=
  matchSellLoop (matchSellFuel ob taker) ob taker res

/-- `getOrCreatePriceLevel` followed by `level.AddOrder(order)`: the resting
insertion of the taker's residue at its own limit price. -/
def addRestingOrder (levels : List PriceLevel) (o : Order) : List PriceLevel :=
  match lookupLevel levels o.price with
  | some lvl => updateLevel levels o.price (lvl.addOrder o)
  | none => levels ++ [(newPriceLevel o.price).addOrder o]

/-- `PlaceLimit`: validate, reject duplicates, store and accept the order,
match it, then either rest the residue or close the order FILLED. -/
def OrderBook.placeLimit (ob : OrderBook) (req : PlaceOrderRequest) :
    Except String (OrderBook × CommandResult) :=
  match req.validate with
  | some e => .error e
  | none =>
    if req.symbol ≠ ob.symbol then
      .error ("symbol mismatch: request " ++ req.symbol ++ ", orderbook " ++ ob.symbol)
    else if (lookupOrder ob.orders req.orderID).isSome then
      .error ("duplicate order_id: " ++ req.orderID)
    else if (lookupClosed ob.closedOrders req.orderID).isSome then
      .error ("duplicate order_id: " ++ req.orderID)
    else
      let order : Order :=
        { orderID := req.orderID, clientOrderID := req.clientOrderID,
          accountID := req.accountID, symbol := req.symbol, side := req.side,
          price := req.priceInt, quantity := req.quantityInt,
          remainingQty := req.quantityInt, status := OrderStatus.new }
      let ob1 := ob.storeOrderEntry order
      let (seq, ob2) := ob1.nextEventSequence
      let acceptedEvent := Event.accepted ("evt_" ++ toString seq) seq ob.symbol
          order.orderID order.clientOrderID order.accountID order.side
          order.price order.quantity order.status
      let res0 : CommandResult :=
        { orderStatusChanges := [], trades := [], events := [acceptedEvent] }
      let stepped :=
        if order.side = Side.buy then matchBuyOrder ob2 order res0
        else matchSellOrder ob2 order res0
      let ob3 := stepped.1
      let order1 := stepped.2.1
      let res1 := stepped.2.2
      if order1.remainingQty > 0 then
        if order1.side = Side.buy then
          .ok ({ ob3 with bidLevels := addRestingOrder ob3.bidLevels order1 }, res1)
        else
          .ok ({ ob3 with askLevels := addRestingOrder ob3.askLevels order1 }, res1)
      else
        .ok ((ob3.deleteOrder order1.orderID).setClosed order1.orderID
          OrderStatus.filled, res1)

/-- `Cancel`: validate, reject terminal/unknown orders and wrong accounts,
remove the order from its level, emit the `OrderCanceled` event and move the
order to the closed map. -/
def OrderBook.cancel (ob : OrderBook) (req : CancelOrderRequest) :
    Except String (OrderBook × CommandResult) :=
  match req.validate with
  | some e => .error e
  | none =>
    if req.symbol ≠ ob.symbol then
      .error ("symbol mismatch: request " ++ req.symbol ++ ", orderbook " ++ ob.symbol)
    else
      match lookupClosed ob.closedOrders req.orderID with
      | some OrderStatus.filled => .error "order already filled"
      | some OrderStatus.canceled => .error "order already canceled"
      | some _ => .error ("order not found: " ++ req.orderID)
      | none =>
        match lookupOrder ob.orders req.orderID with
        | none => .error ("order not found: " ++ req.orderID)
        | some order =>
          if order.accountID ≠ req.accountID then
            .error "unauthorized: order belongs to different account"
          else if order.status = OrderStatus.filled then
            .error "cannot cancel filled order"
          else if order.status = OrderStatus.canceled then
            .error "order already canceled"
          else
            let ob1 :=
              match ob.getPriceLevel order.side order.price with
              | some lvl =>
                let lvl1 := lvl.removeOrder order
                let ob0 :=
                  if order.side = Side.buy then
                    { ob with bidLevels := updateLevel ob.bidLevels order.price lvl1 }
                  else
                    { ob with askLevels := updateLevel ob.askLevels order.price lvl1 }
                ob0.removePriceLevelIfEmpty order.side order.price
              | none => ob
            let oldStatus := order.status
            let order1 := { order with status := OrderStatus.canceled }
            let res0 : CommandResult :=
              { orderStatusChanges :=
                  [{ orderID := order.orderID, oldStatus := oldStatus,
                     newStatus := OrderStatus.canceled,
                     remainingQty := order.remainingQty,
                     filledQty := order.quantity - order.remainingQty }],
                trades := [], events := [] }
            let ob2 := ob1.storeOrderEntry order1
            let (seq, ob3) := ob2.nextEventSequence
            let canceledEvent := Event.canceled ("evt_" ++ toString seq) seq ob.symbol
                order.orderID order.accountID order.remainingQty CancelReason.user
            let res1 := { res0 with events := [canceledEvent] }
            let ob4 := (ob3.deleteOrder order.orderID).setClosed order.orderID
                OrderStatus.canceled
            .ok (ob4, res1)

/-- `OrderSnapshot`; for closed orders only a minimal snapshot is available. -/
structure OrderSnapshot where
  orderID : String
  clientOrderID : String
  accountID : String
  symbol : String
  side : Side
  price : Int
  quantity : Int
  remainingQty : Int
  filledQty : Int
  status : OrderStatus
deriving DecidableEq, Repr

/-- `GetOrderSnapshot`: active orders yield a full snapshot; closed orders
yield the minimal snapshot whose remaining fields are zero values (in
particular `accountID = ""`). -/
def OrderBook.getOrderSnapshot (ob : OrderBook) (orderID : String) :
    Except String OrderSnapshot :=
  match lookupOrder ob.orders orderID with
  | some order =>
    .ok { orderID := order.orderID, clientOrderID := order.clientOrderID,
          accountID := order.accountID, symbol := order.symbol, side := order.side,
          price := order.price, quantity := order.quantity,
          remainingQty := order.remainingQty,
          filledQty := order.quantity - order.remainingQty, status := order.status }
  | none =>
    match lookupClosed ob.closedOrders orderID with
    | some status =>
      .ok { orderID := orderID, clientOrderID := "", accountID := "",
            symbol := ob.symbol, side := Side.buy, price := 0, quantity := 0,
            remainingQty := 0, filledQty := 0, status := status }
    | none => .error ("order not found: " ++ orderID)

end Matching

/-- Generic association-list lookup (a Go `map` read). -/
def alistLookup {α : Type} (l : List (String × α)) (k : String) : Option α :=
  (l.find? (fun e => e.1 == k)).map (·.2)

/-- Generic association-list store (a Go `map` write). -/
def alistStore {α : Type} : List (String × α) → String → α → List (String × α)
  | [], k, v => [(k, v)]
  | e :: es, k, v => if e.1 == k then (k, v) :: es else e :: alistStore es k v

/-- ASCII whitespace as trimmed by `strings.TrimSpace` (the registry's
symbols are ASCII). -/
def isSpaceChar (c : Char) : Bool :=
  c == ' ' || c == '\t' || c == '\n' || c == '\r'

/-- `strings.TrimSpace`, written on the character list so that it reduces
definitionally. -/
def trimAscii (s : String) : String :=
  String.mk (((s.data.dropWhile isSpaceChar).reverse.dropWhile isSpaceChar).reverse)

/-- `strings.ToUpper` on the character list. -/
def upperAscii (s : String) : String :=
  String.mk (s.data.map Char.toUpper)

/-- `strings.ToLower` on the character list. -/
def lowerAscii (s : String) : String :=
  String.mk (s.data.map Char.toLower)

/-- `strings.Split` for a one-character separator, written on the character
list. -/
def splitOnChar (sep : Char) : List Char → List (List Char)
  | [] => [[]]
  | c :: t =>
    if c = sep then [] :: splitOnChar sep t
    else
      match splitOnChar sep t with
      | [] => [[c]]
      | h :: r => (c :: h) :: r

namespace SymbolSpec

/-- Per-symbol precision and step constraints (`Spec` in the symbolspec
package). -/
structure Spec where
  symbol : String
  priceScale : Nat
  quantityScale : Nat
  priceTickInt : Int
  qtyStepInt : Int
deriving DecidableEq, Repr

/-- `Get`: the static registry of supported symbols. -/
def get (symbol : String) : Except String Spec :=
  let s := upperAscii (trimAscii symbol)
  if s = "BTC-USDT" then
    .ok { symbol := "BTC-USDT", priceScale := 6, quantityScale := 6,
          priceTickInt := 1, qtyStepInt := 1 }
  else if s = "ETH-USDT" then
    .ok { symbol := "ETH-USDT", priceScale := 6, quantityScale := 6,
          priceTickInt := 1, qtyStepInt := 1 }
  else if s = "SOL-USDT" then
    .ok { symbol := "SOL-USDT", priceScale := 6, quantityScale := 6,
          priceTickInt := 1, qtyStepInt := 1 }
  else .error ("unsupported symbol: " ++ symbol)

/-- The loop body of `Pow10`, with the source's pre-multiplication overflow
check. -/
def pow10Loop : Nat → Int → Except String Int
  | 0, v => .ok v
  | n + 1, v =>
    if v > int64Max / 10 then .error "scale too large"
    else pow10Loop n (v * 10)

/-- `Pow10` for non-negative scales (the scale is a `Nat` here, so the Go
`scale < 0` rejection is vacuous). -/
def pow10 (scale : Nat) : Except String Int :=
  pow10Loop scale 1

end SymbolSpec

namespace Account

/-- Account errors.  The Go source mixes sentinel errors
(`ErrInvalidAmount`, …), the typed `InsufficientBalanceError`, and
`fmt.Errorf` messages; this sum type keeps them distinguishable. -/
inductive AccountErr
  | invalidAmount
  | invalidSymbol (symbol : String)
  | accountNotFound
  | insufficientBalance (accountID asset : String) (required available : Int)
  | unsupportedSymbol (symbol : String)
  | msg (s : String)
deriving DecidableEq, Repr

/-- `Balance`: per-account, per-asset available and frozen amounts. -/
structure Balance where
  available : Int
  frozen : Int
deriving DecidableEq, Repr

/-- `FreezeRecord` (memory_service.go): frozen funds tracked per order. -/
structure FreezeRecord where
  accountID : String
  asset : String
  originalFrozenAmount : Int
  frozenAmount : Int
deriving DecidableEq, Repr

/-- `PlaceIntent` (the account package keeps `Side` as a raw string). -/
structure PlaceIntent where
  accountID : String
  orderID : String
  symbol : String
  side : String
  priceInt : Int
  qtyInt : Int
deriving DecidableEq, Repr

/-- `PlaceIntent.Validate`. -/
def PlaceIntent.validate (p : PlaceIntent) : Option String :=
  if p.accountID = "" then some "account_id is required"
  else if p.orderID = "" then some "order_id is required"
  else if p.symbol = "" then some "symbol is required"
  else if p.side ≠ "BUY" ∧ p.side ≠ "SELL" then some ("invalid side: " ++ p.side)
  else if p.priceInt ≤ 0 then some "price must be positive"
  else if p.qtyInt ≤ 0 then some "quantity must be positive"
  else none

/-- `TradeIntent`. -/
structure TradeIntent where
  tradeID : String
  buyerAccountID : String
  sellerAccountID : String
  buyerOrderID : String
  sellerOrderID : String
  symbol : String
  priceInt : Int
  quantityInt : Int
deriving DecidableEq, Repr

/-- `ParseSymbol`: split `BASE-QUOTE` on the dash. -/
def parseSymbol (symbol : String) : Except AccountErr (String × String) :=
  match (splitOnChar '-' symbol.data).map String.mk with
  | [base, quote] => .ok (base, quote)
  | _ => .error (.invalidSymbol symbol)

/-- The in-memory account service state (`MemoryService`).  The Go nested
map `accountID -> asset -> *Balance` creates zero-valued entries on demand;
since `GetBalance` reads absent entries as zero, the embedding flattens it
to one `(account, asset)`-keyed map with zero as the default, which is
observationally identical. -/
structure MemoryService where
  balances : List ((String × String) × Balance)
  freezes : List (String × FreezeRecord)
  appliedTrades : List String
deriving DecidableEq, Repr

/-- `NewMemoryService`. -/
def newMemoryService : MemoryService :=
  { balances := [], freezes := [], appliedTrades := [] }

/-- `GetBalance` (also the read half of `getOrCreateAssetBalance`): absent
entries are zero balances. -/
def MemoryService.getBalance (s : MemoryService) (accountID asset : String) : Balance :=
  match s.balances.find? (fun e => e.1.1 == accountID && e.1.2 == asset) with
  | some e => e.2
  | none => { available := 0, frozen := 0 }

/-- Replace-or-append write on the flattened balances map. -/
def storeBal : List ((String × String) × Balance) → String → String → Balance →
    List ((String × String) × Balance)
  | [], accountID, asset, b => [((accountID, asset), b)]
  | e :: es, accountID, asset, b =>
    if e.1.1 == accountID && e.1.2 == asset then (e.1, b) :: es
    else e :: storeBal es accountID asset b

/-- Write one `(account, asset)` balance (a Go pointer mutation seen through
the nested map). -/
def MemoryService.setBalanceEntry (s : MemoryService) (accountID asset : String)
    (b : Balance) : MemoryService :=
  { s with balances := storeBal s.balances accountID asset b }

/-- `SetBalance`. -/
def MemoryService.setBalance (s : MemoryService) (accountID asset : String)
    (b : Balance) : MemoryService :=
  s.setBalanceEntry accountID asset b

/-- `quoteAmountFromTrade`: `ceil(price × qty / 10^qtyScale)` computed with
unbounded integers (`math/big` in the source) and an explicit int64 range
check (`IsInt64`; the quotient is non-negative here, so only the upper bound
can fail).  `big.Int.QuoRem` truncates toward zero; both operands are
positive past the guards, so Lean's Euclidean `/` and `%` coincide with it. -/
def quoteAmountFromTrade (priceInt qtyInt : Int) (qtyScale : Nat) :
    Except AccountErr Int :=
  if priceInt ≤ 0 ∨ qtyInt ≤ 0 then .error .invalidAmount
  else
    match SymbolSpec.pow10 qtyScale with
    | .error _ => .error .invalidAmount
    | .ok denom =>
      if denom ≤ 0 then .error .invalidAmount
      else
        let product := priceInt * qtyInt
        let quotient := product / denom
        let remainder := product % denom
        let amount := if remainder > 0 then quotient + 1 else quotient
        if ¬ (amount ≤ int64Max) then .error .invalidAmount
        else if amount ≤ 0 then .error .invalidAmount
        else .ok amount

/-- `freezeAmountForPlace`: BUY freezes the quote asset by the ceiling quote
amount, SELL freezes the base asset by the quantity. -/
def freezeAmountForPlace (symbol base quote side : String) (priceInt qtyInt : Int) :
    Except AccountErr (String × Int) :=
  if side = "BUY" then
    match SymbolSpec.get symbol with
    | .error _ => .error (.unsupportedSymbol symbol)
    | .ok spec =>
      match quoteAmountFromTrade priceInt qtyInt spec.quantityScale with
      | .error e => .error e
      | .ok amount => .ok (quote, amount)
  else .ok (base, qtyInt)

/-- `CheckAndFreezeForPlace`. -/
def MemoryService.checkAndFreezeForPlace (s : MemoryService) (intent : PlaceIntent) :
    Except AccountErr MemoryService :=
  match intent.validate with
  | some e => .error (.msg e)
  | none =>
    match parseSymbol intent.symbol with
    | .error e => .error e
    | .ok (base, quote) =>
      match SymbolSpec.get intent.symbol with
      | .error _ => .error (.unsupportedSymbol intent.symbol)
      | .ok _ =>
        match freezeAmountForPlace intent.symbol base quote intent.side
            intent.priceInt intent.qtyInt with
        | .error e => .error e
        | .ok (assetToFreeze, amountToFreeze) =>
          if amountToFreeze ≤ 0 then .error .invalidAmount
          else
            match alistLookup s.freezes intent.orderID with
            | some existingFreeze =>
              if existingFreeze.accountID = intent.accountID ∧
                  existingFreeze.asset = assetToFreeze ∧
                  existingFreeze.originalFrozenAmount = amountToFreeze then
                .ok s
              else
                .error (.msg ("order_id " ++ intent.orderID ++
                  " already exists with different parameters"))
            | none =>
              let balance := s.getBalance intent.accountID assetToFreeze
              if balance.available < amountToFreeze then
                .error (.insufficientBalance intent.accountID assetToFreeze
                  amountToFreeze balance.available)
              else
                let s1 := s.setBalanceEntry intent.accountID assetToFreeze
                  { available := balance.available - amountToFreeze,
                    frozen := balance.frozen + amountToFreeze }
                let record : FreezeRecord :=
                  { accountID := intent.accountID, asset := assetToFreeze,
                    originalFrozenAmount := amountToFreeze,
                    frozenAmount := amountToFreeze }
                .ok { s1 with freezes := alistStore s1.freezes intent.orderID record }

/-- `ApplyTrade`: sequential read-modify-write per the Go statement order;
the `(symbol, trade_id)` replay marker is consulted before any mutation and
recorded last.  The Go method mutates the receiver in place and returns an
`error`, so the embedding returns the service state the receiver holds when
the method returns together with the optional error: mutations made before
a failing check are retained, exactly as in the source. -/
def MemoryService.applyTrade (s : MemoryService) (intent : TradeIntent) :
    MemoryService × Option AccountErr :=
  if intent.tradeID = "" then (s, some .invalidAmount)
  else if intent.buyerAccountID = "" ∨ intent.sellerAccountID = "" then
    (s, some .invalidAmount)
  else if intent.buyerOrderID = "" ∨ intent.sellerOrderID = "" then
    (s, some .invalidAmount)
  else if intent.priceInt ≤ 0 ∨ intent.quantityInt ≤ 0 then (s, some .invalidAmount)
  else
    match parseSymbol intent.symbol with
    | .error e => (s, some e)
    | .ok (base, quote) =>
      match SymbolSpec.get intent.symbol with
      | .error _ => (s, some (.unsupportedSymbol intent.symbol))
      | .ok spec =>
        let tradeKey := intent.symbol ++ "|" ++ intent.tradeID
        if s.appliedTrades.contains tradeKey then (s, none)
        else
          match quoteAmountFromTrade intent.priceInt intent.quantityInt
              spec.quantityScale with
          | .error e => (s, some e)
          | .ok quoteAmount =>
            let baseAmount := intent.quantityInt
            let bq := s.getBalance intent.buyerAccountID quote
            if bq.frozen < quoteAmount then
              (s, some (.msg "insufficient buyer frozen quote for trade"))
            else
              let s1 := s.setBalanceEntry intent.buyerAccountID quote
                { bq with frozen := bq.frozen - quoteAmount }
              let bb := s1.getBalance intent.buyerAccountID base
              let s2 := s1.setBalanceEntry intent.buyerAccountID base
                { bb with available := bb.available + baseAmount }
              let sb := s2.getBalance intent.sellerAccountID base
              if sb.frozen < baseAmount then
                (s2, some (.msg "insufficient seller frozen base for trade"))
              else
                let s3 := s2.setBalanceEntry intent.sellerAccountID base
                  { sb with frozen := sb.frozen - baseAmount }
                let sq := s3.getBalance intent.sellerAccountID quote
                let s4 := s3.setBalanceEntry intent.sellerAccountID quote
                  { sq with available := sq.available + quoteAmount }
                match alistLookup s4.freezes intent.buyerOrderID with
                | some buyerFreeze =>
                  if buyerFreeze.frozenAmount < quoteAmount then
                    (s4, some (.msg ("buyer freeze record underflow for order " ++
                      intent.buyerOrderID)))
                  else
                    let bf1 := { buyerFreeze with
                      frozenAmount := buyerFreeze.frozenAmount - quoteAmount }
                    let s5 := { s4 with
                      freezes := alistStore s4.freezes intent.buyerOrderID bf1 }
                    match alistLookup s5.freezes intent.sellerOrderID with
                    | some sellerFreeze =>
                      if sellerFreeze.frozenAmount < baseAmount then
                        (s5, some (.msg ("seller freeze record underflow for order " ++
                          intent.sellerOrderID)))
                      else
                        let sf1 := { sellerFreeze with
                          frozenAmount := sellerFreeze.frozenAmount - baseAmount }
                        let s6 := { s5 with
                          freezes := alistStore s5.freezes intent.sellerOrderID sf1 }
                        ({ s6 with appliedTrades := s6.appliedTrades ++ [tradeKey] }, none)
                    | none =>
                      ({ s5 with appliedTrades := s5.appliedTrades ++ [tradeKey] }, none)
                | none =>
                  match alistLookup s4.freezes intent.sellerOrderID with
                  | some sellerFreeze =>
                    if sellerFreeze.frozenAmount < baseAmount then
                      (s4, some (.msg ("seller freeze record underflow for order " ++
                        intent.sellerOrderID)))
                    else
                      let sf1 := { sellerFreeze with
                        frozenAmount := sellerFreeze.frozenAmount - baseAmount }
                      let s6 := { s4 with
                        freezes := alistStore s4.freezes intent.sellerOrderID sf1 }
                      ({ s6 with appliedTrades := s6.appliedTrades ++ [tradeKey] }, none)
                  | none =>
                    ({ s4 with appliedTrades := s4.appliedTrades ++ [tradeKey] }, none)

end Account

namespace Persistence

/-- `Snapshot` (persistence types): only the fields recovery consults; the
book payload is opaque to sequence validation. -/
structure Snapshot where
  version : Int
  symbol : String
  lastSequence : Int
deriving DecidableEq, Repr

/-- `FileEventStore.ReadFrom` on one symbol's decoded log: scan in file
order and skip records with `sequence < fromSeq`. -/
def readFrom (log : List Matching.Event) (fromSeq : Int) : List Matching.Event :=
  log.filter (fun e => decide (fromSeq ≤ e.sequence))

/-- The `i ≥ 1` loop of `ValidateSequence`: each event's sequence must be
exactly the previous one plus 1. -/
def validateSequenceLoop : Int → List Matching.Event → Except String Unit
  | _, [] => .ok ()
  | prevSeq, e :: rest =>
    if e.sequence ≠ prevSeq + 1 then
      .error ("sequence gap detected: expected " ++ toString (prevSeq + 1) ++
        ", got " ++ toString e.sequence)
    else validateSequenceLoop e.sequence rest

/-- `FileRecoveryService.ValidateSequence`: an empty list is valid; otherwise
only consecutive continuity is checked. -/
def validateSequence (events : List Matching.Event) : Except String Unit :=
  match events with
  | [] => .ok ()
  | e :: rest => validateSequenceLoop e.sequence rest

/-- The `fromSeq` computation of `Recover`: `snapshot.last_sequence + 1`, or
1 when there is no snapshot. -/
def expectedStart (snapshot : Option Snapshot) : Int :=
  match snapshot with
  | some sn => sn.lastSequence + 1
  | none => 1

/-- `FileRecoveryService.Recover`, with the snapshot-store load and the
event-store read abstracted to their returned values: `snapshot` is what
`Load` produced and `log` the symbol's full decoded event log. -/
def recover (snapshot : Option Snapshot) (log : List Matching.Event) :
    Except String (Option Snapshot × List Matching.Event) :=
  let fromSeq : Int := expectedStart snapshot
  let events := readFrom log fromSeq
  match validateSequence events with
  | .error e => .error ("sequence validation failed: " ++ e)
  | .ok _ => .ok (snapshot, events)

end Persistence

namespace Projection

/-- `OrderView` (timestamps dropped; the projection package's `OrderStatus`
strings coincide with the matching package's and are reused). -/
structure OrderView where
  orderID : String
  clientOrderID : String
  accountID : String
  symbol : String
  side : Matching.Side
  price : Int
  quantity : Int
  remainingQty : Int
  filledQty : Int
  status : Matching.OrderStatus
  lastSequence : Int
deriving DecidableEq, Repr

/-- `TradeView` (timestamp dropped). -/
structure TradeView where
  tradeID : String
  symbol : String
  makerOrderID : String
  takerOrderID : String
  makerAccountID : String
  takerAccountID : String
  price : Int
  quantity : Int
  sequence : Int
deriving DecidableEq, Repr

/-- The projector's distinguishable failure modes (sentinel errors and
`fmt.Errorf` cases of `Project`/`validateSequence` and the repositories). -/
inductive ProjErr
  | mismatch (symbol : String) (orderLast tradeLast : Int)
  | firstNotOne (got : Int)
  | regression (symbol : String) (last event : Int)
  | gap (symbol : String) (last event : Int)
  | orderNotFound
  | tradeConflict (tradeID : String)
  | invalidMatch (m : String)
  | advanceFailed (m : String)
deriving DecidableEq, Repr

/-- Combined state of `MemoryOrderRepository` and `MemoryTradeRepository`
as the projector observes them (`Save`, `GetByID`, `GetLastSequence`,
`SetLastSequence`).  The derived query indexes are not consulted by
`Project` and are omitted. -/
structure ProjState where
  orderRepoOrders : List (String × OrderView)
  orderRepoLastSeq : List (String × Int)
  tradeRepoTrades : List (String × TradeView)
  tradeRepoLastSeq : List (String × Int)
deriving DecidableEq, Repr

/-- A fresh pair of repositories. -/
def emptyProjState : ProjState :=
  { orderRepoOrders := [], orderRepoLastSeq := [],
    tradeRepoTrades := [], tradeRepoLastSeq := [] }

/-- `GetLastSequence` of either memory repository: absent symbols read 0. -/
def getLastSeq (cursors : List (String × Int)) (symbol : String) : Int :=
  (alistLookup cursors symbol).getD 0

/-- `SetLastSequence` of either memory repository: refuses to move the
cursor backwards. -/
def setLastSeq (cursors : List (String × Int)) (symbol : String) (sequence : Int) :
    Except String (List (String × Int)) :=
  let current := (alistLookup cursors symbol).getD 0
  if sequence < current then .error "sequence regression"
  else .ok (alistStore cursors symbol sequence)

/-- The cursor writes `Project` issues, in execution order; used to state
that the trade cursor is advanced before the order cursor. -/
inductive CursorWrite
  | tradeCursor (symbol : String) (seq : Int)
  | orderCursor (symbol : String) (seq : Int)
deriving DecidableEq, Repr

/-- `Projector.validateSequence`: the two cursors must agree, the first
event of a symbol must carry sequence 1, and later events must extend the
cursor by exactly 1 (`lower` is a regression, `higher` a gap). -/
def validateSequence (st : ProjState) (symbol : String) (sequence : Int) :
    Except ProjErr Unit :=
  let orderLastSeq := getLastSeq st.orderRepoLastSeq symbol
  let tradeLastSeq := getLastSeq st.tradeRepoLastSeq symbol
  if orderLastSeq ≠ tradeLastSeq then
    .error (.mismatch symbol orderLastSeq tradeLastSeq)
  else
    let lastSeq := orderLastSeq
    if lastSeq = 0 ∧ sequence ≠ 1 then .error (.firstNotOne sequence)
    else if lastSeq > 0 ∧ sequence ≠ lastSeq + 1 then
      if sequence < lastSeq + 1 then .error (.regression symbol lastSeq sequence)
      else .error (.gap symbol lastSeq sequence)
    else .ok ()

/-- `projectOrderAccepted`: upsert a NEW view, skipping already-applied
events (`existing.LastSequence ≥ seq`). -/
def projectOrderAccepted (st : ProjState) (seq : Int) (symbol : String)
    (orderID clientOrderID accountID : String) (side : Matching.Side)
    (price quantity : Int) : Except ProjErr ProjState :=
  match alistLookup st.orderRepoOrders orderID with
  | some existing =>
    if existing.lastSequence ≥ seq then .ok st
    else
      let order : OrderView :=
        { orderID := orderID, clientOrderID := clientOrderID, accountID := accountID,
          symbol := symbol, side := side, price := price, quantity := quantity,
          remainingQty := quantity, filledQty := 0, status := Matching.OrderStatus.new,
          lastSequence := seq }
      .ok { st with orderRepoOrders := alistStore st.orderRepoOrders orderID order }
  | none =>
    let order : OrderView :=
      { orderID := orderID, clientOrderID := clientOrderID, accountID := accountID,
        symbol := symbol, side := side, price := price, quantity := quantity,
        remainingQty := quantity, filledQty := 0, status := Matching.OrderStatus.new,
        lastSequence := seq }
    .ok { st with orderRepoOrders := alistStore st.orderRepoOrders orderID order }

/-- `applyMatchToOrder` (nil receiver elided: views come from lookups). -/
def applyMatchToOrder (order : OrderView) (matchQty seq : Int) : OrderView :=
  if order.lastSequence ≥ seq then order
  else
    let filled := order.filledQty + matchQty
    let remaining := order.remainingQty - matchQty
    let status :=
      if remaining = 0 then Matching.OrderStatus.filled
      else Matching.OrderStatus.partFilled
    { order with filledQty := filled, remainingQty := remaining,
                 lastSequence := seq, status := status }

/-- `sameTrade` (timestamps dropped). -/
def sameTrade (a b : TradeView) : Bool :=
  a.tradeID == b.tradeID && a.symbol == b.symbol &&
  a.makerOrderID == b.makerOrderID && a.takerOrderID == b.takerOrderID &&
  a.makerAccountID == b.makerAccountID && a.takerAccountID == b.takerAccountID &&
  a.price == b.price && a.quantity == b.quantity && a.sequence == b.sequence

/-- `MemoryTradeRepository.Save`: idempotent per trade id, conflicting
payloads are rejected. -/
def tradeRepoSave (trades : List (String × TradeView)) (trade : TradeView) :
    Except ProjErr (List (String × TradeView)) :=
  match alistLookup trades trade.tradeID with
  | some existing =>
    if sameTrade existing trade then .ok trades
    else .error (.tradeConflict trade.tradeID)
  | none => .ok (alistStore trades trade.tradeID trade)

/-- `projectOrderMatched`: apply the fill to maker and taker views, check
the match invariants, store both views and the trade view. -/
def projectOrderMatched (st : ProjState) (seq : Int) (symbol : String)
    (tradeID makerOrderID takerOrderID : String) (price quantity : Int) :
    Except ProjErr ProjState :=
  match alistLookup st.orderRepoOrders makerOrderID with
  | none => .error .orderNotFound
  | some makerOrder =>
    match alistLookup st.orderRepoOrders takerOrderID with
    | none => .error .orderNotFound
    | some takerOrder =>
      let makerOrder1 := applyMatchToOrder makerOrder quantity seq
      let takerOrder1 := applyMatchToOrder takerOrder quantity seq
      if makerOrder1.remainingQty < 0 ∨ takerOrder1.remainingQty < 0 then
        .error (.invalidMatch "negative remaining quantity")
      else if makerOrder1.filledQty > makerOrder1.quantity ∨
          takerOrder1.filledQty > takerOrder1.quantity then
        .error (.invalidMatch "filled quantity exceeds order quantity")
      else
        let orders1 := alistStore st.orderRepoOrders makerOrderID makerOrder1
        let orders2 := alistStore orders1 takerOrderID takerOrder1
        let trade : TradeView :=
          { tradeID := tradeID, symbol := symbol, makerOrderID := makerOrderID,
            takerOrderID := takerOrderID, makerAccountID := makerOrder1.accountID,
            takerAccountID := takerOrder1.accountID, price := price,
            quantity := quantity, sequence := seq }
        match tradeRepoSave st.tradeRepoTrades trade with
        | .error e => .error e
        | .ok trades1 =>
          .ok { st with orderRepoOrders := orders2, tradeRepoTrades := trades1 }

/-- `projectOrderCanceled`. -/
def projectOrderCanceled (st : ProjState) (seq : Int) (orderID : String) :
    Except ProjErr ProjState :=
  match alistLookup st.orderRepoOrders orderID with
  | none => .error .orderNotFound
  | some order =>
    if order.lastSequence ≥ seq then .ok st
    else
      let order1 :=
        { order with status := Matching.OrderStatus.canceled, lastSequence := seq }
      .ok { st with orderRepoOrders := alistStore st.orderRepoOrders orderID order1 }

/-- The event-type dispatch inside `Project` (its `switch e := event.(type)`). -/
def applyEvent (st : ProjState) : Matching.Event → Except ProjErr ProjState
  | .accepted _ seq sym orderID clientOrderID accountID side price quantity _ =>
    projectOrderAccepted st seq sym orderID clientOrderID accountID side
      price quantity
  | .matched _ seq sym tradeID makerOrderID takerOrderID price quantity _ _ =>
    projectOrderMatched st seq sym tradeID makerOrderID takerOrderID
      price quantity
  | .canceled _ seq _ orderID _ _ _ =>
    projectOrderCanceled st seq orderID

/-- `Projector.Project`: validate the sequence, apply the event by type,
then advance the trade cursor first and the order cursor second.  The
returned `CursorWrite` list records the cursor writes in execution order. -/
def project (st : ProjState) (event : Matching.Event) :
    Except ProjErr (ProjState × List CursorWrite) :=
  let symbol := event.symbol
  let sequence := event.sequence
  match validateSequence st symbol sequence with
  | .error e => .error e
  | .ok _ =>
    match applyEvent st event with
    | .error e => .error e
    | .ok st1 =>
      match setLastSeq st1.tradeRepoLastSeq symbol sequence with
      | .error m => .error (.advanceFailed ("failed to advance trade sequence: " ++ m))
      | .ok tradeCursors =>
        let st2 := { st1 with tradeRepoLastSeq := tradeCursors }
        match setLastSeq st2.orderRepoLastSeq symbol sequence with
        | .error m => .error (.advanceFailed ("failed to advance order sequence: " ++ m))
        | .ok orderCursors =>
          let st3 := { st2 with orderRepoLastSeq := orderCursors }
          .ok (st3, [CursorWrite.tradeCursor symbol sequence,
                     CursorWrite.orderCursor symbol sequence])

end Projection

namespace Engine

/-- `CommandType`. -/
inductive CommandType
  | place
  | cancel
  | query
deriving DecidableEq, Repr

/-- String form used in `IdempotencyKey.String()`. -/
def CommandType.toStr : CommandType → String
  | .place => "PLACE"
  | .cancel => "CANCEL"
  | .query => "QUERY"

/-- `ErrorCode`. -/
inductive ErrorCode
  | none
  | duplicateRequest
  | invalidArgument
  | internalError
  | orderNotFound
  | orderAlreadyFilled
  | orderAlreadyCanceled
  | unauthorized
deriving DecidableEq, Repr

/-- Modelled from the spec: the declaration of `matching.QueryOrderRequest`
is absent from the provided sources (only its construction sites and uses
appear).  Per §4.2/§7 a query carries `{order_id, account_id, symbol}` and
validation rejects empty required fields, like the other requests. -/
structure QueryOrderRequest where
  orderID : String
  accountID : String
  symbol : String
deriving DecidableEq, Repr

/-- Modelled from the spec: `QueryOrderRequest.Validate` rejects empty
required fields. -/
def QueryOrderRequest.validate (r : QueryOrderRequest) : Option String :=
  if r.orderID = "" then some "order_id required"
  else if r.accountID = "" then some "account_id required"
  else if r.symbol = "" then some "symbol required"
  else none

/-- The envelope's `Payload any` field: one of the three request types, or
a value of the wrong type (`badPayload`), on which the shard's type
assertion fails. -/
inductive CommandPayload
  | place (req : Matching.PlaceOrderRequest)
  | cancel (req : Matching.CancelOrderRequest)
  | query (req : QueryOrderRequest)
  | badPayload
deriving DecidableEq, Repr

/-- `CommandEnvelope` (`CreatedAt` dropped). -/
structure CommandEnvelope where
  commandID : String
  commandType : CommandType
  idempotencyKey : String
  symbol : String
  accountID : String
  payloadHash : String
  payload : CommandPayload
deriving DecidableEq, Repr

/-- The `Result any` field of `CommandExecResult`: a matching
`CommandResult` for place/cancel, an `OrderSnapshot` for query. -/
inductive ExecResultPayload
  | matchResult (r : Matching.CommandResult)
  | orderSnapshot (s : Matching.OrderSnapshot)
deriving DecidableEq, Repr

/-- `CommandExecResult` (the `Err error` field carries only its message). -/
structure CommandExecResult where
  result : Option ExecResultPayload
  errorCode : ErrorCode
  errMsg : Option String
deriving DecidableEq, Repr

/-- `IdempotencyKey`. -/
structure IdempotencyKey where
  accountID : String
  symbol : String
  commandType : CommandType
  idempotencyKey : String
deriving DecidableEq, Repr

/-- `IdempotencyKey.String()`. -/
def IdempotencyKey.keyString (k : IdempotencyKey) : String :=
  k.accountID ++ ":" ++ k.symbol ++ ":" ++ k.commandType.toStr ++ ":" ++
    k.idempotencyKey

/-- `IdempotencyRecord`; `ExpiresAt` is an abstract integer clock value. -/
structure IdempotencyRecord where
  payloadHash : String
  result : Option ExecResultPayload
  errorCode : ErrorCode
  errMsg : Option String
  expiresAt : Int
deriving DecidableEq, Repr

/-- `IdempotencyStore`. -/
structure IdempotencyStore where
  records : List (String × IdempotencyRecord)
  ttl : Int
deriving DecidableEq, Repr

/-- `IdempotencyStore.Check` at abstract time `now`: miss on absent or
expired entries, replay on matching payload hash, conflict otherwise. -/
def IdempotencyStore.check (s : IdempotencyStore) (now : Int) (key : IdempotencyKey)
    (payloadHash : String) : Except String (Option CommandExecResult) :=
  match alistLookup s.records key.keyString with
  | Option.none => .ok Option.none
  | some record =>
    if now > record.expiresAt then .ok Option.none
    else if record.payloadHash ≠ payloadHash then
      .error "idempotency key conflict: same key with different payload"
    else
      .ok (some { result := record.result, errorCode := record.errorCode,
                  errMsg := record.errMsg })

/-- `IdempotencyStore.Store` at abstract time `now`. -/
def IdempotencyStore.store (s : IdempotencyStore) (now : Int) (key : IdempotencyKey)
    (payloadHash : String) (result : CommandExecResult) : IdempotencyStore :=
  let record : IdempotencyRecord :=
    { payloadHash := payloadHash, result := result.result,
      errorCode := result.errorCode, errMsg := result.errMsg,
      expiresAt := now + s.ttl }
  { s with records := alistStore s.records key.keyString record }

/-- Substring test on character lists (`strings.Contains`). -/
def listContainsSub (sub : List Char) : List Char → Bool
  | [] => sub.isPrefixOf ([] : List Char)
  | c :: t => if sub.isPrefixOf (c :: t) then true else listContainsSub sub t

/-- `strings.Contains`. -/
def strContains (s sub : String) : Bool :=
  listContainsSub sub.data s.data

/-- `mapErrorCode`: classify a book error by substring patterns of its
lower-cased message. -/
def mapErrorCode (err : String) : ErrorCode :=
  let errMsg := lowerAscii err
  if strContains errMsg "not found" then ErrorCode.orderNotFound
  else if strContains errMsg "unauthorized" ∨ strContains errMsg "different account" then
    ErrorCode.unauthorized
  else if strContains errMsg "already filled" ∨ strContains errMsg "filled order" then
    ErrorCode.orderAlreadyFilled
  else if strContains errMsg "already canceled" then ErrorCode.orderAlreadyCanceled
  else ErrorCode.invalidArgument

/-- The shard state the claims observe: the per-symbol books, the
idempotency store, and whether an event store is attached.  The snapshot
machinery (`eventCounters`, `checkAndCreateSnapshot`) only writes to the
snapshot store and never alters a command's result, so it is omitted. -/
structure Shard where
  books : List (String × Matching.OrderBook)
  idemStore : IdempotencyStore
  eventStoreAttached : Bool
deriving DecidableEq, Repr

/-- Outcome of `eventStore.Append` for each event during one command: the
I/O oracle standing in for the attached `EventStore`. -/
def appendAll (appendErr : Matching.Event → Option String) :
    List Matching.Event → Option String
  | [] => Option.none
  | e :: es =>
    match appendErr e with
    | some m => some m
    | Option.none => appendAll appendErr es

/-- `executePlace`: type-assert the payload, get or create the book, place
the order, then append each emitted event in order, turning the first append
failure into `INTERNAL_ERROR` (with the book mutation already applied). -/
def Shard.executePlace (s : Shard) (appendErr : Matching.Event → Option String)
    (envelope : CommandEnvelope) : Shard × CommandExecResult :=
  match envelope.payload with
  | CommandPayload.place req =>
    let book :=
      match alistLookup s.books envelope.symbol with
      | some b => b
      | Option.none => Matching.newOrderBook envelope.symbol
    let s0 : Shard := { s with books := alistStore s.books envelope.symbol book }
    match book.placeLimit req with
    | .error e =>
      (s0, { result := Option.none, errorCode := mapErrorCode e, errMsg := some e })
    | .ok (book1, matchResult) =>
      let s1 : Shard := { s0 with books := alistStore s0.books envelope.symbol book1 }
      if s.eventStoreAttached ∧ matchResult.events.length > 0 then
        match appendAll appendErr matchResult.events with
        | some m =>
          (s1, { result := Option.none, errorCode := ErrorCode.internalError,
                 errMsg := some ("failed to persist event: " ++ m) })
        | Option.none =>
          (s1, { result := some (ExecResultPayload.matchResult matchResult),
                 errorCode := ErrorCode.none, errMsg := Option.none })
      else
        (s1, { result := some (ExecResultPayload.matchResult matchResult),
               errorCode := ErrorCode.none, errMsg := Option.none })
  | _ =>
    (s, { result := Option.none, errorCode := ErrorCode.invalidArgument,
          errMsg := some "invalid payload type for PLACE command" })

/-- `executeCancel`. -/
def Shard.executeCancel (s : Shard) (appendErr : Matching.Event → Option String)
    (envelope : CommandEnvelope) : Shard × CommandExecResult :=
  match envelope.payload with
  | CommandPayload.cancel req =>
    match alistLookup s.books envelope.symbol with
    | Option.none =>
      (s, { result := Option.none, errorCode := ErrorCode.orderNotFound,
            errMsg := some ("order book not found for symbol: " ++ envelope.symbol) })
    | some book =>
      match book.cancel req with
      | .error e =>
        (s, { result := Option.none, errorCode := mapErrorCode e, errMsg := some e })
      | .ok (book1, matchResult) =>
        let s1 : Shard := { s with books := alistStore s.books envelope.symbol book1 }
        if s.eventStoreAttached ∧ matchResult.events.length > 0 then
          match appendAll appendErr matchResult.events with
          | some m =>
            (s1, { result := Option.none, errorCode := ErrorCode.internalError,
                   errMsg := some ("failed to persist event: " ++ m) })
          | Option.none =>
            (s1, { result := some (ExecResultPayload.matchResult matchResult),
                   errorCode := ErrorCode.none, errMsg := Option.none })
        else
          (s1, { result := some (ExecResultPayload.matchResult matchResult),
                 errorCode := ErrorCode.none, errMsg := Option.none })
  | _ =>
    (s, { result := Option.none, errorCode := ErrorCode.invalidArgument,
          errMsg := some "invalid payload type for CANCEL command" })

/-- `executeQuery`: no state changes; closed orders come back as the
minimal snapshot, whose empty `accountID` then fails the authorization
comparison for any non-empty requester. -/
def Shard.executeQuery (s : Shard) (envelope : CommandEnvelope) : CommandExecResult :=
  match envelope.payload with
  | CommandPayload.query req =>
    match req.validate with
    | some e =>
      { result := Option.none, errorCode := ErrorCode.invalidArgument,
        errMsg := some e }
    | Option.none =>
      match alistLookup s.books envelope.symbol with
      | Option.none =>
        { result := Option.none, errorCode := ErrorCode.orderNotFound,
          errMsg := some ("order book not found for symbol: " ++ envelope.symbol) }
      | some book =>
        match book.getOrderSnapshot req.orderID with
        | .error e =>
          { result := Option.none, errorCode := mapErrorCode e, errMsg := some e }
        | .ok snapshot =>
          if snapshot.accountID ≠ req.accountID then
            { result := Option.none, errorCode := ErrorCode.unauthorized,
              errMsg := some "unauthorized: order belongs to different account" }
          else
            { result := some (ExecResultPayload.orderSnapshot snapshot),
              errorCode := ErrorCode.none, errMsg := Option.none }
  | _ =>
    { result := Option.none, errorCode := ErrorCode.invalidArgument,
      errMsg := some "invalid payload type for QUERY command" }

/-- `processCommand` at abstract time `now` with append oracle `appendErr`:
consult the idempotency cache, execute on a miss, and store the result —
whatever its error code — back into the cache. -/
def envelopeKey (envelope : CommandEnvelope) : IdempotencyKey :=
  { accountID := envelope.accountID, symbol := envelope.symbol,
    commandType := envelope.commandType,
    idempotencyKey := envelope.idempotencyKey }

def Shard.processCommand (s : Shard) (now : Int)
    (appendErr : Matching.Event → Option String) (envelope : CommandEnvelope) :
    Shard × CommandExecResult :=
  let idemKey : IdempotencyKey := envelopeKey envelope
  match s.idemStore.check now idemKey envelope.payloadHash with
  | .error e =>
    (s, { result := Option.none, errorCode := ErrorCode.duplicateRequest,
          errMsg := some e })
  | .ok (some cachedResult) => (s, cachedResult)
  | .ok Option.none =>
    let stepped :=
      match envelope.commandType with
      | CommandType.place => s.executePlace appendErr envelope
      | CommandType.cancel => s.executeCancel appendErr envelope
      | CommandType.query => (s, s.executeQuery envelope)
    let s1 := stepped.1
    let result := stepped.2
    let s2 : Shard :=
      { s1 with idemStore := s1.idemStore.store now idemKey envelope.payloadHash result }
    (s2, result)

end Engine

/-! ### Theorems -/

namespace Persistence

/-- The consecutive-continuity relation `ValidateSequence` checks between
adjacent events. -/
def consecutive (a b : Matching.Event) : Prop :=
  b.sequence = a.sequence + 1

instance : DecidableRel consecutive :=
  fun _ _ => inferInstanceAs (Decidable (_ = _))

theorem validateSequenceLoop_ok_iff (e : Matching.Event) (l : List Matching.Event) :
    validateSequenceLoop e.sequence l = .ok () ↔ List.Chain' consecutive (e :: l) := by
  induction l generalizing e with
  | nil => simp [validateSequenceLoop]
  | cons f t ih =>
    rw [List.chain'_cons]
    unfold validateSequenceLoop
    by_cases h : f.sequence = e.sequence + 1
    · rw [if_neg (not_not_intro h), ih f]
      simp [consecutive, h]
    · rw [if_pos h]
      exact iff_of_false (fun hh => Except.noConfusion hh) (fun hc => h hc.1)

theorem validateSequence_ok_iff (events : List Matching.Event) :
    validateSequence events = .ok () ↔ List.Chain' consecutive events := by
  cases events with
  | nil => simp [validateSequence]
  | cons e t => simpa [validateSequence] using validateSequenceLoop_ok_iff e t

/-- `Recover` as an explicit case split on the validation outcome. -/
theorem recover_eq (snapshot : Option Snapshot) (log : List Matching.Event) :
    recover snapshot log =
      match validateSequence (readFrom log (expectedStart snapshot)) with
      | .error e => .error ("sequence validation failed: " ++ e)
      | .ok _ => .ok (snapshot, readFrom log (expectedStart snapshot)) := rfl

theorem consecutive_chain_nodup (events : List Matching.Event)
    (h : List.Chain' consecutive events) :
    (events.map Matching.Event.sequence).Nodup := by
  have h1 : List.Chain' (· < ·) (events.map Matching.Event.sequence) := by
    rw [List.chain'_map]
    exact h.imp (fun a b hab => by
      have hab' : b.sequence = a.sequence + 1 := hab
      omega)
  have h2 : List.Pairwise (· < ·) (events.map Matching.Event.sequence) :=
    List.chain'_iff_pairwise.mp h1
  exact h2.imp (fun hlt => ne_of_lt hlt)

end Persistence

/-- A snapshot whose `last_sequence` is 3, so recovery expects the tail of
the log to start at sequence 4. -/
def c4Snap : Persistence.Snapshot :=
  { version := 1, symbol := "BTC-USDT", lastSequence := 3 }

/-- A log tail whose first event has sequence 5: a gap right after the
snapshot. -/
def c4Log : List Matching.Event :=
  [Matching.Event.accepted "evt_5" 5 "BTC-USDT" "o5" "c5" "acct" Matching.Side.buy 1 1
     Matching.OrderStatus.new,
   Matching.Event.accepted "evt_6" 6 "BTC-USDT" "o6" "c6" "acct" Matching.Side.buy 1 1
     Matching.OrderStatus.new]

/-- C4 counterexample: the recovery service accepts a tail whose first
event's sequence (5) is not the expected start (`snapshot.last_sequence + 1
= 4`); `ValidateSequence` never compares the first event against the
expected start, so recovery does not fail on this violation. -/
theorem c4_counterexample :
    Persistence.recover (some c4Snap) c4Log = .ok (some c4Snap, c4Log) ∧
    (c4Log.map Matching.Event.sequence).head? = some 5 ∧
    Persistence.expectedStart (some c4Snap) = 4 := by
  refine ⟨rfl, rfl, rfl⟩

/-- C4 (amended): recovery validates only consecutive continuity of the
events read after the snapshot — it succeeds (returning the filtered tail)
exactly when adjacent events differ by exactly 1, which also rules out
duplicates; the first event is not compared against the expected start. -/
theorem c4_recover_continuity (snapshot : Option Persistence.Snapshot)
    (log : List Matching.Event) :
    (Persistence.recover snapshot log =
        .ok (snapshot, Persistence.readFrom log (Persistence.expectedStart snapshot)) ↔
      List.Chain' Persistence.consecutive
        (Persistence.readFrom log (Persistence.expectedStart snapshot))) ∧
    (List.Chain' Persistence.consecutive
        (Persistence.readFrom log (Persistence.expectedStart snapshot)) →
      ((Persistence.readFrom log (Persistence.expectedStart snapshot)).map
          Matching.Event.sequence).Nodup) := by
  constructor
  · rw [Persistence.recover_eq]
    constructor
    · intro h
      rw [← Persistence.validateSequence_ok_iff]
      cases hv : Persistence.validateSequence
          (Persistence.readFrom log (Persistence.expectedStart snapshot)) with
      | error e => rw [hv] at h; exact absurd h (by simp)
      | ok u => cases u; rfl
    · intro h
      rw [← Persistence.validateSequence_ok_iff] at h
      rw [h]
  · exact Persistence.consecutive_chain_nodup _

/-- Witness for `c4_recover_continuity`: at a concrete snapshot-less log
with consecutive sequences 5, 6 the equivalence yields a successful
recovery, and the implication yields distinctness of the sequences. -/
theorem c4_recover_continuity_witness :
    Persistence.recover none c4Log =
      .ok (none, Persistence.readFrom c4Log (Persistence.expectedStart none)) ∧
    ((Persistence.readFrom c4Log (Persistence.expectedStart none)).map
        Matching.Event.sequence).Nodup :=
  ⟨(c4_recover_continuity none c4Log).1.mpr
     ((Persistence.validateSequence_ok_iff _).mp rfl),
   (c4_recover_continuity none c4Log).2
     ((Persistence.validateSequence_ok_iff _).mp rfl)⟩

/-- `find?` on a cons whose head satisfies the predicate. -/
theorem find?_cons_eq_some {α : Type} (p : α → Bool) (a : α) (l : List α)
    (h : p a = true) : (a :: l).find? p = some a :=
  List.find?_cons_of_pos l h

/-- `find?` on a cons whose head fails the predicate. -/
theorem find?_cons_eq_rest {α : Type} (p : α → Bool) (a : α) (l : List α)
    (h : p a = false) : (a :: l).find? p = l.find? p :=
  List.find?_cons_of_neg l (by simp [h])

theorem alistLookup_store_same {α : Type} (l : List (String × α)) (k : String) (v : α) :
    alistLookup (alistStore l k v) k = some v := by
  induction l with
  | nil =>
    unfold alistStore alistLookup
    rw [find?_cons_eq_some (fun e => e.1 == k) (k, v) [] (by simp)]
    rfl
  | cons e t ih =>
    by_cases hp : (e.1 == k) = true
    · unfold alistStore
      rw [if_pos hp]
      unfold alistLookup
      rw [find?_cons_eq_some (fun e => e.1 == k) (k, v) t (by simp)]
      rfl
    · unfold alistStore
      rw [if_neg hp]
      unfold alistLookup at ih ⊢
      rw [find?_cons_eq_rest (fun e => e.1 == k) e (alistStore t k v)
        (Bool.not_eq_true _ ▸ hp)]
      exact ih

theorem alistLookup_store_other {α : Type} (l : List (String × α)) (k k' : String)
    (v : α) (h : k' ≠ k) :
    alistLookup (alistStore l k v) k' = alistLookup l k' := by
  have hkk : ((k, v).1 == k') = false := by
    simp only [beq_eq_false_iff_ne, ne_eq]
    exact fun hh => h hh.symm
  induction l with
  | nil =>
    unfold alistStore alistLookup
    rw [find?_cons_eq_rest (fun e => e.1 == k') (k, v) [] hkk]
  | cons e t ih =>
    by_cases hp : (e.1 == k) = true
    · unfold alistStore
      rw [if_pos hp]
      unfold alistLookup
      have hk : e.1 = k := by simpa using hp
      rw [find?_cons_eq_rest (fun e => e.1 == k') (k, v) t hkk,
          find?_cons_eq_rest (fun e => e.1 == k') e t (by
            simp only [beq_eq_false_iff_ne, ne_eq, hk]
            exact fun hh => h hh.symm)]
    · unfold alistStore
      rw [if_neg hp]
      unfold alistLookup at ih ⊢
      by_cases hp' : (e.1 == k') = true
      · rw [find?_cons_eq_some (fun e => e.1 == k') e (alistStore t k v) hp',
            find?_cons_eq_some (fun e => e.1 == k') e t hp']
      · rw [find?_cons_eq_rest (fun e => e.1 == k') e (alistStore t k v)
              (Bool.not_eq_true _ ▸ hp'),
            find?_cons_eq_rest (fun e => e.1 == k') e t (Bool.not_eq_true _ ▸ hp')]
        exact ih

namespace Account

/-- The balances-map predicate for one `(account, asset)` key. -/
theorem getBalance_set_same (s : MemoryService) (acc ast : String) (b : Balance) :
    (s.setBalanceEntry acc ast b).getBalance acc ast = b := by
  rcases s with ⟨l, fz, ap⟩
  unfold MemoryService.setBalanceEntry MemoryService.getBalance
  dsimp only
  induction l with
  | nil =>
    unfold storeBal
    rw [find?_cons_eq_some (fun e => e.1.1 == acc && e.1.2 == ast) ((acc, ast), b) []
      (by simp)]
  | cons e t ih =>
    by_cases hp : (e.1.1 == acc && e.1.2 == ast) = true
    · unfold storeBal
      rw [if_pos hp]
      rw [find?_cons_eq_some (fun e => e.1.1 == acc && e.1.2 == ast) (e.1, b)
        (t) hp]
    · unfold storeBal
      rw [if_neg hp]
      rw [find?_cons_eq_rest (fun e => e.1.1 == acc && e.1.2 == ast) e
        (storeBal t acc ast b) (Bool.not_eq_true _ ▸ hp)]
      exact ih

theorem getBalance_set_other (s : MemoryService) (acc ast acc' ast' : String)
    (b : Balance) (hne : ¬ (acc' = acc ∧ ast' = ast)) :
    (s.setBalanceEntry acc ast b).getBalance acc' ast' = s.getBalance acc' ast' := by
  rcases s with ⟨l, fz, ap⟩
  unfold MemoryService.setBalanceEntry MemoryService.getBalance
  dsimp only
  have hnew : (((acc, ast), b).1.1 == acc' && ((acc, ast), b).1.2 == ast') = false := by
    simp only [Bool.and_eq_false_iff, beq_eq_false_iff_ne, ne_eq]
    by_cases h1 : acc = acc'
    · right
      intro h2
      exact hne ⟨h1.symm, h2.symm⟩
    · left
      exact h1
  induction l with
  | nil =>
    unfold storeBal
    rw [find?_cons_eq_rest (fun e => e.1.1 == acc' && e.1.2 == ast') ((acc, ast), b)
      [] hnew]
  | cons e t ih =>
    by_cases hp : (e.1.1 == acc && e.1.2 == ast) = true
    · unfold storeBal
      rw [if_pos hp]
      have hk1 : e.1.1 = acc := by
        have h' := hp
        simp only [Bool.and_eq_true, beq_iff_eq] at h'
        exact h'.1
      have hk2 : e.1.2 = ast := by
        have h' := hp
        simp only [Bool.and_eq_true, beq_iff_eq] at h'
        exact h'.2
      have hfalse : ((fun e => e.1.1 == acc' && e.1.2 == ast')
          ((e.1, b) : (String × String) × Balance)) = false := by
        simp only [Bool.and_eq_false_iff, beq_eq_false_iff_ne, ne_eq, hk1, hk2]
        by_cases h1 : acc = acc'
        · right
          intro h2
          exact hne ⟨h1.symm, h2.symm⟩
        · left
          exact h1
      have hfalse' : ((fun e => e.1.1 == acc' && e.1.2 == ast') e) = false := hfalse
      rw [find?_cons_eq_rest (fun e => e.1.1 == acc' && e.1.2 == ast') (e.1, b) t
            hfalse,
          find?_cons_eq_rest (fun e => e.1.1 == acc' && e.1.2 == ast') e t hfalse']
    · unfold storeBal
      rw [if_neg hp]
      by_cases hp' : (e.1.1 == acc' && e.1.2 == ast') = true
      · rw [find?_cons_eq_some (fun e => e.1.1 == acc' && e.1.2 == ast') e
              (storeBal t acc ast b) hp',
            find?_cons_eq_some (fun e => e.1.1 == acc' && e.1.2 == ast') e t hp']
      · rw [find?_cons_eq_rest (fun e => e.1.1 == acc' && e.1.2 == ast') e
              (storeBal t acc ast b) (Bool.not_eq_true _ ▸ hp'),
            find?_cons_eq_rest (fun e => e.1.1 == acc' && e.1.2 == ast') e t
              (Bool.not_eq_true _ ▸ hp')]
        exact ih

theorem setBalanceEntry_freezes (s : MemoryService) (acc ast : String) (b : Balance) :
    (s.setBalanceEntry acc ast b).freezes = s.freezes := rfl

theorem setBalanceEntry_appliedTrades (s : MemoryService) (acc ast : String)
    (b : Balance) :
    (s.setBalanceEntry acc ast b).appliedTrades = s.appliedTrades := rfl

theorem pow10Loop_pos : ∀ (n : Nat) (v : Int), 0 < v →
    ∀ d : Int, SymbolSpec.pow10Loop n v = .ok d → 0 < d := by
  intro n
  induction n with
  | zero =>
    intro v hv d h
    unfold SymbolSpec.pow10Loop at h
    cases h
    exact hv
  | succ m ih =>
    intro v hv d h
    unfold SymbolSpec.pow10Loop at h
    by_cases hb : v > int64Max / 10
    · rw [if_pos hb] at h
      exact absurd h (by simp)
    · rw [if_neg hb] at h
      exact ih (v * 10) (by omega) d h

theorem pow10_pos (n : Nat) (d : Int) (h : SymbolSpec.pow10 n = .ok d) : 0 < d :=
  pow10Loop_pos n 1 one_pos d h

theorem ceil_div_bounds {prod d : Int} (hd : 0 < d) :
    prod ≤ (if prod % d > 0 then prod / d + 1 else prod / d) * d ∧
    ((if prod % d > 0 then prod / d + 1 else prod / d) - 1) * d < prod := by
  have h1 := Int.ediv_add_emod prod d
  have h2 := Int.emod_nonneg prod (ne_of_gt hd)
  have h3 := Int.emod_lt_of_pos prod hd
  by_cases hr : prod % d > 0
  · rw [if_pos hr]
    constructor <;> nlinarith [h1, h2, h3]
  · rw [if_neg hr]
    constructor <;> nlinarith [h1, h2, h3]

theorem quoteAmountFromTrade_pos {p q : Int} {n : Nat} {a : Int}
    (h : quoteAmountFromTrade p q n = .ok a) : 0 < a := by
  unfold quoteAmountFromTrade at h
  by_cases h0 : p ≤ 0 ∨ q ≤ 0
  · rw [if_pos h0] at h
    exact absurd h (by simp)
  · rw [if_neg h0] at h
    cases hd : SymbolSpec.pow10 n with
    | error e =>
      rw [hd] at h
      simp only [] at h
      exact absurd h (by simp)
    | ok d =>
      rw [hd] at h
      simp only [] at h
      split_ifs at h
      all_goals cases h
      all_goals exact not_le.mp (by assumption)

theorem quoteAmountFromTrade_ceil {p q : Int} {n : Nat} {d a : Int}
    (hd : SymbolSpec.pow10 n = .ok d) (h : quoteAmountFromTrade p q n = .ok a) :
    p * q ≤ a * d ∧ (a - 1) * d < p * q := by
  have hdpos : 0 < d := pow10_pos n d hd
  unfold quoteAmountFromTrade at h
  by_cases h0 : p ≤ 0 ∨ q ≤ 0
  · rw [if_pos h0] at h
    exact absurd h (by simp)
  · rw [if_neg h0] at h
    rw [hd] at h
    simp only [] at h
    have hb := @ceil_div_bounds (p * q) d hdpos
    by_cases hr : p * q % d > 0
    · rw [if_pos hr] at h hb
      split_ifs at h
      cases h
      exact hb
    · rw [if_neg hr] at h hb
      split_ifs at h
      cases h
      exact hb

end Account

/-- The freeze record already held for `order1`. -/
def c3Freeze : Account.FreezeRecord :=
  { accountID := "acc1", asset := "USDT", originalFrozenAmount := 5, frozenAmount := 5 }

/-- A service holding an existing freeze record for `order1` whose available
balance is below the required amount. -/
def c3Service : Account.MemoryService :=
  { balances := [(("acc1", "USDT"), { available := 0, frozen := 5 })],
    freezes := [("order1", c3Freeze)],
    appliedTrades := [] }

/-- Resubmission of the same BUY order: freeze amount
`ceil(43000 × 100 / 10^6) = 5`. -/
def c3Intent : Account.PlaceIntent :=
  { accountID := "acc1", orderID := "order1", symbol := "BTC-USDT", side := "BUY",
    priceInt := 43000, qtyInt := 100 }

/-- C3 counterexample: a valid BUY freeze intent whose `order_id` already has
a matching freeze record succeeds idempotently even though the available
balance (0) is below the required amount (5) — the claim's
`InsufficientBalance` branch does not fire, and no new record is created. -/
theorem c3_counterexample :
    Account.MemoryService.checkAndFreezeForPlace c3Service c3Intent = .ok c3Service ∧
    (c3Service.getBalance "acc1" "USDT").available = 0 ∧
    Account.freezeAmountForPlace "BTC-USDT" "BTC" "USDT" "BUY" 43000 100 =
      .ok ("USDT", 5) :=
  ⟨rfl, rfl, rfl⟩

/-- C3 (amended): for a valid freeze-on-place intent whose `order_id` has no
existing freeze record, BUY freezes the quote asset by
`ceil(price × qty / 10^quantity_scale)` (characterised by the two ceiling
bounds), SELL freezes the base asset by `qty`; insufficient available
balance rejects with `InsufficientBalance` (the functional embedding
returns no state on error, faithfully to the source where every check
precedes every write); otherwise available decreases and frozen increases by
exactly the amount, other balances are untouched, and a freeze record keyed
by `order_id` is created. -/
theorem c3_freeze_contract (s : Account.MemoryService) (intent : Account.PlaceIntent)
    (base quote : String) (spec : SymbolSpec.Spec) (asset : String) (amount d : Int)
    (hvalid : intent.validate = none)
    (hsym : Account.parseSymbol intent.symbol = .ok (base, quote))
    (hspec : SymbolSpec.get intent.symbol = .ok spec)
    (hd : SymbolSpec.pow10 spec.quantityScale = .ok d)
    (hfa : Account.freezeAmountForPlace intent.symbol base quote intent.side
      intent.priceInt intent.qtyInt = .ok (asset, amount))
    (hfresh : alistLookup s.freezes intent.orderID = none) :
    (intent.side = "BUY" → asset = quote ∧
      intent.priceInt * intent.qtyInt ≤ amount * d ∧
      (amount - 1) * d < intent.priceInt * intent.qtyInt) ∧
    (intent.side = "SELL" → asset = base ∧ amount = intent.qtyInt) ∧
    ((s.getBalance intent.accountID asset).available < amount →
      s.checkAndFreezeForPlace intent =
        .error (.insufficientBalance intent.accountID asset amount
          (s.getBalance intent.accountID asset).available)) ∧
    (¬ (s.getBalance intent.accountID asset).available < amount →
      ∃ s2, s.checkAndFreezeForPlace intent = .ok s2 ∧
        s2.getBalance intent.accountID asset =
          { available := (s.getBalance intent.accountID asset).available - amount,
            frozen := (s.getBalance intent.accountID asset).frozen + amount } ∧
        (∀ acc2 ast2, ¬ (acc2 = intent.accountID ∧ ast2 = asset) →
          s2.getBalance acc2 ast2 = s.getBalance acc2 ast2) ∧
        alistLookup s2.freezes intent.orderID =
          some { accountID := intent.accountID, asset := asset,
                 originalFrozenAmount := amount, frozenAmount := amount } ∧
        (∀ oid, oid ≠ intent.orderID →
          alistLookup s2.freezes oid = alistLookup s.freezes oid)) := by
  have hfacts : ¬ intent.accountID = "" ∧ ¬ intent.orderID = "" ∧
      ¬ intent.symbol = "" ∧ (intent.side = "BUY" ∨ intent.side = "SELL") ∧
      0 < intent.priceInt ∧ 0 < intent.qtyInt := by
    unfold Account.PlaceIntent.validate at hvalid
    split_ifs at hvalid with h1 h2 h3 h4 h5 h6 <;>
      first
      | exact absurd hvalid (fun hh => Option.noConfusion hh)
      | (refine ⟨h1, h2, h3, ?_, by omega, by omega⟩
         rcases not_and_or.mp h4 with hc | hc
         exacts [Or.inl (not_not.mp hc), Or.inr (not_not.mp hc)])
  have hbuyParts : intent.side = "BUY" →
      Account.quoteAmountFromTrade intent.priceInt intent.qtyInt spec.quantityScale =
        .ok amount ∧ asset = quote := by
    intro hb
    unfold Account.freezeAmountForPlace at hfa
    rw [if_pos hb, hspec] at hfa
    simp only [] at hfa
    cases hqa : Account.quoteAmountFromTrade intent.priceInt intent.qtyInt
        spec.quantityScale with
    | error e => rw [hqa] at hfa; exact absurd hfa (by simp)
    | ok a' =>
      rw [hqa] at hfa
      simp only [] at hfa
      cases hfa
      exact ⟨rfl, rfl⟩
  have hsellParts : intent.side = "SELL" → asset = base ∧ amount = intent.qtyInt := by
    intro hsell
    unfold Account.freezeAmountForPlace at hfa
    rw [if_neg (by rw [hsell]; decide)] at hfa
    cases hfa
    exact ⟨rfl, rfl⟩
  have hamount : 0 < amount := by
    rcases hfacts.2.2.2.1 with hb | hsell
    · exact Account.quoteAmountFromTrade_pos (hbuyParts hb).1
    · rw [(hsellParts hsell).2]
      exact hfacts.2.2.2.2.2
  have hrun : s.checkAndFreezeForPlace intent =
      (if (s.getBalance intent.accountID asset).available < amount then
        .error (.insufficientBalance intent.accountID asset amount
          (s.getBalance intent.accountID asset).available)
      else
        .ok { (s.setBalanceEntry intent.accountID asset
                { available := (s.getBalance intent.accountID asset).available - amount,
                  frozen := (s.getBalance intent.accountID asset).frozen + amount }) with
              freezes := alistStore
                (s.setBalanceEntry intent.accountID asset
                  { available := (s.getBalance intent.accountID asset).available - amount,
                    frozen := (s.getBalance intent.accountID asset).frozen + amount }).freezes
                intent.orderID
                { accountID := intent.accountID, asset := asset,
                  originalFrozenAmount := amount, frozenAmount := amount } }) := by
    unfold Account.MemoryService.checkAndFreezeForPlace
    rw [hvalid]
    simp only []
    rw [hsym]
    simp only []
    rw [hspec]
    simp only []
    rw [hfa]
    simp only []
    rw [if_neg (by omega), hfresh]
  refine ⟨fun hb => ⟨(hbuyParts hb).2, ?_, ?_⟩, hsellParts, fun hlt => ?_, fun hge => ?_⟩
  · exact (Account.quoteAmountFromTrade_ceil hd (hbuyParts hb).1).1
  · exact (Account.quoteAmountFromTrade_ceil hd (hbuyParts hb).1).2
  · rw [hrun, if_pos hlt]
  · refine ⟨_, by rw [hrun, if_neg hge], ?_, ?_, ?_, ?_⟩
    · show Account.MemoryService.getBalance _ _ _ = _
      exact Account.getBalance_set_same s intent.accountID asset _
    · intro acc2 ast2 hne
      exact Account.getBalance_set_other s intent.accountID asset acc2 ast2 _ hne
    · show alistLookup (alistStore _ _ _) _ = _
      rw [Account.setBalanceEntry_freezes]
      exact alistLookup_store_same s.freezes intent.orderID _
    · intro oid hoid
      show alistLookup (alistStore _ _ _) _ = _
      rw [Account.setBalanceEntry_freezes]
      exact alistLookup_store_other s.freezes intent.orderID oid _ hoid

/-- Witness for `c3_freeze_contract`: a concrete fresh BUY freeze on an
account holding 10 USDT available. -/
theorem c3_freeze_contract_witness :
    ∃ s2, Account.MemoryService.checkAndFreezeForPlace
        { balances := [(("acc1", "USDT"), { available := 10, frozen := 0 })],
          freezes := [], appliedTrades := [] } c3Intent = .ok s2 ∧
      s2.getBalance "acc1" "USDT" = { available := 5, frozen := 5 } := by
  have h := c3_freeze_contract
    { balances := [(("acc1", "USDT"), { available := 10, frozen := 0 })],
      freezes := [], appliedTrades := [] } c3Intent "BTC" "USDT"
    { symbol := "BTC-USDT", priceScale := 6, quantityScale := 6,
      priceTickInt := 1, qtyStepInt := 1 } "USDT" 5 1000000
    rfl rfl rfl rfl rfl rfl
  rcases h.2.2.2 (by decide) with ⟨s2, hok, hbal, _⟩
  exact ⟨s2, hok, hbal.trans (by rfl)⟩

theorem contains_append_singleton (l : List String) (k : String) :
    (l ++ [k]).contains k = true := by
  induction l with
  | nil => simp
  | cons a t ih => simpa using Or.inr ih

namespace Account

/-- Facts every error-free `ApplyTrade` run certifies: the intent passed all
validations, the symbol parsed, the spec resolved, and the resulting state
carries the `(symbol, trade_id)` replay marker. -/
theorem applyTrade_ok_facts (s s1 : MemoryService) (intent : TradeIntent)
    (h : s.applyTrade intent = (s1, none)) :
    ¬ intent.tradeID = "" ∧ ¬ intent.buyerAccountID = "" ∧
    ¬ intent.sellerAccountID = "" ∧ ¬ intent.buyerOrderID = "" ∧
    ¬ intent.sellerOrderID = "" ∧ 0 < intent.priceInt ∧ 0 < intent.quantityInt ∧
    (∃ bq, parseSymbol intent.symbol = .ok bq) ∧
    (∃ sp, SymbolSpec.get intent.symbol = .ok sp) ∧
    s1.appliedTrades.contains (intent.symbol ++ "|" ++ intent.tradeID) = true := by
  unfold MemoryService.applyTrade at h
  by_cases c1 : intent.tradeID = ""
  · rw [if_pos c1] at h
    injection h with hfst hsnd
    exact Option.noConfusion hsnd
  rw [if_neg c1] at h
  by_cases c2 : intent.buyerAccountID = "" ∨ intent.sellerAccountID = ""
  · rw [if_pos c2] at h
    injection h with hfst hsnd
    exact Option.noConfusion hsnd
  rw [if_neg c2] at h
  by_cases c3 : intent.buyerOrderID = "" ∨ intent.sellerOrderID = ""
  · rw [if_pos c3] at h
    injection h with hfst hsnd
    exact Option.noConfusion hsnd
  rw [if_neg c3] at h
  by_cases c4 : intent.priceInt ≤ 0 ∨ intent.quantityInt ≤ 0
  · rw [if_pos c4] at h
    injection h with hfst hsnd
    exact Option.noConfusion hsnd
  rw [if_neg c4] at h
  cases hps : parseSymbol intent.symbol with
  | error e =>
    rw [hps] at h
    simp only [] at h
    injection h with hfst hsnd
    exact Option.noConfusion hsnd
  | ok bq =>
    obtain ⟨base, quote⟩ := bq
    rw [hps] at h
    simp only [] at h
    cases hsp : SymbolSpec.get intent.symbol with
    | error e =>
      rw [hsp] at h
      simp only [] at h
      injection h with hfst hsnd
      exact Option.noConfusion hsnd
    | ok sp =>
      rw [hsp] at h
      simp only [] at h
      by_cases cm : s.appliedTrades.contains (intent.symbol ++ "|" ++ intent.tradeID) = true
      · rw [if_pos cm] at h
        injection h with hfst hsnd
        rw [← hfst]
        exact ⟨c1, (not_or.mp c2).1, (not_or.mp c2).2, (not_or.mp c3).1,
          (not_or.mp c3).2, by omega, by omega, ⟨(base, quote), rfl⟩, ⟨sp, rfl⟩, cm⟩
      · rw [if_neg cm] at h
        cases hqa : quoteAmountFromTrade intent.priceInt intent.quantityInt
            sp.quantityScale with
        | error e =>
          rw [hqa] at h
          simp only [] at h
          injection h with hfst hsnd
          exact Option.noConfusion hsnd
        | ok qa =>
          rw [hqa] at h
          simp only [] at h
          repeat' split at h
          all_goals injection h with hfst hsnd
          all_goals first
          | exact Option.noConfusion hsnd
          | (rw [← hfst]
             exact ⟨c1, (not_or.mp c2).1, (not_or.mp c2).2, (not_or.mp c3).1,
               (not_or.mp c3).2, by omega, by omega, ⟨(base, quote), rfl⟩, ⟨sp, rfl⟩,
               contains_append_singleton _ _⟩)

/-- A replay of an already-applied trade is a no-op: with valid fields, a
parsable supported symbol and the replay marker present, `ApplyTrade`
returns immediately with no error and no state change. -/
theorem applyTrade_replay (s : MemoryService) (intent : TradeIntent)
    (base quote : String) (sp : SymbolSpec.Spec)
    (h1 : ¬ intent.tradeID = "") (h2 : ¬ intent.buyerAccountID = "")
    (h3 : ¬ intent.sellerAccountID = "") (h4 : ¬ intent.buyerOrderID = "")
    (h5 : ¬ intent.sellerOrderID = "") (h6 : 0 < intent.priceInt)
    (h7 : 0 < intent.quantityInt)
    (hps : parseSymbol intent.symbol = .ok (base, quote))
    (hsp : SymbolSpec.get intent.symbol = .ok sp)
    (hmark : s.appliedTrades.contains (intent.symbol ++ "|" ++ intent.tradeID) = true) :
    s.applyTrade intent = (s, none) := by
  unfold MemoryService.applyTrade
  rw [if_neg h1, if_neg (not_or.mpr ⟨h2, h3⟩), if_neg (not_or.mpr ⟨h4, h5⟩),
      if_neg (not_or.mpr ⟨by omega, by omega⟩), hps]
  simp only []
  rw [hsp]
  simp only []
  rw [if_pos hmark]

/-- C7 (amended): when the first application of a trade intent succeeds, a
second application of the same intent is a no-op — it returns without error
and leaves the ledger state exactly as after the first application. -/
theorem c7_second_application_noop (s s1 : MemoryService) (intent : TradeIntent)
    (h : s.applyTrade intent = (s1, none)) :
    s1.applyTrade intent = (s1, none) := by
  obtain ⟨h1, h2, h3, h4, h5, h6, h7, ⟨⟨base, quote⟩, hps⟩, ⟨sp, hsp⟩, hmark⟩ :=
    applyTrade_ok_facts s s1 intent h
  exact applyTrade_replay s1 intent base quote sp h1 h2 h3 h4 h5 h6 h7 hps hsp hmark

end Account

namespace Account

/-- C5 (amended, part proved generally): every `ApplyTrade` error other than
the three underflow errors is raised before the first write, so the entire
ledger state is unchanged.  The underflow errors themselves are returned
after earlier writes have been applied (see the counterexample): the
buyer-side and seller-side legs are not atomic. -/
theorem c5_error_state (s : MemoryService) (intent : TradeIntent) (e : AccountErr)
    (herr : (s.applyTrade intent).2 = some e)
    (hn1 : e ≠ .msg "insufficient seller frozen base for trade")
    (hn2 : e ≠ .msg ("buyer freeze record underflow for order " ++ intent.buyerOrderID))
    (hn3 : e ≠ .msg ("seller freeze record underflow for order " ++
      intent.sellerOrderID)) :
    (s.applyTrade intent).1 = s := by
  rcases hspair : s.applyTrade intent with ⟨rs, re⟩
  rw [hspair] at herr
  simp only [] at herr
  show rs = s
  unfold MemoryService.applyTrade at hspair
  by_cases c1 : intent.tradeID = ""
  · rw [if_pos c1] at hspair
    injection hspair with h1 h2
    exact h1.symm
  rw [if_neg c1] at hspair
  by_cases c2 : intent.buyerAccountID = "" ∨ intent.sellerAccountID = ""
  · rw [if_pos c2] at hspair
    injection hspair with h1 h2
    exact h1.symm
  rw [if_neg c2] at hspair
  by_cases c3 : intent.buyerOrderID = "" ∨ intent.sellerOrderID = ""
  · rw [if_pos c3] at hspair
    injection hspair with h1 h2
    exact h1.symm
  rw [if_neg c3] at hspair
  by_cases c4 : intent.priceInt ≤ 0 ∨ intent.quantityInt ≤ 0
  · rw [if_pos c4] at hspair
    injection hspair with h1 h2
    exact h1.symm
  rw [if_neg c4] at hspair
  cases hps : parseSymbol intent.symbol with
  | error e2 =>
    rw [hps] at hspair
    simp only [] at hspair
    injection hspair with h1 h2
    exact h1.symm
  | ok bq =>
    obtain ⟨base, quote⟩ := bq
    rw [hps] at hspair
    simp only [] at hspair
    cases hsp : SymbolSpec.get intent.symbol with
    | error e2 =>
      rw [hsp] at hspair
      simp only [] at hspair
      injection hspair with h1 h2
      exact h1.symm
    | ok sp =>
      rw [hsp] at hspair
      simp only [] at hspair
      by_cases cm : s.appliedTrades.contains (intent.symbol ++ "|" ++ intent.tradeID)
          = true
      · rw [if_pos cm] at hspair
        injection hspair with h1 h2
        exact h1.symm
      · rw [if_neg cm] at hspair
        cases hqa : quoteAmountFromTrade intent.priceInt intent.quantityInt
            sp.quantityScale with
        | error e2 =>
          rw [hqa] at hspair
          simp only [] at hspair
          injection hspair with h1 h2
          exact h1.symm
        | ok qa =>
          rw [hqa] at hspair
          simp only [] at hspair
          repeat' split at hspair
          all_goals injection hspair with h1 h2
          all_goals rw [← h2] at herr
          all_goals first
          | exact h1.symm
          | (exfalso
             first
             | exact Option.noConfusion herr
             | (injection herr with he
                first
                | exact hn1 he.symm
                | exact hn2 he.symm
                | exact hn3 he.symm))

end Account

/-- An intent whose trade id is empty: rejected before any mutation. -/
def c5BadIntent : Account.TradeIntent :=
  { tradeID := "", buyerAccountID := "B", sellerAccountID := "S",
    buyerOrderID := "bo", sellerOrderID := "so", symbol := "BTC-USDT",
    priceInt := 1, quantityInt := 1 }

/-- Witness for `c5_error_state`: a validation failure leaves the fresh
service unchanged. -/
theorem c5_error_state_witness :
    (Account.newMemoryService.applyTrade c5BadIntent).1 = Account.newMemoryService :=
  Account.c5_error_state Account.newMemoryService c5BadIntent .invalidAmount rfl
    (by decide) (by decide) (by decide)

/-- Buyer has 2 frozen USDT, seller has no frozen BTC: the buyer leg of the
trade will apply, then the seller-side check fails. -/
def c5Service : Account.MemoryService :=
  { balances := [(("B", "USDT"), { available := 0, frozen := 2 }),
                 (("S", "BTC"), { available := 0, frozen := 0 })],
    freezes := [], appliedTrades := [] }

/-- A trade of 1 base unit at price 1 on BTC-USDT: quote amount
`ceil(1 × 1 / 10^6) = 1`. -/
def c5Intent : Account.TradeIntent :=
  { tradeID := "trd_1", buyerAccountID := "B", sellerAccountID := "S",
    buyerOrderID := "bo", sellerOrderID := "so", symbol := "BTC-USDT",
    priceInt := 1, quantityInt := 1 }

/-- C5 counterexample: `ApplyTrade` returns the seller-underflow error, yet
the buyer's balances have already been mutated (frozen USDT 2 → 1, available
BTC 0 → 1): the ledger is not unchanged and the two legs are not atomic. -/
theorem c5_counterexample :
    (c5Service.applyTrade c5Intent).2 =
      some (.msg "insufficient seller frozen base for trade") ∧
    (c5Service.applyTrade c5Intent).1.getBalance "B" "USDT" =
      { available := 0, frozen := 1 } ∧
    (c5Service.applyTrade c5Intent).1.getBalance "B" "BTC" =
      { available := 1, frozen := 0 } ∧
    c5Service.getBalance "B" "USDT" = { available := 0, frozen := 2 } ∧
    c5Service.getBalance "B" "BTC" = { available := 0, frozen := 0 } :=
  ⟨rfl, rfl, rfl, rfl, rfl⟩

/-- Same configuration for the idempotency claim. -/
def c7Service : Account.MemoryService :=
  { balances := [(("B", "USDT"), { available := 0, frozen := 2 }),
                 (("S", "BTC"), { available := 0, frozen := 0 })],
    freezes := [], appliedTrades := [] }

/-- Same trade intent for the idempotency claim. -/
def c7Intent : Account.TradeIntent :=
  { tradeID := "trd_1", buyerAccountID := "B", sellerAccountID := "S",
    buyerOrderID := "bo", sellerOrderID := "so", symbol := "BTC-USDT",
    priceInt := 1, quantityInt := 1 }

/-- C7 counterexample: when the first application fails after the buyer leg,
no replay marker is recorded, so the second application of the same intent
mutates the buyer again and errors again — the state differs from a single
application and the second call does not return without error. -/
theorem c7_counterexample :
    ((c7Service.applyTrade c7Intent).1.applyTrade c7Intent).2 =
      some (.msg "insufficient seller frozen base for trade") ∧
    ((c7Service.applyTrade c7Intent).1.applyTrade c7Intent).1.getBalance "B" "USDT" =
      { available := 0, frozen := 0 } ∧
    (c7Service.applyTrade c7Intent).1.getBalance "B" "USDT" =
      { available := 0, frozen := 1 } :=
  ⟨rfl, rfl, rfl⟩

/-- A configuration on which the first application succeeds. -/
def c7GoodService : Account.MemoryService :=
  { balances := [(("B", "USDT"), { available := 0, frozen := 2 }),
                 (("S", "BTC"), { available := 0, frozen := 3 })],
    freezes := [], appliedTrades := [] }

/-- Witness for `c7_second_application_noop`: after a successful concrete
application, the second application returns the same state with no error. -/
theorem c7_second_application_noop_witness :
    ((c7GoodService.applyTrade c7Intent).1).applyTrade c7Intent =
      ((c7GoodService.applyTrade c7Intent).1, none) :=
  Account.c7_second_application_noop c7GoodService
    (c7GoodService.applyTrade c7Intent).1 c7Intent (by rfl)

namespace Engine

/-- C10: querying an order that has been moved to `closed_orders` returns
UNAUTHORIZED for every requester with a non-empty account id — the minimal
closed-order snapshot carries `accountID = ""`, which never matches. -/
theorem c10_query_closed_unauthorized (shard : Shard) (envelope : CommandEnvelope)
    (req : QueryOrderRequest) (book : Matching.OrderBook) (st : Matching.OrderStatus)
    (hpayload : envelope.payload = .query req)
    (hOrder : req.orderID ≠ "") (hAcct : req.accountID ≠ "") (hSym : req.symbol ≠ "")
    (hbook : alistLookup shard.books envelope.symbol = some book)
    (hactive : Matching.lookupOrder book.orders req.orderID = none)
    (hclosed : Matching.lookupClosed book.closedOrders req.orderID = some st) :
    shard.executeQuery envelope =
      { result := none, errorCode := ErrorCode.unauthorized,
        errMsg := some "unauthorized: order belongs to different account" } := by
  unfold Shard.executeQuery
  rw [hpayload]
  simp only []
  have hval : req.validate = none := by
    unfold QueryOrderRequest.validate
    rw [if_neg hOrder, if_neg hAcct, if_neg hSym]
  rw [hval]
  simp only []
  rw [hbook]
  simp only []
  have hsnap : book.getOrderSnapshot req.orderID =
      .ok { orderID := req.orderID, clientOrderID := "", accountID := "",
            symbol := book.symbol, side := Matching.Side.buy, price := 0,
            quantity := 0, remainingQty := 0, filledQty := 0, status := st } := by
    unfold Matching.OrderBook.getOrderSnapshot
    rw [hactive]
    simp only []
    rw [hclosed]
  rw [hsnap]
  simp only []
  rw [if_pos (show ("" : String) ≠ req.accountID from fun h => hAcct h.symm)]

end Engine

/-- A book whose only trace of order `o1` is its terminal FILLED status. -/
def c10Book : Matching.OrderBook :=
  { symbol := "BTC-USDT", bidLevels := [], askLevels := [], orders := [],
    closedOrders := [("o1", Matching.OrderStatus.filled)], eventSeq := 3,
    tradeSeq := 1 }

/-- A shard holding that book. -/
def c10Shard : Engine.Shard :=
  { books := [("BTC-USDT", c10Book)],
    idemStore := { records := [], ttl := 86400 }, eventStoreAttached := false }

/-- The owner of `o1` queries their own closed order. -/
def c10Envelope : Engine.CommandEnvelope :=
  { commandID := "cmd1", commandType := Engine.CommandType.query,
    idempotencyKey := "k1", symbol := "BTC-USDT", accountID := "A",
    payloadHash := "h1",
    payload := Engine.CommandPayload.query
      { orderID := "o1", accountID := "A", symbol := "BTC-USDT" } }

/-- Witness for `c10_query_closed_unauthorized`: even the owning account is
answered UNAUTHORIZED for its closed order. -/
theorem c10_query_closed_unauthorized_witness :
    c10Shard.executeQuery c10Envelope =
      { result := none, errorCode := Engine.ErrorCode.unauthorized,
        errMsg := some "unauthorized: order belongs to different account" } :=
  Engine.c10_query_closed_unauthorized c10Shard c10Envelope
    { orderID := "o1", accountID := "A", symbol := "BTC-USDT" } c10Book
    Matching.OrderStatus.filled rfl (by decide) (by decide) (by decide) rfl rfl rfl

namespace Engine

/-- C9 (amended, replay half): a resubmission whose idempotency key holds a
non-expired record with a matching payload fingerprint is answered with the
cached result — whatever its error code — and the shard is unchanged. -/
theorem c9_resubmission_replays_cached (s : Shard) (now : Int)
    (appendErr : Matching.Event → Option String) (envelope : CommandEnvelope)
    (record : IdempotencyRecord)
    (hrec : alistLookup s.idemStore.records (envelopeKey envelope).keyString =
      some record)
    (hexp : ¬ now > record.expiresAt)
    (hhash : record.payloadHash = envelope.payloadHash) :
    s.processCommand now appendErr envelope =
      (s, { result := record.result, errorCode := record.errorCode,
            errMsg := record.errMsg }) := by
  unfold Shard.processCommand IdempotencyStore.check
  simp only []
  rw [hrec]
  simp only []
  rw [if_neg hexp, if_neg (not_not_intro hhash)]

/-- C9 (amended, caching half): when the event-log append of a place command
fails, the command returns INTERNAL_ERROR and that error result is stored in
the idempotency cache under the command's key. -/
theorem c9_append_failure_cached (s : Shard) (now : Int)
    (appendErr : Matching.Event → Option String) (envelope : CommandEnvelope)
    (req : Matching.PlaceOrderRequest) (book book1 : Matching.OrderBook)
    (mres : Matching.CommandResult) (m : String)
    (hkind : envelope.commandType = CommandType.place)
    (hpayload : envelope.payload = .place req)
    (hmiss : s.idemStore.check now (envelopeKey envelope) envelope.payloadHash =
      .ok none)
    (hbook : alistLookup s.books envelope.symbol = some book)
    (hplace : book.placeLimit req = .ok (book1, mres))
    (hatt : s.eventStoreAttached = true)
    (hlen : mres.events.length > 0)
    (happ : appendAll appendErr mres.events = some m) :
    ∃ s2, s.processCommand now appendErr envelope =
      (s2, { result := none, errorCode := ErrorCode.internalError,
             errMsg := some ("failed to persist event: " ++ m) }) ∧
      alistLookup s2.idemStore.records (envelopeKey envelope).keyString =
        some { payloadHash := envelope.payloadHash, result := none,
               errorCode := ErrorCode.internalError,
               errMsg := some ("failed to persist event: " ++ m),
               expiresAt := now + s.idemStore.ttl } := by
  unfold Shard.processCommand
  simp only []
  rw [hmiss]
  simp only []
  rw [hkind]
  simp only []
  unfold Shard.executePlace
  rw [hpayload]
  simp only []
  rw [hbook]
  simp only []
  rw [hplace]
  simp only []
  rw [if_pos (by exact ⟨hatt, hlen⟩), happ]
  simp only []
  refine ⟨_, rfl, ?_⟩
  unfold IdempotencyStore.store
  simp only []
  exact alistLookup_store_same _ _ _

end Engine

/-- A shard with an attached event store, an empty idempotency cache and no
books yet. -/
def c9Shard : Engine.Shard :=
  { books := [], idemStore := { records := [], ttl := 86400 },
    eventStoreAttached := true }

/-- A place command for a fresh BUY order resting on an empty book. -/
def c9Envelope : Engine.CommandEnvelope :=
  { commandID := "cmd9", commandType := Engine.CommandType.place,
    idempotencyKey := "k9", symbol := "BTC-USDT", accountID := "A",
    payloadHash := "h9",
    payload := Engine.CommandPayload.place
      { orderID := "o9", clientOrderID := "c9", accountID := "A",
        symbol := "BTC-USDT", side := Matching.Side.buy, priceInt := 43000000000,
        quantityInt := 100000000 } }

/-- An event store whose every append fails. -/
def c9FailOracle : Matching.Event → Option String := fun _ => some "disk full"

/-- A healthy event store. -/
def c9OkOracle : Matching.Event → Option String := fun _ => Option.none

/-- C9 counterexample: the failed-append command returns INTERNAL_ERROR, and
resubmitting the same command (same key, same payload hash) against a now
healthy event store does NOT retry cleanly: it is answered with the cached
INTERNAL_ERROR and the shard is left unchanged, refuting the claim that a
resubmission is never answered with the cached error. -/
theorem c9_counterexample :
    (c9Shard.processCommand 0 c9FailOracle c9Envelope).2.errorCode =
      Engine.ErrorCode.internalError ∧
    (c9Shard.processCommand 0 c9FailOracle c9Envelope).2.errMsg =
      some "failed to persist event: disk full" ∧
    ((c9Shard.processCommand 0 c9FailOracle c9Envelope).1.processCommand 1
        c9OkOracle c9Envelope) =
      ((c9Shard.processCommand 0 c9FailOracle c9Envelope).1,
       (c9Shard.processCommand 0 c9FailOracle c9Envelope).2) :=
  ⟨rfl, rfl, rfl⟩

/-- Witness for `c9_resubmission_replays_cached`: a cached INTERNAL_ERROR
record is replayed verbatim on resubmission. -/
theorem c9_resubmission_replays_cached_witness :
    ((c9Shard.processCommand 0 c9FailOracle c9Envelope).1.processCommand 1
        c9OkOracle c9Envelope) =
      ((c9Shard.processCommand 0 c9FailOracle c9Envelope).1,
       { result := Option.none, errorCode := Engine.ErrorCode.internalError,
         errMsg := some "failed to persist event: disk full" }) :=
  Engine.c9_resubmission_replays_cached
    (c9Shard.processCommand 0 c9FailOracle c9Envelope).1 1 c9OkOracle c9Envelope
    { payloadHash := "h9", result := Option.none,
      errorCode := Engine.ErrorCode.internalError,
      errMsg := some "failed to persist event: disk full", expiresAt := 86400 }
    rfl (by decide) rfl

namespace Projection

/-- Whether a projector error is the gap error. -/
def ProjErr.isGap : ProjErr → Bool
  | .gap _ _ _ => true
  | _ => false

/-- Whether a projector error is the regression error. -/
def ProjErr.isRegression : ProjErr → Bool
  | .regression _ _ _ => true
  | _ => false

/-- C8 (amended): `Project` requires the two per-symbol cursors to agree
(else a mismatch error); with agreeing cursors at 0, any sequence other
than 1 — higher as well as lower — fails with the first-event error, not a
gap or regression; with agreeing cursors above 0, a sequence below
`last + 1` is a regression and one above it is a gap; and every successful
call advances both cursors to the event's sequence, writing the trade
cursor first and the order cursor second. -/
theorem c8_projector_sequence_discipline (st : ProjState) (event : Matching.Event) :
    (getLastSeq st.orderRepoLastSeq event.symbol ≠
        getLastSeq st.tradeRepoLastSeq event.symbol →
      project st event = .error (.mismatch event.symbol
        (getLastSeq st.orderRepoLastSeq event.symbol)
        (getLastSeq st.tradeRepoLastSeq event.symbol))) ∧
    (getLastSeq st.orderRepoLastSeq event.symbol =
        getLastSeq st.tradeRepoLastSeq event.symbol →
      getLastSeq st.orderRepoLastSeq event.symbol = 0 → event.sequence ≠ 1 →
      project st event = .error (.firstNotOne event.sequence)) ∧
    (getLastSeq st.orderRepoLastSeq event.symbol =
        getLastSeq st.tradeRepoLastSeq event.symbol →
      getLastSeq st.orderRepoLastSeq event.symbol > 0 →
      event.sequence < getLastSeq st.orderRepoLastSeq event.symbol + 1 →
      project st event = .error (.regression event.symbol
        (getLastSeq st.orderRepoLastSeq event.symbol) event.sequence)) ∧
    (getLastSeq st.orderRepoLastSeq event.symbol =
        getLastSeq st.tradeRepoLastSeq event.symbol →
      getLastSeq st.orderRepoLastSeq event.symbol > 0 →
      event.sequence > getLastSeq st.orderRepoLastSeq event.symbol + 1 →
      project st event = .error (.gap event.symbol
        (getLastSeq st.orderRepoLastSeq event.symbol) event.sequence)) ∧
    (∀ st1 ws, project st event = .ok (st1, ws) →
      ws = [CursorWrite.tradeCursor event.symbol event.sequence,
            CursorWrite.orderCursor event.symbol event.sequence] ∧
      getLastSeq st1.tradeRepoLastSeq event.symbol = event.sequence ∧
      getLastSeq st1.orderRepoLastSeq event.symbol = event.sequence) := by
  refine ⟨?_, ?_, ?_, ?_, ?_⟩
  · intro hne
    have hval : validateSequence st event.symbol event.sequence =
        .error (.mismatch event.symbol
          (getLastSeq st.orderRepoLastSeq event.symbol)
          (getLastSeq st.tradeRepoLastSeq event.symbol)) := by
      unfold validateSequence
      simp only []
      rw [if_pos hne]
    unfold project
    simp only []
    rw [hval]
  · intro heq h0 hq1
    have hval : validateSequence st event.symbol event.sequence =
        .error (.firstNotOne event.sequence) := by
      unfold validateSequence
      simp only []
      rw [if_neg (not_not_intro heq), if_pos (And.intro h0 hq1)]
    unfold project
    simp only []
    rw [hval]
  · intro heq hpos hlow
    have hval : validateSequence st event.symbol event.sequence =
        .error (.regression event.symbol
          (getLastSeq st.orderRepoLastSeq event.symbol) event.sequence) := by
      unfold validateSequence
      simp only []
      rw [if_neg (not_not_intro heq),
        if_neg (fun hc => absurd hc.1 (by omega)),
        if_pos (And.intro hpos (by omega)), if_pos hlow]
    unfold project
    simp only []
    rw [hval]
  · intro heq hpos hhigh
    have hval : validateSequence st event.symbol event.sequence =
        .error (.gap event.symbol
          (getLastSeq st.orderRepoLastSeq event.symbol) event.sequence) := by
      unfold validateSequence
      simp only []
      rw [if_neg (not_not_intro heq),
        if_neg (fun hc => absurd hc.1 (by omega)),
        if_pos (And.intro hpos (by omega)), if_neg (by omega)]
    unfold project
    simp only []
    rw [hval]
  · intro st1 ws ho
    unfold project at ho
    simp only [] at ho
    cases hval : validateSequence st event.symbol event.sequence with
    | error e => rw [hval] at ho; exact Except.noConfusion ho
    | ok u =>
      rw [hval] at ho
      simp only [] at ho
      cases hap : applyEvent st event with
      | error e => rw [hap] at ho; exact Except.noConfusion ho
      | ok stA =>
        rw [hap] at ho
        simp only [] at ho
        cases htc : setLastSeq stA.tradeRepoLastSeq event.symbol event.sequence with
        | error m => rw [htc] at ho; exact Except.noConfusion ho
        | ok tradeCursors =>
          rw [htc] at ho
          simp only [] at ho
          cases hoc : setLastSeq stA.orderRepoLastSeq event.symbol event.sequence with
          | error m => rw [hoc] at ho; exact Except.noConfusion ho
          | ok orderCursors =>
            rw [hoc] at ho
            simp only [] at ho
            injection ho with ho
            injection ho with hst hws
            have htc' : tradeCursors =
                alistStore stA.tradeRepoLastSeq event.symbol event.sequence := by
              unfold setLastSeq at htc
              simp only [] at htc
              split at htc
              · exact Except.noConfusion htc
              · injection htc with h; exact h.symm
            have hoc' : orderCursors =
                alistStore stA.orderRepoLastSeq event.symbol event.sequence := by
              unfold setLastSeq at hoc
              simp only [] at hoc
              split at hoc
              · exact Except.noConfusion hoc
              · injection hoc with h; exact h.symm
            refine ⟨hws.symm, ?_, ?_⟩
            · rw [← hst]
              show getLastSeq tradeCursors event.symbol = event.sequence
              rw [htc']
              unfold getLastSeq
              rw [alistLookup_store_same]
              rfl
            · rw [← hst]
              show getLastSeq orderCursors event.symbol = event.sequence
              rw [hoc']
              unfold getLastSeq
              rw [alistLookup_store_same]
              rfl

end Projection

/-- A first event for a fresh symbol carrying sequence 3. -/
def c8Event : Matching.Event :=
  Matching.Event.accepted "evt_3" 3 "BTC-USDT" "o1" "c1" "A" Matching.Side.buy
    43000000000 100000000 Matching.OrderStatus.new

/-- C8 counterexample: with nothing projected for the symbol (both cursors
read 0), an event with sequence 3 — higher than the expected 1 — is rejected
with the first-event error, which is neither the gap error nor the
regression error the claim promises for a too-high sequence. -/
theorem c8_counterexample :
    Projection.getLastSeq Projection.emptyProjState.orderRepoLastSeq "BTC-USDT" = 0 ∧
    c8Event.sequence > 0 + 1 ∧
    Projection.project Projection.emptyProjState c8Event =
      .error (Projection.ProjErr.firstNotOne 3) ∧
    (Projection.ProjErr.firstNotOne 3).isGap = false ∧
    (Projection.ProjErr.firstNotOne 3).isRegression = false :=
  ⟨rfl, by decide, rfl, rfl, rfl⟩

/-- Witness for `c8_projector_sequence_discipline`, exercising the
first-event arm at sequence 3 on fresh repositories and the success arm on
the first valid event. -/
theorem c8_projector_sequence_discipline_witness :
    Projection.project Projection.emptyProjState c8Event =
      .error (Projection.ProjErr.firstNotOne 3) ∧
    (Projection.project Projection.emptyProjState
        (Matching.Event.accepted "evt_1" 1 "BTC-USDT" "o1" "c1" "A"
          Matching.Side.buy 43000000000 100000000 Matching.OrderStatus.new) =
      .ok ({ orderRepoOrders := [("o1",
              { orderID := "o1", clientOrderID := "c1", accountID := "A",
                symbol := "BTC-USDT", side := Matching.Side.buy,
                price := 43000000000, quantity := 100000000,
                remainingQty := 100000000, filledQty := 0,
                status := Matching.OrderStatus.new, lastSequence := 1 })],
             orderRepoLastSeq := [("BTC-USDT", 1)],
             tradeRepoTrades := [], tradeRepoLastSeq := [("BTC-USDT", 1)] },
            [Projection.CursorWrite.tradeCursor "BTC-USDT" 1,
             Projection.CursorWrite.orderCursor "BTC-USDT" 1])) ∧
    [Projection.CursorWrite.tradeCursor "BTC-USDT" (1 : Int),
     Projection.CursorWrite.orderCursor "BTC-USDT" (1 : Int)] =
      [Projection.CursorWrite.tradeCursor "BTC-USDT" 1,
       Projection.CursorWrite.orderCursor "BTC-USDT" 1] :=
  ⟨(Projection.c8_projector_sequence_discipline Projection.emptyProjState
      c8Event).2.1 rfl rfl (by decide),
   rfl,
   ((Projection.c8_projector_sequence_discipline Projection.emptyProjState
      (Matching.Event.accepted "evt_1" 1 "BTC-USDT" "o1" "c1" "A"
        Matching.Side.buy 43000000000 100000000 Matching.OrderStatus.new)).2.2.2.2
      _ _ rfl).1⟩

namespace Matching

/-- The status `updateOrderStatus` recomputes from the remaining quantity. -/
def recomputedStatus (o : Order) : OrderStatus :=
  if o.remainingQty = 0 then OrderStatus.filled
  else if o.remainingQty < o.quantity then OrderStatus.partFilled
  else OrderStatus.new

/-- The status-change entries one `updateOrderStatus` call appends: one
entry carrying the order's quantities at that moment when the status
changed, nothing otherwise. -/
def transitionEntries (o : Order) : List OrderStatusChange :=
  if recomputedStatus o ≠ o.status then
    [{ orderID := o.orderID, oldStatus := o.status, newStatus := recomputedStatus o,
       remainingQty := o.remainingQty, filledQty := o.quantity - o.remainingQty }]
  else []

theorem updateOrderStatus_eq (o : Order) (res : CommandResult) :
    updateOrderStatus o res =
      ({ o with status := recomputedStatus o },
       { res with orderStatusChanges :=
          res.orderStatusChanges ++ transitionEntries o }) := by
  unfold updateOrderStatus
  simp only [transitionEntries, recomputedStatus]
  by_cases h : (if o.remainingQty = 0 then OrderStatus.filled
      else if o.remainingQty < o.quantity then OrderStatus.partFilled
      else OrderStatus.new) ≠ o.status
  · rw [if_pos h, if_pos h]
  · rw [if_neg h, if_neg h]
    have hs := not_not.mp h
    rw [hs]
    simp

/-- C6 (amended): status changes are recorded per transition as matching
proceeds, not summarised once at the end — each `updateOrderStatus` call
appends one entry exactly when the status changed, carrying the order's
remaining and filled quantities at that moment, and each `executeMatch`
appends the maker's transition entry followed by the taker's transition
entry for that fill; a taker crossing several makers therefore accrues one
entry per status transition, with intermediate (non-final) quantities. -/
theorem c6_status_changes_per_transition (ob : OrderBook) (maker taker o : Order)
    (price : Int) (res : CommandResult) :
    (updateOrderStatus o res).2.orderStatusChanges =
      res.orderStatusChanges ++ transitionEntries o ∧
    (executeMatch ob maker taker price res).2.2.2.1.orderStatusChanges =
      res.orderStatusChanges
        ++ transitionEntries { maker with remainingQty := maker.remainingQty -
            (if taker.remainingQty < maker.remainingQty then taker.remainingQty
             else maker.remainingQty) }
        ++ transitionEntries { taker with remainingQty := taker.remainingQty -
            (if taker.remainingQty < maker.remainingQty then taker.remainingQty
             else maker.remainingQty) } := by
  constructor
  · rw [updateOrderStatus_eq]
  · unfold executeMatch OrderBook.nextTradeID OrderBook.nextEventSequence
    simp only []
    rw [updateOrderStatus_eq]
    simp only []
    rw [updateOrderStatus_eq]

end Matching

/-- A place request on the C6 book at price 10. -/
def c6Req (id cid : String) (side : Matching.Side) (qty : Int) :
    Matching.PlaceOrderRequest :=
  { orderID := id, clientOrderID := cid, accountID := "A", symbol := "BTC-USDT",
    side := side, priceInt := 10, quantityInt := qty }

/-- Status changes of a BUY taker for 2 crossing two one-lot asks. -/
def c6Result : Except String (List Matching.OrderStatusChange) := do
  let (b1, _) ← (Matching.newOrderBook "BTC-USDT").placeLimit
    (c6Req "s1" "cs1" Matching.Side.sell 1)
  let (b2, _) ← b1.placeLimit (c6Req "s2" "cs2" Matching.Side.sell 1)
  let (_, res) ← b2.placeLimit (c6Req "b1" "cb1" Matching.Side.buy 2)
  pure res.orderStatusChanges

/-- C6 counterexample: the taker `b1` appears TWICE in the status changes of
one place command — once per transition, interleaved with the makers — and
its first entry carries the intermediate remaining quantity 1, not the final
summary, refuting that the taker's change is recorded once after the whole
command with final values. -/
theorem c6_counterexample :
    c6Result = .ok
      [{ orderID := "s1", oldStatus := Matching.OrderStatus.new,
         newStatus := Matching.OrderStatus.filled, remainingQty := 0, filledQty := 1 },
       { orderID := "b1", oldStatus := Matching.OrderStatus.new,
         newStatus := Matching.OrderStatus.partFilled, remainingQty := 1, filledQty := 1 },
       { orderID := "s2", oldStatus := Matching.OrderStatus.new,
         newStatus := Matching.OrderStatus.filled, remainingQty := 0, filledQty := 1 },
       { orderID := "b1", oldStatus := Matching.OrderStatus.partFilled,
         newStatus := Matching.OrderStatus.filled, remainingQty := 0, filledQty := 2 }] ∧
    c6Result.map (fun l => (l.filter (fun c => c.orderID == "b1")).length) = .ok 2 :=
  ⟨rfl, rfl⟩

namespace Matching

/-- `[k+1, k+2, …, k+n]`: the sequences handed out by `n` consecutive
`nextEventSequence` calls starting from counter value `k`. -/
def seqRange (k : Int) : Nat → List Int
  | 0 => []
  | n + 1 => (k + 1) :: seqRange (k + 1) n

/-- The trade id carried by an `OrderMatched` event. -/
def Event.tradeIDOf : Event → Option String
  | .matched _ _ _ tradeID _ _ _ _ _ _ => some tradeID
  | _ => none

/-- Closed form of `executeMatch`. -/
theorem executeMatch_eq (ob : OrderBook) (maker taker : Order) (price : Int)
    (res : CommandResult) :
    executeMatch ob maker taker price res =
      (let matchQty := if taker.remainingQty < maker.remainingQty
          then taker.remainingQty else maker.remainingQty
       let maker1 : Order := { maker with remainingQty := maker.remainingQty - matchQty }
       let taker1 : Order := { taker with remainingQty := taker.remainingQty - matchQty }
       let maker2 : Order := { maker1 with status := recomputedStatus maker1 }
       let taker2 : Order := { taker1 with status := recomputedStatus taker1 }
       let trade : Trade := { tradeID := "trd_" ++ toString (ob.tradeSeq + 1), symbol := ob.symbol, makerOrderID := maker.orderID, takerOrderID := taker.orderID, price := price, quantity := matchQty, makerSide := maker.side, takerSide := taker.side }
       let ev := Event.matched ("evt_" ++ toString (ob.eventSeq + 1)) (ob.eventSeq + 1) ob.symbol ("trd_" ++ toString (ob.tradeSeq + 1)) maker.orderID taker.orderID price matchQty maker.side taker.side
       let res4 : CommandResult := { orderStatusChanges := res.orderStatusChanges ++ transitionEntries maker1 ++ transitionEntries taker1, trades := res.trades ++ [trade], events := res.events ++ [ev] }
       let ob3 := ({ ob with tradeSeq := ob.tradeSeq + 1, eventSeq := ob.eventSeq + 1 }.storeOrderEntry maker2).storeOrderEntry taker2
       (ob3, maker2, taker2, res4, matchQty)) := by
  unfold executeMatch OrderBook.nextTradeID OrderBook.nextEventSequence
  simp only []
  rw [updateOrderStatus_eq]
  simp only []
  rw [updateOrderStatus_eq]

/-- `removePriceLevelIfEmpty` never touches the event counter. -/
theorem removePriceLevelIfEmpty_eventSeq (ob : OrderBook) (side : Side) (price : Int) :
    (ob.removePriceLevelIfEmpty side price).eventSeq = ob.eventSeq := by
  unfold OrderBook.removePriceLevelIfEmpty
  by_cases h : side = Side.buy
  · rw [if_pos h]
    cases lookupLevel ob.bidLevels price with
    | none => rfl
    | some l =>
      simp only []
      by_cases he : l.isEmpty
      · rw [if_pos he]
      · rw [if_neg he]
  · rw [if_neg h]
    cases lookupLevel ob.askLevels price with
    | none => rfl
    | some l =>
      simp only []
      by_cases he : l.isEmpty
      · rw [if_pos he]
      · rw [if_neg he]

/-- The buy matching loop appends `OrderMatched` events with consecutive
sequences continuing the book's counter, in lockstep with the trades. -/
theorem matchBuyLoop_events (fuel : Nat) (ob : OrderBook) (taker : Order)
    (res : CommandResult) :
    ∃ evs trs,
      (matchBuyLoop fuel ob taker res).2.2.events = res.events ++ evs ∧
      (matchBuyLoop fuel ob taker res).2.2.trades = res.trades ++ trs ∧
      (matchBuyLoop fuel ob taker res).1.eventSeq = ob.eventSeq + (evs.length : Int) ∧
      evs.map Event.sequence = seqRange ob.eventSeq evs.length ∧
      evs.map Event.tradeIDOf = trs.map (fun t => some t.tradeID) ∧
      ∀ e, e ∈ evs → e.eventType = "OrderMatched" := by
  induction fuel, ob, taker, res using matchBuyLoop.induct with
  | case1 ob taker res =>
    exact ⟨[], [], by simp [matchBuyLoop], by simp [matchBuyLoop],
      by simp [matchBuyLoop], rfl, rfl, fun e he => absurd he (List.not_mem_nil e)⟩
  | case2 fuel ob taker res hq bestAsk hb =>
    have hred : matchBuyLoop (fuel + 1) ob taker res = (ob, taker, res) := by
      simp only [matchBuyLoop]
      rw [if_pos hq, if_pos hb]
    exact ⟨[], [], by rw [hred]; simp, by rw [hred]; simp, by rw [hred]; simp,
      rfl, rfl, fun e he => absurd he (List.not_mem_nil e)⟩
  | case3 fuel ob taker res hq bestAsk hb hlv =>
    have hred : matchBuyLoop (fuel + 1) ob taker res = (ob, taker, res) := by
      simp only [matchBuyLoop]
      rw [if_pos hq, if_neg hb, hlv]
    exact ⟨[], [], by rw [hred]; simp, by rw [hred]; simp, by rw [hred]; simp,
      rfl, rfl, fun e he => absurd he (List.not_mem_nil e)⟩
  | case4 fuel ob taker res hq bestAsk hb lvl hlv hempty ih =>
    obtain ⟨evs, trs, h1, h2, h3, h4, h5, h6⟩ := ih
    have hred : matchBuyLoop (fuel + 1) ob taker res =
        matchBuyLoop fuel { ob with askLevels := removeLevel ob.askLevels bestAsk }
          taker res := by
      simp only [matchBuyLoop]
      rw [if_pos hq, if_neg hb, hlv]
      simp only []
      rw [if_pos hempty]
    refine ⟨evs, trs, ?_, ?_, ?_, ?_, h5, h6⟩
    · rw [hred]; exact h1
    · rw [hred]; exact h2
    · rw [hred]; exact h3
    · exact h4
  | case5 fuel ob taker res hq bestAsk hb lvl hlv hempty hqm =>
    have hred : matchBuyLoop (fuel + 1) ob taker res = (ob, taker, res) := by
      simp only [matchBuyLoop]
      rw [if_pos hq, if_neg hb, hlv]
      simp only []
      rw [if_neg hempty, hqm]
    exact ⟨[], [], by rw [hred]; simp, by rw [hred]; simp, by rw [hred]; simp,
      rfl, rfl, fun e he => absurd he (List.not_mem_nil e)⟩
  | case6 fuel ob taker res hq bestAsk hb lvl hlv hempty maker rest hqm st ob3
      maker2 taker2 res4 matchQty v lvl1 hm lvl2 ob4 ob5 ob6 ih =>
    obtain ⟨evs, trs, h1, h2, h3, h4, h5, h6⟩ := ih
    have hred : matchBuyLoop (fuel + 1) ob taker res =
        matchBuyLoop fuel ob6 taker2 res4 := by
      simp only [matchBuyLoop]
      rw [if_pos hq, if_neg hb, hlv]
      simp only []
      rw [if_neg hempty, hqm]
      simp only []
      rw [if_pos hm]
    have hres4ev : res4.events = res.events ++
        [Event.matched ("evt_" ++ toString (ob.eventSeq + 1)) (ob.eventSeq + 1)
          ob.symbol ("trd_" ++ toString (ob.tradeSeq + 1)) maker.orderID
          taker.orderID maker.price
          (if taker.remainingQty < maker.remainingQty then taker.remainingQty
           else maker.remainingQty) maker.side taker.side] := by
      show (executeMatch ob maker taker maker.price res).2.2.2.1.events = _
      rw [executeMatch_eq]
    have hres4tr : res4.trades = res.trades ++
        [{ tradeID := "trd_" ++ toString (ob.tradeSeq + 1), symbol := ob.symbol,
           makerOrderID := maker.orderID, takerOrderID := taker.orderID,
           price := maker.price,
           quantity := if taker.remainingQty < maker.remainingQty
             then taker.remainingQty else maker.remainingQty,
           makerSide := maker.side, takerSide := taker.side }] := by
      show (executeMatch ob maker taker maker.price res).2.2.2.1.trades = _
      rw [executeMatch_eq]
    have hseq : ob6.eventSeq = ob.eventSeq + 1 := by
      show (ob5.removePriceLevelIfEmpty Side.sell bestAsk).eventSeq = _
      rw [removePriceLevelIfEmpty_eventSeq]
      show (executeMatch ob maker taker maker.price res).1.eventSeq = _
      rw [executeMatch_eq]
      rfl
    rw [hseq] at h3 h4
    refine ⟨Event.matched ("evt_" ++ toString (ob.eventSeq + 1)) (ob.eventSeq + 1)
        ob.symbol ("trd_" ++ toString (ob.tradeSeq + 1)) maker.orderID
        taker.orderID maker.price
        (if taker.remainingQty < maker.remainingQty then taker.remainingQty
         else maker.remainingQty) maker.side taker.side :: evs,
      { tradeID := "trd_" ++ toString (ob.tradeSeq + 1), symbol := ob.symbol,
        makerOrderID := maker.orderID, takerOrderID := taker.orderID,
        price := maker.price,
        quantity := if taker.remainingQty < maker.remainingQty
          then taker.remainingQty else maker.remainingQty,
        makerSide := maker.side, takerSide := taker.side } :: trs,
      ?_, ?_, ?_, ?_, ?_, ?_⟩
    · rw [hred, h1, hres4ev, List.append_assoc]
      rfl
    · rw [hred, h2, hres4tr, List.append_assoc]
      rfl
    · rw [hred, h3]
      simp only [List.length_cons]
      push_cast
      omega
    · simp only [List.map_cons, List.length_cons, seqRange]
      rw [h4]
      rfl
    · simp only [List.map_cons]
      rw [h5]
      rfl
    · intro e he
      cases he with
      | head => rfl
      | tail _ htail => exact h6 e htail
  | case7 fuel ob taker res hq bestAsk hb lvl hlv hempty maker rest hqm st ob3
      maker2 taker2 res4 matchQty v lvl1 hm ob4 ih =>
    obtain ⟨evs, trs, h1, h2, h3, h4, h5, h6⟩ := ih
    have hred : matchBuyLoop (fuel + 1) ob taker res =
        matchBuyLoop fuel ob4 taker2 res4 := by
      simp only [matchBuyLoop]
      rw [if_pos hq, if_neg hb, hlv]
      simp only []
      rw [if_neg hempty, hqm]
      simp only []
      rw [if_neg hm]
    have hres4ev : res4.events = res.events ++
        [Event.matched ("evt_" ++ toString (ob.eventSeq + 1)) (ob.eventSeq + 1)
          ob.symbol ("trd_" ++ toString (ob.tradeSeq + 1)) maker.orderID
          taker.orderID maker.price
          (if taker.remainingQty < maker.remainingQty then taker.remainingQty
           else maker.remainingQty) maker.side taker.side] := by
      show (executeMatch ob maker taker maker.price res).2.2.2.1.events = _
      rw [executeMatch_eq]
    have hres4tr : res4.trades = res.trades ++
        [{ tradeID := "trd_" ++ toString (ob.tradeSeq + 1), symbol := ob.symbol,
           makerOrderID := maker.orderID, takerOrderID := taker.orderID,
           price := maker.price,
           quantity := if taker.remainingQty < maker.remainingQty
             then taker.remainingQty else maker.remainingQty,
           makerSide := maker.side, takerSide := taker.side }] := by
      show (executeMatch ob maker taker maker.price res).2.2.2.1.trades = _
      rw [executeMatch_eq]
    have hseq : ob4.eventSeq = ob.eventSeq + 1 := by
      show (executeMatch ob maker taker maker.price res).1.eventSeq = _
      rw [executeMatch_eq]
      rfl
    rw [hseq] at h3 h4
    refine ⟨Event.matched ("evt_" ++ toString (ob.eventSeq + 1)) (ob.eventSeq + 1)
        ob.symbol ("trd_" ++ toString (ob.tradeSeq + 1)) maker.orderID
        taker.orderID maker.price
        (if taker.remainingQty < maker.remainingQty then taker.remainingQty
         else maker.remainingQty) maker.side taker.side :: evs,
      { tradeID := "trd_" ++ toString (ob.tradeSeq + 1), symbol := ob.symbol,
        makerOrderID := maker.orderID, takerOrderID := taker.orderID,
        price := maker.price,
        quantity := if taker.remainingQty < maker.remainingQty
          then taker.remainingQty else maker.remainingQty,
        makerSide := maker.side, takerSide := taker.side } :: trs,
      ?_, ?_, ?_, ?_, ?_, ?_⟩
    · rw [hred, h1, hres4ev, List.append_assoc]
      rfl
    · rw [hred, h2, hres4tr, List.append_assoc]
      rfl
    · rw [hred, h3]
      simp only [List.length_cons]
      push_cast
      omega
    · simp only [List.map_cons, List.length_cons, seqRange]
      rw [h4]
      rfl
    · simp only [List.map_cons]
      rw [h5]
      rfl
    · intro e he
      cases he with
      | head => rfl
      | tail _ htail => exact h6 e htail
  | case8 fuel ob taker res hq =>
    have hred : matchBuyLoop (fuel + 1) ob taker res = (ob, taker, res) := by
      simp only [matchBuyLoop]
      rw [if_neg hq]
    exact ⟨[], [], by rw [hred]; simp, by rw [hred]; simp, by rw [hred]; simp,
      rfl, rfl, fun e he => absurd he (List.not_mem_nil e)⟩

end Matching

namespace Matching

/-- The sell matching loop, symmetric to `matchBuyLoop_events`. -/
theorem matchSellLoop_events (fuel : Nat) (ob : OrderBook) (taker : Order)
    (res : CommandResult) :
    ∃ evs trs,
      (matchSellLoop fuel ob taker res).2.2.events = res.events ++ evs ∧
      (matchSellLoop fuel ob taker res).2.2.trades = res.trades ++ trs ∧
      (matchSellLoop fuel ob taker res).1.eventSeq = ob.eventSeq + (evs.length : Int) ∧
      evs.map Event.sequence = seqRange ob.eventSeq evs.length ∧
      evs.map Event.tradeIDOf = trs.map (fun t => some t.tradeID) ∧
      ∀ e, e ∈ evs → e.eventType = "OrderMatched" := by
  induction fuel, ob, taker, res using matchSellLoop.induct with
  | case1 ob taker res =>
    exact ⟨[], [], by simp [matchSellLoop], by simp [matchSellLoop],
      by simp [matchSellLoop], rfl, rfl, fun e he => absurd he (List.not_mem_nil e)⟩
  | case2 fuel ob taker res hq bestBid hb =>
    have hred : matchSellLoop (fuel + 1) ob taker res = (ob, taker, res) := by
      simp only [matchSellLoop]
      rw [if_pos hq, if_pos hb]
    exact ⟨[], [], by rw [hred]; simp, by rw [hred]; simp, by rw [hred]; simp,
      rfl, rfl, fun e he => absurd he (List.not_mem_nil e)⟩
  | case3 fuel ob taker res hq bestBid hb hlv =>
    have hred : matchSellLoop (fuel + 1) ob taker res = (ob, taker, res) := by
      simp only [matchSellLoop]
      rw [if_pos hq, if_neg hb, hlv]
    exact ⟨[], [], by rw [hred]; simp, by rw [hred]; simp, by rw [hred]; simp,
      rfl, rfl, fun e he => absurd he (List.not_mem_nil e)⟩
  | case4 fuel ob taker res hq bestBid hb lvl hlv hempty ih =>
    obtain ⟨evs, trs, h1, h2, h3, h4, h5, h6⟩ := ih
    have hred : matchSellLoop (fuel + 1) ob taker res =
        matchSellLoop fuel { ob with bidLevels := removeLevel ob.bidLevels bestBid }
          taker res := by
      simp only [matchSellLoop]
      rw [if_pos hq, if_neg hb, hlv]
      simp only []
      rw [if_pos hempty]
    refine ⟨evs, trs, ?_, ?_, ?_, ?_, h5, h6⟩
    · rw [hred]; exact h1
    · rw [hred]; exact h2
    · rw [hred]; exact h3
    · exact h4
  | case5 fuel ob taker res hq bestBid hb lvl hlv hempty hqm =>
    have hred : matchSellLoop (fuel + 1) ob taker res = (ob, taker, res) := by
      simp only [matchSellLoop]
      rw [if_pos hq, if_neg hb, hlv]
      simp only []
      rw [if_neg hempty, hqm]
    exact ⟨[], [], by rw [hred]; simp, by rw [hred]; simp, by rw [hred]; simp,
      rfl, rfl, fun e he => absurd he (List.not_mem_nil e)⟩
  | case6 fuel ob taker res hq bestBid hb lvl hlv hempty maker rest hqm st ob3
      maker2 taker2 res4 matchQty v lvl1 hm lvl2 ob4 ob5 ob6 ih =>
    obtain ⟨evs, trs, h1, h2, h3, h4, h5, h6⟩ := ih
    have hred : matchSellLoop (fuel + 1) ob taker res =
        matchSellLoop fuel ob6 taker2 res4 := by
      simp only [matchSellLoop]
      rw [if_pos hq, if_neg hb, hlv]
      simp only []
      rw [if_neg hempty, hqm]
      simp only []
      rw [if_pos hm]
    have hres4ev : res4.events = res.events ++
        [Event.matched ("evt_" ++ toString (ob.eventSeq + 1)) (ob.eventSeq + 1)
          ob.symbol ("trd_" ++ toString (ob.tradeSeq + 1)) maker.orderID
          taker.orderID maker.price
          (if taker.remainingQty < maker.remainingQty then taker.remainingQty
           else maker.remainingQty) maker.side taker.side] := by
      show (executeMatch ob maker taker maker.price res).2.2.2.1.events = _
      rw [executeMatch_eq]
    have hres4tr : res4.trades = res.trades ++
        [{ tradeID := "trd_" ++ toString (ob.tradeSeq + 1), symbol := ob.symbol,
           makerOrderID := maker.orderID, takerOrderID := taker.orderID,
           price := maker.price,
           quantity := if taker.remainingQty < maker.remainingQty
             then taker.remainingQty else maker.remainingQty,
           makerSide := maker.side, takerSide := taker.side }] := by
      show (executeMatch ob maker taker maker.price res).2.2.2.1.trades = _
      rw [executeMatch_eq]
    have hseq : ob6.eventSeq = ob.eventSeq + 1 := by
      show (ob5.removePriceLevelIfEmpty Side.buy bestBid).eventSeq = _
      rw [removePriceLevelIfEmpty_eventSeq]
      show (executeMatch ob maker taker maker.price res).1.eventSeq = _
      rw [executeMatch_eq]
      rfl
    rw [hseq] at h3 h4
    refine ⟨Event.matched ("evt_" ++ toString (ob.eventSeq + 1)) (ob.eventSeq + 1)
        ob.symbol ("trd_" ++ toString (ob.tradeSeq + 1)) maker.orderID
        taker.orderID maker.price
        (if taker.remainingQty < maker.remainingQty then taker.remainingQty
         else maker.remainingQty) maker.side taker.side :: evs,
      { tradeID := "trd_" ++ toString (ob.tradeSeq + 1), symbol := ob.symbol,
        makerOrderID := maker.orderID, takerOrderID := taker.orderID,
        price := maker.price,
        quantity := if taker.remainingQty < maker.remainingQty
          then taker.remainingQty else maker.remainingQty,
        makerSide := maker.side, takerSide := taker.side } :: trs,
      ?_, ?_, ?_, ?_, ?_, ?_⟩
    · rw [hred, h1, hres4ev, List.append_assoc]
      rfl
    · rw [hred, h2, hres4tr, List.append_assoc]
      rfl
    · rw [hred, h3]
      simp only [List.length_cons]
      push_cast
      omega
    · simp only [List.map_cons, List.length_cons, seqRange]
      rw [h4]
      rfl
    · simp only [List.map_cons]
      rw [h5]
      rfl
    · intro e he
      cases he with
      | head => rfl
      | tail _ htail => exact h6 e htail
  | case7 fuel ob taker res hq bestBid hb lvl hlv hempty maker rest hqm st ob3
      maker2 taker2 res4 matchQty v lvl1 hm ob4 ih =>
    obtain ⟨evs, trs, h1, h2, h3, h4, h5, h6⟩ := ih
    have hred : matchSellLoop (fuel + 1) ob taker res =
        matchSellLoop fuel ob4 taker2 res4 := by
      simp only [matchSellLoop]
      rw [if_pos hq, if_neg hb, hlv]
      simp only []
      rw [if_neg hempty, hqm]
      simp only []
      rw [if_neg hm]
    have hres4ev : res4.events = res.events ++
        [Event.matched ("evt_" ++ toString (ob.eventSeq + 1)) (ob.eventSeq + 1)
          ob.symbol ("trd_" ++ toString (ob.tradeSeq + 1)) maker.orderID
          taker.orderID maker.price
          (if taker.remainingQty < maker.remainingQty then taker.remainingQty
           else maker.remainingQty) maker.side taker.side] := by
      show (executeMatch ob maker taker maker.price res).2.2.2.1.events = _
      rw [executeMatch_eq]
    have hres4tr : res4.trades = res.trades ++
        [{ tradeID := "trd_" ++ toString (ob.tradeSeq + 1), symbol := ob.symbol,
           makerOrderID := maker.orderID, takerOrderID := taker.orderID,
           price := maker.price,
           quantity := if taker.remainingQty < maker.remainingQty
             then taker.remainingQty else maker.remainingQty,
           makerSide := maker.side, takerSide := taker.side }] := by
      show (executeMatch ob maker taker maker.price res).2.2.2.1.trades = _
      rw [executeMatch_eq]
    have hseq : ob4.eventSeq = ob.eventSeq + 1 := by
      show (executeMatch ob maker taker maker.price res).1.eventSeq = _
      rw [executeMatch_eq]
      rfl
    rw [hseq] at h3 h4
    refine ⟨Event.matched ("evt_" ++ toString (ob.eventSeq + 1)) (ob.eventSeq + 1)
        ob.symbol ("trd_" ++ toString (ob.tradeSeq + 1)) maker.orderID
        taker.orderID maker.price
        (if taker.remainingQty < maker.remainingQty then taker.remainingQty
         else maker.remainingQty) maker.side taker.side :: evs,
      { tradeID := "trd_" ++ toString (ob.tradeSeq + 1), symbol := ob.symbol,
        makerOrderID := maker.orderID, takerOrderID := taker.orderID,
        price := maker.price,
        quantity := if taker.remainingQty < maker.remainingQty
          then taker.remainingQty else maker.remainingQty,
        makerSide := maker.side, takerSide := taker.side } :: trs,
      ?_, ?_, ?_, ?_, ?_, ?_⟩
    · rw [hred, h1, hres4ev, List.append_assoc]
      rfl
    · rw [hred, h2, hres4tr, List.append_assoc]
      rfl
    · rw [hred, h3]
      simp only [List.length_cons]
      push_cast
      omega
    · simp only [List.map_cons, List.length_cons, seqRange]
      rw [h4]
      rfl
    · simp only [List.map_cons]
      rw [h5]
      rfl
    · intro e he
      cases he with
      | head => rfl
      | tail _ htail => exact h6 e htail
  | case8 fuel ob taker res hq =>
    have hred : matchSellLoop (fuel + 1) ob taker res = (ob, taker, res) := by
      simp only [matchSellLoop]
      rw [if_neg hq]
    exact ⟨[], [], by rw [hred]; simp, by rw [hred]; simp, by rw [hred]; simp,
      rfl, rfl, fun e he => absurd he (List.not_mem_nil e)⟩

/-- `matchBuyOrder` inherits the loop facts. -/
theorem matchBuyOrder_events (ob : OrderBook) (taker : Order) (res : CommandResult) :
    ∃ evs trs,
      (matchBuyOrder ob taker res).2.2.events = res.events ++ evs ∧
      (matchBuyOrder ob taker res).2.2.trades = res.trades ++ trs ∧
      (matchBuyOrder ob taker res).1.eventSeq = ob.eventSeq + (evs.length : Int) ∧
      evs.map Event.sequence = seqRange ob.eventSeq evs.length ∧
      evs.map Event.tradeIDOf = trs.map (fun t => some t.tradeID) ∧
      ∀ e, e ∈ evs → e.eventType = "OrderMatched" :=
  matchBuyLoop_events (matchBuyFuel ob taker) ob taker res

/-- `matchSellOrder` inherits the loop facts. -/
theorem matchSellOrder_events (ob : OrderBook) (taker : Order) (res : CommandResult) :
    ∃ evs trs,
      (matchSellOrder ob taker res).2.2.events = res.events ++ evs ∧
      (matchSellOrder ob taker res).2.2.trades = res.trades ++ trs ∧
      (matchSellOrder ob taker res).1.eventSeq = ob.eventSeq + (evs.length : Int) ∧
      evs.map Event.sequence = seqRange ob.eventSeq evs.length ∧
      evs.map Event.tradeIDOf = trs.map (fun t => some t.tradeID) ∧
      ∀ e, e ∈ evs → e.eventType = "OrderMatched" :=
  matchSellLoop_events (matchSellFuel ob taker) ob taker res

end Matching

namespace Matching

/-- The accepted event `PlaceLimit` emits first. -/
def acceptedEventOf (ob : OrderBook) (req : PlaceOrderRequest) : Event :=
  Event.accepted ("evt_" ++ toString (ob.eventSeq + 1)) (ob.eventSeq + 1) ob.symbol
    req.orderID req.clientOrderID req.accountID req.side req.priceInt
    req.quantityInt OrderStatus.new

/-- `PlaceLimit` under passing guards: exactly one `OrderAccepted` event
first, then one `OrderMatched` event per trade in match order, all sequences
consecutive from the book's counter, which ends advanced by the number of
events. -/
theorem placeLimit_events (ob : OrderBook) (req : PlaceOrderRequest)
    (hv : req.validate = none) (hsym : req.symbol = ob.symbol)
    (hdup1 : lookupOrder ob.orders req.orderID = none)
    (hdup2 : lookupClosed ob.closedOrders req.orderID = none) :
    ∃ ob1 res, ob.placeLimit req = .ok (ob1, res) ∧
      (∃ evs, res.events = acceptedEventOf ob req :: evs ∧
        evs.map Event.tradeIDOf = res.trades.map (fun t => some t.tradeID) ∧
        (∀ e, e ∈ evs → e.eventType = "OrderMatched")) ∧
      res.events.map Event.sequence = seqRange ob.eventSeq res.events.length ∧
      ob1.eventSeq = ob.eventSeq + (res.events.length : Int) := by
  unfold OrderBook.placeLimit OrderBook.storeOrderEntry OrderBook.nextEventSequence
  rw [hv]
  rw [if_neg (not_not_intro hsym), if_neg (by simp [hdup1]), if_neg (by simp [hdup2])]
  simp only []
  by_cases hside : req.side = Side.buy
  · rw [if_pos hside]
    obtain ⟨evs, trs, h1, h2, h3, h4, h5, h6⟩ :=
      matchBuyOrder_events
        { symbol := ob.symbol, bidLevels := ob.bidLevels, askLevels := ob.askLevels,
          orders := storeOrder ob.orders req.orderID
            { orderID := req.orderID, clientOrderID := req.clientOrderID,
              accountID := req.accountID, symbol := req.symbol, side := req.side,
              price := req.priceInt, quantity := req.quantityInt,
              remainingQty := req.quantityInt, status := OrderStatus.new },
          closedOrders := ob.closedOrders, eventSeq := ob.eventSeq + 1,
          tradeSeq := ob.tradeSeq }
        { orderID := req.orderID, clientOrderID := req.clientOrderID,
          accountID := req.accountID, symbol := req.symbol, side := req.side,
          price := req.priceInt, quantity := req.quantityInt,
          remainingQty := req.quantityInt, status := OrderStatus.new }
        { orderStatusChanges := [], trades := [],
          events := [Event.accepted ("evt_" ++ toString (ob.eventSeq + 1))
            (ob.eventSeq + 1) ob.symbol req.orderID req.clientOrderID
            req.accountID req.side req.priceInt req.quantityInt OrderStatus.new] }
    simp only [] at h1 h2 h3 h4
    set stepped :=
      matchBuyOrder
        { symbol := ob.symbol, bidLevels := ob.bidLevels, askLevels := ob.askLevels,
          orders := storeOrder ob.orders req.orderID
            { orderID := req.orderID, clientOrderID := req.clientOrderID,
              accountID := req.accountID, symbol := req.symbol, side := req.side,
              price := req.priceInt, quantity := req.quantityInt,
              remainingQty := req.quantityInt, status := OrderStatus.new },
          closedOrders := ob.closedOrders, eventSeq := ob.eventSeq + 1,
          tradeSeq := ob.tradeSeq }
        { orderID := req.orderID, clientOrderID := req.clientOrderID,
          accountID := req.accountID, symbol := req.symbol, side := req.side,
          price := req.priceInt, quantity := req.quantityInt,
          remainingQty := req.quantityInt, status := OrderStatus.new }
        { orderStatusChanges := [], trades := [],
          events := [Event.accepted ("evt_" ++ toString (ob.eventSeq + 1))
            (ob.eventSeq + 1) ob.symbol req.orderID req.clientOrderID
            req.accountID req.side req.priceInt req.quantityInt OrderStatus.new] }
      with hstep
    have hshape : (∃ evs2, stepped.2.2.events = acceptedEventOf ob req :: evs2 ∧
        evs2.map Event.tradeIDOf = stepped.2.2.trades.map (fun t => some t.tradeID) ∧
        (∀ e, e ∈ evs2 → e.eventType = "OrderMatched")) ∧
        stepped.2.2.events.map Event.sequence =
          seqRange ob.eventSeq stepped.2.2.events.length ∧
        stepped.1.eventSeq = ob.eventSeq + (stepped.2.2.events.length : Int) := by
      refine ⟨⟨evs, ?_, ?_, h6⟩, ?_, ?_⟩
      · rw [h1]
        rfl
      · rw [h2, h5]
        rfl
      · rw [h1]
        simp only [List.cons_append, List.nil_append, List.map_cons,
          List.length_cons, seqRange]
        rw [h4]
        rfl
      · rw [h1, h3]
        simp only [List.cons_append, List.nil_append, List.length_cons]
        push_cast
        omega
    obtain ⟨hshape1, hshape2, hshape3⟩ := hshape
    by_cases hrem : stepped.2.1.remainingQty > 0
    · rw [if_pos hrem]
      by_cases hside2 : stepped.2.1.side = Side.buy
      · rw [if_pos hside2]
        exact ⟨_, _, rfl, hshape1, hshape2, hshape3⟩
      · rw [if_neg hside2]
        exact ⟨_, _, rfl, hshape1, hshape2, hshape3⟩
    · rw [if_neg hrem]
      exact ⟨_, _, rfl, hshape1, hshape2, hshape3⟩
  · rw [if_neg hside]
    obtain ⟨evs, trs, h1, h2, h3, h4, h5, h6⟩ :=
      matchSellOrder_events
        { symbol := ob.symbol, bidLevels := ob.bidLevels, askLevels := ob.askLevels,
          orders := storeOrder ob.orders req.orderID
            { orderID := req.orderID, clientOrderID := req.clientOrderID,
              accountID := req.accountID, symbol := req.symbol, side := req.side,
              price := req.priceInt, quantity := req.quantityInt,
              remainingQty := req.quantityInt, status := OrderStatus.new },
          closedOrders := ob.closedOrders, eventSeq := ob.eventSeq + 1,
          tradeSeq := ob.tradeSeq }
        { orderID := req.orderID, clientOrderID := req.clientOrderID,
          accountID := req.accountID, symbol := req.symbol, side := req.side,
          price := req.priceInt, quantity := req.quantityInt,
          remainingQty := req.quantityInt, status := OrderStatus.new }
        { orderStatusChanges := [], trades := [],
          events := [Event.accepted ("evt_" ++ toString (ob.eventSeq + 1))
            (ob.eventSeq + 1) ob.symbol req.orderID req.clientOrderID
            req.accountID req.side req.priceInt req.quantityInt OrderStatus.new] }
    simp only [] at h1 h2 h3 h4
    set stepped :=
      matchSellOrder
        { symbol := ob.symbol, bidLevels := ob.bidLevels, askLevels := ob.askLevels,
          orders := storeOrder ob.orders req.orderID
            { orderID := req.orderID, clientOrderID := req.clientOrderID,
              accountID := req.accountID, symbol := req.symbol, side := req.side,
              price := req.priceInt, quantity := req.quantityInt,
              remainingQty := req.quantityInt, status := OrderStatus.new },
          closedOrders := ob.closedOrders, eventSeq := ob.eventSeq + 1,
          tradeSeq := ob.tradeSeq }
        { orderID := req.orderID, clientOrderID := req.clientOrderID,
          accountID := req.accountID, symbol := req.symbol, side := req.side,
          price := req.priceInt, quantity := req.quantityInt,
          remainingQty := req.quantityInt, status := OrderStatus.new }
        { orderStatusChanges := [], trades := [],
          events := [Event.accepted ("evt_" ++ toString (ob.eventSeq + 1))
            (ob.eventSeq + 1) ob.symbol req.orderID req.clientOrderID
            req.accountID req.side req.priceInt req.quantityInt OrderStatus.new] }
      with hstep
    have hshape : (∃ evs2, stepped.2.2.events = acceptedEventOf ob req :: evs2 ∧
        evs2.map Event.tradeIDOf = stepped.2.2.trades.map (fun t => some t.tradeID) ∧
        (∀ e, e ∈ evs2 → e.eventType = "OrderMatched")) ∧
        stepped.2.2.events.map Event.sequence =
          seqRange ob.eventSeq stepped.2.2.events.length ∧
        stepped.1.eventSeq = ob.eventSeq + (stepped.2.2.events.length : Int) := by
      refine ⟨⟨evs, ?_, ?_, h6⟩, ?_, ?_⟩
      · rw [h1]
        rfl
      · rw [h2, h5]
        rfl
      · rw [h1]
        simp only [List.cons_append, List.nil_append, List.map_cons,
          List.length_cons, seqRange]
        rw [h4]
        rfl
      · rw [h1, h3]
        simp only [List.cons_append, List.nil_append, List.length_cons]
        push_cast
        omega
    obtain ⟨hshape1, hshape2, hshape3⟩ := hshape
    by_cases hrem : stepped.2.1.remainingQty > 0
    · rw [if_pos hrem]
      by_cases hside2 : stepped.2.1.side = Side.buy
      · rw [if_pos hside2]
        exact ⟨_, _, rfl, hshape1, hshape2, hshape3⟩
      · rw [if_neg hside2]
        exact ⟨_, _, rfl, hshape1, hshape2, hshape3⟩
    · rw [if_neg hrem]
      exact ⟨_, _, rfl, hshape1, hshape2, hshape3⟩

end Matching

namespace Matching

/-- `Cancel` under passing guards: exactly one `OrderCanceled` event carrying
the next sequence, and the counter advances by one. -/
theorem cancel_events (ob : OrderBook) (req : CancelOrderRequest)
    (hv : req.validate = none) (hsym : req.symbol = ob.symbol)
    (hclosed : lookupClosed ob.closedOrders req.orderID = none)
    (order : Order) (horder : lookupOrder ob.orders req.orderID = some order)
    (hacct : order.accountID = req.accountID)
    (hnf : ¬ order.status = OrderStatus.filled)
    (hnc : ¬ order.status = OrderStatus.canceled) :
    ∃ ob1 res, ob.cancel req = .ok (ob1, res) ∧
      res.events = [Event.canceled ("evt_" ++ toString (ob.eventSeq + 1))
        (ob.eventSeq + 1) ob.symbol order.orderID order.accountID
        order.remainingQty CancelReason.user] ∧
      res.events.map Event.sequence = seqRange ob.eventSeq res.events.length ∧
      ob1.eventSeq = ob.eventSeq + (res.events.length : Int) := by
  unfold OrderBook.cancel OrderBook.storeOrderEntry OrderBook.nextEventSequence OrderBook.deleteOrder OrderBook.setClosed
  rw [hv]
  rw [if_neg (not_not_intro hsym), hclosed]
  try simp only []
  rw [horder]
  try simp only []
  rw [if_neg (not_not_intro hacct), if_neg hnf, if_neg hnc]
  try simp only []
  have hpres : (match ob.getPriceLevel order.side order.price with
      | some lvl =>
        ((if order.side = Side.buy then
            { ob with bidLevels := updateLevel ob.bidLevels order.price (lvl.removeOrder order) }
          else
            { ob with askLevels := updateLevel ob.askLevels order.price (lvl.removeOrder order) }).removePriceLevelIfEmpty
          order.side order.price)
      | none => ob).eventSeq = ob.eventSeq := by
    cases hpl : ob.getPriceLevel order.side order.price with
    | none => rfl
    | some lvl =>
      try simp only []
      rw [removePriceLevelIfEmpty_eventSeq]
      by_cases hs : order.side = Side.buy
      · rw [if_pos hs]
      · rw [if_neg hs]
  rw [hpres]
  refine ⟨_, _, rfl, rfl, rfl, by simp⟩

/-- Sequence facts of any successful `PlaceLimit`. -/
theorem placeLimit_seq_of_ok (ob : OrderBook) (req : PlaceOrderRequest)
    (ob1 : OrderBook) (res : CommandResult)
    (h : ob.placeLimit req = .ok (ob1, res)) :
    res.events.map Event.sequence = seqRange ob.eventSeq res.events.length ∧
    ob1.eventSeq = ob.eventSeq + (res.events.length : Int) := by
  have h0 := h
  unfold OrderBook.placeLimit at h0
  cases hv : req.validate with
  | some e => rw [hv] at h0; exact Except.noConfusion h0
  | none =>
    rw [hv] at h0
    by_cases hsym : req.symbol ≠ ob.symbol
    · rw [if_pos hsym] at h0; exact Except.noConfusion h0
    · rw [if_neg hsym] at h0
      by_cases hdup1 : (lookupOrder ob.orders req.orderID).isSome = true
      · rw [if_pos hdup1] at h0; exact Except.noConfusion h0
      · rw [if_neg hdup1] at h0
        by_cases hdup2 : (lookupClosed ob.closedOrders req.orderID).isSome = true
        · rw [if_pos hdup2] at h0; exact Except.noConfusion h0
        · obtain ⟨ob1', res', heq, hshape, hmap, hseq⟩ :=
            placeLimit_events ob req hv (not_ne_iff.mp hsym)
              (Option.not_isSome_iff_eq_none.mp hdup1)
              (Option.not_isSome_iff_eq_none.mp hdup2)
          rw [heq] at h
          injection h with h
          injection h with hob hres
          subst hob hres
          exact ⟨hmap, hseq⟩

/-- Sequence facts of any successful `Cancel`. -/
theorem cancel_seq_of_ok (ob : OrderBook) (req : CancelOrderRequest)
    (ob1 : OrderBook) (res : CommandResult)
    (h : ob.cancel req = .ok (ob1, res)) :
    res.events.map Event.sequence = seqRange ob.eventSeq res.events.length ∧
    ob1.eventSeq = ob.eventSeq + (res.events.length : Int) := by
  have h0 := h
  unfold OrderBook.cancel at h0
  cases hv : req.validate with
  | some e => rw [hv] at h0; exact Except.noConfusion h0
  | none =>
    rw [hv] at h0
    by_cases hsym : req.symbol ≠ ob.symbol
    · rw [if_pos hsym] at h0; exact Except.noConfusion h0
    · rw [if_neg hsym] at h0
      cases hc : lookupClosed ob.closedOrders req.orderID with
      | some st =>
        rw [hc] at h0
        cases st
        all_goals (simp only [] at h0; exact Except.noConfusion h0)
      | none =>
        rw [hc] at h0
        simp only [] at h0
        cases ho : lookupOrder ob.orders req.orderID with
        | none => rw [ho] at h0; exact Except.noConfusion h0
        | some order =>
          rw [ho] at h0
          simp only [] at h0
          by_cases hacct : order.accountID ≠ req.accountID
          · rw [if_pos hacct] at h0; exact Except.noConfusion h0
          · rw [if_neg hacct] at h0
            by_cases hf : order.status = OrderStatus.filled
            · rw [if_pos hf] at h0; exact Except.noConfusion h0
            · rw [if_neg hf] at h0
              by_cases hcan : order.status = OrderStatus.canceled
              · rw [if_pos hcan] at h0; exact Except.noConfusion h0
              · obtain ⟨ob1', res', heq, hevs, hmap, hseq⟩ :=
                  cancel_events ob req hv (not_ne_iff.mp hsym) hc order ho
                    (not_ne_iff.mp hacct) hf hcan
                rw [heq] at h
                injection h with h
                injection h with hob hres
                subst hob hres
                exact ⟨hmap, hseq⟩

/-- One operation against a book. -/
inductive Op
  | place (req : PlaceOrderRequest)
  | cancelOp (req : CancelOrderRequest)

/-- Dispatch one operation. -/
def applyOp (ob : OrderBook) : Op → Except String (OrderBook × CommandResult)
  | .place req => ob.placeLimit req
  | .cancelOp req => ob.cancel req

/-- Run a list of operations, collecting all emitted events; fails if any
operation fails. -/
def runOps (ob : OrderBook) : List Op → Except String (OrderBook × List Event)
  | [] => .ok (ob, [])
  | op :: t =>
    match applyOp ob op with
    | .error e => .error e
    | .ok (ob1, res) =>
      match runOps ob1 t with
      | .error e => .error e
      | .ok (ob2, evs) => .ok (ob2, res.events ++ evs)

theorem applyOp_seq_of_ok (ob : OrderBook) (op : Op) (ob1 : OrderBook)
    (res : CommandResult) (h : applyOp ob op = .ok (ob1, res)) :
    res.events.map Event.sequence = seqRange ob.eventSeq res.events.length ∧
    ob1.eventSeq = ob.eventSeq + (res.events.length : Int) := by
  cases op with
  | place req => exact placeLimit_seq_of_ok ob req ob1 res h
  | cancelOp req => exact cancel_seq_of_ok ob req ob1 res h

theorem seqRange_append (m : Nat) : ∀ (k : Int) (n : Nat),
    seqRange k m ++ seqRange (k + (m : Int)) n = seqRange k (m + n) := by
  induction m with
  | zero =>
    intro k n
    simp [seqRange]
  | succ m ih =>
    intro k n
    have hc : (k + ((m + 1 : Nat) : Int)) = (k + 1) + (m : Int) := by push_cast; ring
    have hn : m + 1 + n = (m + n) + 1 := by omega
    rw [hn]
    simp only [seqRange, List.cons_append, hc]
    rw [ih (k + 1) n]

/-- Any successful run of operations emits events with consecutive sequences
continuing the starting book's counter. -/
theorem runOps_seq (ops : List Op) : ∀ (ob ob2 : OrderBook) (evs : List Event),
    runOps ob ops = .ok (ob2, evs) →
    evs.map Event.sequence = seqRange ob.eventSeq evs.length ∧
    ob2.eventSeq = ob.eventSeq + (evs.length : Int) := by
  induction ops with
  | nil =>
    intro ob ob2 evs h
    unfold runOps at h
    injection h with h
    injection h with hob hevs
    subst hob hevs
    exact ⟨rfl, by simp⟩
  | cons op t ih =>
    intro ob ob2 evs h
    unfold runOps at h
    cases hap : applyOp ob op with
    | error e => rw [hap] at h; exact Except.noConfusion h
    | ok p =>
      obtain ⟨ob1, res⟩ := p
      rw [hap] at h
      simp only [] at h
      cases hrun : runOps ob1 t with
      | error e => rw [hrun] at h; exact Except.noConfusion h
      | ok q =>
        obtain ⟨obf, evs2⟩ := q
        rw [hrun] at h
        simp only [] at h
        injection h with h
        injection h with hob hevs
        subst hob hevs
        obtain ⟨m1, s1⟩ := applyOp_seq_of_ok ob op ob1 res hap
        obtain ⟨m2, s2⟩ := ih ob1 obf evs2 hrun
        constructor
        · rw [List.map_append, m1, m2, s1, List.length_append]
          exact seqRange_append res.events.length ob.eventSeq evs2.length
        · rw [s2, s1, List.length_append]
          push_cast
          ring
  
end Matching

namespace Matching

/-- C2: from an empty book, the events of any successful run of place and
cancel operations carry exactly the sequences `1, …, n` in order (dense, no
gaps, no repeats); and a single place command under passing guards emits
exactly one `OrderAccepted` event first, then one `OrderMatched` event per
trade in match order, each sequence one more than the previous. -/
theorem c2_event_sequence_density (sym : String) (ops : List Op)
    (bookFinal : OrderBook) (evs : List Event)
    (hrun : runOps (newOrderBook sym) ops = .ok (bookFinal, evs))
    (ob : OrderBook) (req : PlaceOrderRequest)
    (hv : req.validate = none) (hsym : req.symbol = ob.symbol)
    (hdup1 : lookupOrder ob.orders req.orderID = none)
    (hdup2 : lookupClosed ob.closedOrders req.orderID = none) :
    evs.map Event.sequence = seqRange 0 evs.length ∧
    (∃ ob1 res, ob.placeLimit req = .ok (ob1, res) ∧
      (∃ mevs, res.events = acceptedEventOf ob req :: mevs ∧
        mevs.map Event.tradeIDOf = res.trades.map (fun t => some t.tradeID) ∧
        ∀ e, e ∈ mevs → e.eventType = "OrderMatched") ∧
      res.events.map Event.sequence = seqRange ob.eventSeq res.events.length ∧
      ob1.eventSeq = ob.eventSeq + (res.events.length : Int)) := by
  refine ⟨?_, placeLimit_events ob req hv hsym hdup1 hdup2⟩
  exact (runOps_seq ops (newOrderBook sym) bookFinal evs hrun).1

end Matching

/-- A place request for the C2 run at price 10. -/
def c2Req (id cid : String) (side : Matching.Side) (qty : Int) :
    Matching.PlaceOrderRequest :=
  { orderID := id, clientOrderID := cid, accountID := "A", symbol := "BTC-USDT",
    side := side, priceInt := 10, quantityInt := qty }

/-- Two resting asks, a crossing buy for 3 (two trades, residue rests), then
a cancel of the residue: six events. -/
def c2Ops : List Matching.Op :=
  [ Matching.Op.place (c2Req "s1" "cs1" Matching.Side.sell 1),
    Matching.Op.place (c2Req "s2" "cs2" Matching.Side.sell 1),
    Matching.Op.place (c2Req "b1" "cb1" Matching.Side.buy 3),
    Matching.Op.cancelOp { orderID := "b1", accountID := "A", symbol := "BTC-USDT" } ]

/-- The C2 run. -/
def c2Run := Matching.runOps (Matching.newOrderBook "BTC-USDT") c2Ops

/-- Final book of the C2 run. -/
def c2Book : Matching.OrderBook :=
  match c2Run with
  | .ok p => p.1
  | .error _ => Matching.newOrderBook "BTC-USDT"

/-- Events of the C2 run. -/
def c2Evs : List Matching.Event :=
  match c2Run with
  | .ok p => p.2
  | .error _ => []

/-- The fresh place request for the per-command half of the C2 witness. -/
def c2WReq : Matching.PlaceOrderRequest :=
  { orderID := "x1", clientOrderID := "cx1", accountID := "A",
    symbol := "ETH-USDT", side := Matching.Side.buy, priceInt := 5,
    quantityInt := 2 }

/-- Witness for `c2_event_sequence_density` on a four-operation run and a
fresh place command. -/
theorem c2_event_sequence_density_witness :
    c2Evs.map Matching.Event.sequence = Matching.seqRange 0 c2Evs.length ∧
    (∃ ob1 res, (Matching.newOrderBook "ETH-USDT").placeLimit c2WReq =
        .ok (ob1, res) ∧
      (∃ mevs, res.events =
          Matching.acceptedEventOf (Matching.newOrderBook "ETH-USDT") c2WReq :: mevs ∧
        mevs.map Matching.Event.tradeIDOf =
          res.trades.map (fun t => some t.tradeID) ∧
        ∀ e, e ∈ mevs → e.eventType = "OrderMatched") ∧
      res.events.map Matching.Event.sequence =
        Matching.seqRange (Matching.newOrderBook "ETH-USDT").eventSeq
          res.events.length ∧
      ob1.eventSeq = (Matching.newOrderBook "ETH-USDT").eventSeq +
        (res.events.length : Int)) :=
  Matching.c2_event_sequence_density "BTC-USDT" c2Ops c2Book c2Evs rfl
    (Matching.newOrderBook "ETH-USDT") c2WReq rfl rfl rfl rfl

namespace Matching

theorem updateLevel_length (ls : List PriceLevel) (p : Int) (nl : PriceLevel) :
    (updateLevel ls p nl).length = ls.length := by
  induction ls with
  | nil => rfl
  | cons l t ih =>
    unfold updateLevel
    by_cases h : l.price == p
    · rw [if_pos h]
      rfl
    · rw [if_neg h]
      simp [ih]

theorem totalQueueLen_updateLevel (ls : List PriceLevel) (p : Int)
    (nl lvl : PriceLevel) (h : lookupLevel ls p = some lvl) :
    totalQueueLen (updateLevel ls p nl) + lvl.queue.length =
      totalQueueLen ls + nl.queue.length := by
  induction ls with
  | nil => exact Option.noConfusion h
  | cons l t ih =>
    unfold lookupLevel at h ih
    by_cases hp : l.price == p
    · rw [find?_cons_eq_some (fun x => x.price == p) l t hp] at h
      injection h with h
      subst h
      unfold updateLevel
      rw [if_pos hp]
      unfold totalQueueLen
      simp only [List.foldr]
      omega
    · rw [find?_cons_eq_rest (fun x => x.price == p) l t (Bool.not_eq_true _ |>.mp hp)] at h
      unfold updateLevel
      rw [if_neg hp]
      unfold totalQueueLen at ih ⊢
      simp only [List.foldr]
      have := ih h
      omega

theorem removeLevel_length_le (ls : List PriceLevel) (p : Int) :
    (removeLevel ls p).length ≤ ls.length :=
  List.length_filter_le _ _

theorem removeLevel_length_lt (ls : List PriceLevel) (p : Int) (lvl : PriceLevel)
    (h : lookupLevel ls p = some lvl) : (removeLevel ls p).length < ls.length := by
  induction ls with
  | nil => exact Option.noConfusion h
  | cons l t ih =>
    unfold lookupLevel at h ih
    unfold removeLevel at ih ⊢
    by_cases hp : l.price == p
    · rw [List.filter_cons]
      have hne : (l.price != p) = false := by
        simp only [bne]
        rw [hp]
        rfl
      rw [hne]
      simp only [Bool.false_eq_true, if_false]
      exact Nat.lt_succ_of_le (List.length_filter_le _ _)
    · rw [find?_cons_eq_rest (fun x => x.price == p) l t (Bool.not_eq_true _ |>.mp hp)] at h
      rw [List.filter_cons]
      have hne : (l.price != p) = true := by
        simp only [bne]
        rw [Bool.not_eq_true']
        exact Bool.of_not_eq_true hp
      rw [hne]
      simp only [if_true, List.length_cons]
      exact Nat.succ_lt_succ (ih h)

theorem totalQueueLen_removeLevel_le (ls : List PriceLevel) (p : Int) :
    totalQueueLen (removeLevel ls p) ≤ totalQueueLen ls := by
  induction ls with
  | nil => exact Nat.le_refl _
  | cons l t ih =>
    unfold removeLevel at ih ⊢
    rw [List.filter_cons]
    by_cases hp : (l.price != p) = true
    · rw [hp]
      simp only [if_true]
      unfold totalQueueLen at ih ⊢
      simp only [List.foldr]
      omega
    · rw [Bool.not_eq_true] at hp
      rw [hp]
      simp only [Bool.false_eq_true, if_false]
      unfold totalQueueLen at ih ⊢
      simp only [List.foldr]
      omega

theorem removePriceLevelIfEmpty_sell_askLevels (ob : OrderBook) (p : Int) :
    (ob.removePriceLevelIfEmpty Side.sell p).askLevels = ob.askLevels ∨
    (ob.removePriceLevelIfEmpty Side.sell p).askLevels = removeLevel ob.askLevels p := by
  unfold OrderBook.removePriceLevelIfEmpty
  try simp only []
  cases lookupLevel ob.askLevels p with
  | none => exact Or.inl rfl
  | some l =>
    try simp only []
    by_cases he : l.isEmpty
    · rw [if_pos he]
      exact Or.inr rfl
    · rw [if_neg he]
      exact Or.inl rfl

theorem removePriceLevelIfEmpty_buy_bidLevels (ob : OrderBook) (p : Int) :
    (ob.removePriceLevelIfEmpty Side.buy p).bidLevels = ob.bidLevels ∨
    (ob.removePriceLevelIfEmpty Side.buy p).bidLevels = removeLevel ob.bidLevels p := by
  unfold OrderBook.removePriceLevelIfEmpty
  try simp only []
  cases lookupLevel ob.bidLevels p with
  | none => exact Or.inl rfl
  | some l =>
    try simp only []
    by_cases he : l.isEmpty
    · rw [if_pos he]
      exact Or.inr rfl
    · rw [if_neg he]
      exact Or.inl rfl

/-- A head order with matching id is erased by `removeOrder`. -/
theorem removeOrder_head (lvl1 : PriceLevel) (o : Order) (rest : List Order)
    (h : lvl1.queue = o :: rest) : (lvl1.removeOrder o).queue = rest := by
  unfold PriceLevel.removeOrder
  rw [h]
  have hpred : (fun x => x.orderID == o.orderID) o = true := by
    simp
  rw [List.any_cons]
  simp only [hpred, Bool.true_or, if_true]
  simp [List.eraseP_cons, hpred]

end Matching

namespace Matching

/-- The best-ask fold yields the start value or some level's price. -/
theorem bestAskFold_mem (ls : List PriceLevel) : ∀ b : Int,
    ls.foldl (fun best l => if best = 0 ∨ l.price < best then l.price else best) b = b ∨
    ∃ l, l ∈ ls ∧
      ls.foldl (fun best l => if best = 0 ∨ l.price < best then l.price else best) b
        = l.price := by
  induction ls with
  | nil => intro b; exact Or.inl rfl
  | cons l t ih =>
    intro b
    rw [List.foldl_cons]
    cases ih (if b = 0 ∨ l.price < b then l.price else b) with
    | inl heq =>
      rw [heq]
      by_cases hc : b = 0 ∨ l.price < b
      · rw [if_pos hc]
        exact Or.inr ⟨l, List.mem_cons_self l t, rfl⟩
      · rw [if_neg hc]
        exact Or.inl rfl
    | inr hex =>
      obtain ⟨l', hmem, heq⟩ := hex
      exact Or.inr ⟨l', List.mem_cons_of_mem l hmem, heq⟩

/-- From a positive start value and positive prices, the best-ask fold stays
positive and below every price it sees. -/
theorem bestAskFold_le (ls : List PriceLevel) : ∀ b : Int, 0 < b →
    (∀ l ∈ ls, 0 < l.price) →
    0 < ls.foldl (fun best l => if best = 0 ∨ l.price < best then l.price else best) b ∧
    ls.foldl (fun best l => if best = 0 ∨ l.price < best then l.price else best) b ≤ b ∧
    ∀ l ∈ ls,
      ls.foldl (fun best l => if best = 0 ∨ l.price < best then l.price else best) b
        ≤ l.price := by
  induction ls with
  | nil =>
    intro b hb _
    exact ⟨hb, le_refl b, fun l hl => absurd hl (List.not_mem_nil l)⟩
  | cons l t ih =>
    intro b hb hpos
    rw [List.foldl_cons]
    have hstep : 0 < (if b = 0 ∨ l.price < b then l.price else b) ∧
        (if b = 0 ∨ l.price < b then l.price else b) ≤ b ∧
        (if b = 0 ∨ l.price < b then l.price else b) ≤ l.price := by
      have hlp : 0 < l.price := hpos l (List.mem_cons_self l t)
      by_cases hc : b = 0 ∨ l.price < b
      · rw [if_pos hc]
        rcases hc with hc0 | hlt
        · omega
        · exact ⟨hlp, le_of_lt hlt, le_refl _⟩
      · rw [if_neg hc]
        push_neg at hc
        exact ⟨hb, le_refl b, hc.2⟩
    obtain ⟨hr0, hrb, hrl⟩ :=
      ih (if b = 0 ∨ l.price < b then l.price else b) hstep.1
        (fun l' hl' => hpos l' (List.mem_cons_of_mem l hl'))
    refine ⟨hr0, le_trans hrb hstep.2.1, ?_⟩
    intro l' hl'
    cases List.mem_cons.mp hl' with
    | inl heq => subst heq; exact le_trans hrb hstep.2.2
    | inr hmem => exact hrl l' hmem

/-- A nonzero best ask is the price of a stored level. -/
theorem getBestAsk_lookup (ob : OrderBook) (h : ob.getBestAsk ≠ 0) :
    ∃ lvl, lookupLevel ob.askLevels ob.getBestAsk = some lvl := by
  cases bestAskFold_mem ob.askLevels 0 with
  | inl heq => exact absurd heq h
  | inr hex =>
    obtain ⟨l, hmem, heq⟩ := hex
    have hpred : (fun x => x.price == ob.getBestAsk) l = true := by
      simp only [beq_iff_eq]
      exact heq.symm
    have : (ob.askLevels.find? (fun x => x.price == ob.getBestAsk)).isSome := by
      rw [List.find?_isSome]
      exact ⟨l, hmem, hpred⟩
    obtain ⟨lvl, hlvl⟩ := Option.isSome_iff_exists.mp this
    exact ⟨lvl, hlvl⟩

/-- With positive level prices, the best ask is least among them. -/
theorem getBestAsk_least (ob : OrderBook)
    (hpos : ∀ l ∈ ob.askLevels, 0 < l.price) (h : ob.getBestAsk ≠ 0) :
    ∀ l ∈ ob.askLevels, ob.getBestAsk ≤ l.price := by
  cases hls : ob.askLevels with
  | nil => intro l hl; exact absurd hl (List.not_mem_nil l)
  | cons l0 t =>
    have hpos' : ∀ l ∈ l0 :: t, 0 < l.price := by rw [← hls]; exact hpos
    have hl0 : 0 < l0.price := hpos' l0 (List.mem_cons_self l0 t)
    have hfold : ob.getBestAsk =
        t.foldl (fun best l => if best = 0 ∨ l.price < best then l.price else best)
          l0.price := by
      show ob.askLevels.foldl _ 0 = _
      rw [hls, List.foldl_cons, if_pos (Or.inl rfl)]
    obtain ⟨hr0, hrb, hrl⟩ := bestAskFold_le t l0.price hl0
      (fun l' hl' => hpos' l' (List.mem_cons_of_mem l0 hl'))
    intro l hl
    cases List.mem_cons.mp hl with
    | inl heq => subst heq; rw [hfold]; exact hrb
    | inr hmem => rw [hfold]; exact hrl l hmem

/-- The best-bid fold yields the start value or some level's price. -/
theorem bestBidFold_mem (ls : List PriceLevel) : ∀ b : Int,
    ls.foldl (fun best l => if l.price > best then l.price else best) b = b ∨
    ∃ l, l ∈ ls ∧
      ls.foldl (fun best l => if l.price > best then l.price else best) b = l.price := by
  induction ls with
  | nil => intro b; exact Or.inl rfl
  | cons l t ih =>
    intro b
    rw [List.foldl_cons]
    cases ih (if l.price > b then l.price else b) with
    | inl heq =>
      rw [heq]
      by_cases hc : l.price > b
      · rw [if_pos hc]
        exact Or.inr ⟨l, List.mem_cons_self l t, rfl⟩
      · rw [if_neg hc]
        exact Or.inl rfl
    | inr hex =>
      obtain ⟨l', hmem, heq⟩ := hex
      exact Or.inr ⟨l', List.mem_cons_of_mem l hmem, heq⟩

/-- The best-bid fold dominates its start value and every price it sees. -/
theorem bestBidFold_ge (ls : List PriceLevel) : ∀ b : Int,
    b ≤ ls.foldl (fun best l => if l.price > best then l.price else best) b ∧
    ∀ l ∈ ls,
      l.price ≤ ls.foldl (fun best l => if l.price > best then l.price else best) b := by
  induction ls with
  | nil => intro b; exact ⟨le_refl b, fun l hl => absurd hl (List.not_mem_nil l)⟩
  | cons l t ih =>
    intro b
    rw [List.foldl_cons]
    obtain ⟨hge, hall⟩ := ih (if l.price > b then l.price else b)
    have hstep : b ≤ (if l.price > b then l.price else b) ∧
        l.price ≤ (if l.price > b then l.price else b) := by
      by_cases hc : l.price > b
      · rw [if_pos hc]; exact ⟨le_of_lt hc, le_refl _⟩
      · rw [if_neg hc]; exact ⟨le_refl b, not_lt.mp hc⟩
    refine ⟨le_trans hstep.1 hge, ?_⟩
    intro l' hl'
    cases List.mem_cons.mp hl' with
    | inl heq => subst heq; exact le_trans hstep.2 hge
    | inr hmem => exact hall l' hmem

/-- A nonzero best bid is the price of a stored level. -/
theorem getBestBid_lookup (ob : OrderBook) (h : ob.getBestBid ≠ 0) :
    ∃ lvl, lookupLevel ob.bidLevels ob.getBestBid = some lvl := by
  cases bestBidFold_mem ob.bidLevels 0 with
  | inl heq => exact absurd heq h
  | inr hex =>
    obtain ⟨l, hmem, heq⟩ := hex
    have hpred : (fun x => x.price == ob.getBestBid) l = true := by
      simp only [beq_iff_eq]
      exact heq.symm
    have : (ob.bidLevels.find? (fun x => x.price == ob.getBestBid)).isSome := by
      rw [List.find?_isSome]
      exact ⟨l, hmem, hpred⟩
    obtain ⟨lvl, hlvl⟩ := Option.isSome_iff_exists.mp this
    exact ⟨lvl, hlvl⟩

/-- The best bid dominates every bid level's price. -/
theorem getBestBid_greatest (ob : OrderBook) :
    ∀ l ∈ ob.bidLevels, l.price ≤ ob.getBestBid := by
  intro l hl
  exact (bestBidFold_ge ob.bidLevels 0).2 l hl

/-- An exhausted taker stops the buy loop immediately. -/
theorem matchBuyLoop_stop (fuel : Nat) (ob : OrderBook) (taker : Order)
    (res : CommandResult) (h : ¬ taker.remainingQty > 0) :
    matchBuyLoop fuel ob taker res = (ob, taker, res) := by
  cases fuel with
  | zero => rfl
  | succ fuel =>
    simp only [matchBuyLoop]
    rw [if_neg h]

/-- An exhausted taker stops the sell loop immediately. -/
theorem matchSellLoop_stop (fuel : Nat) (ob : OrderBook) (taker : Order)
    (res : CommandResult) (h : ¬ taker.remainingQty > 0) :
    matchSellLoop fuel ob taker res = (ob, taker, res) := by
  cases fuel with
  | zero => rfl
  | succ fuel =>
    simp only [matchSellLoop]
    rw [if_neg h]

/-- The buy loop never changes the taker's identity, price, side or total
quantity. -/
theorem matchBuyLoop_taker_id (fuel : Nat) (ob : OrderBook) (taker : Order)
    (res : CommandResult) :
    (matchBuyLoop fuel ob taker res).2.1.orderID = taker.orderID ∧
    (matchBuyLoop fuel ob taker res).2.1.price = taker.price ∧
    (matchBuyLoop fuel ob taker res).2.1.side = taker.side ∧
    (matchBuyLoop fuel ob taker res).2.1.quantity = taker.quantity := by
  induction fuel, ob, taker, res using matchBuyLoop.induct with
  | case1 ob taker res => exact ⟨rfl, rfl, rfl, rfl⟩
  | case2 fuel ob taker res hq bestAsk hb =>
    have hred : matchBuyLoop (fuel + 1) ob taker res = (ob, taker, res) := by
      simp only [matchBuyLoop]
      rw [if_pos hq, if_pos hb]
    rw [hred]
    exact ⟨rfl, rfl, rfl, rfl⟩
  | case3 fuel ob taker res hq bestAsk hb hlv =>
    have hred : matchBuyLoop (fuel + 1) ob taker res = (ob, taker, res) := by
      simp only [matchBuyLoop]
      rw [if_pos hq, if_neg hb, hlv]
    rw [hred]
    exact ⟨rfl, rfl, rfl, rfl⟩
  | case4 fuel ob taker res hq bestAsk hb lvl hlv hempty ih =>
    have hred : matchBuyLoop (fuel + 1) ob taker res =
        matchBuyLoop fuel { ob with askLevels := removeLevel ob.askLevels bestAsk }
          taker res := by
      simp only [matchBuyLoop]
      rw [if_pos hq, if_neg hb, hlv]
      simp only []
      rw [if_pos hempty]
    rw [hred]
    exact ih
  | case5 fuel ob taker res hq bestAsk hb lvl hlv hempty hqm =>
    have hred : matchBuyLoop (fuel + 1) ob taker res = (ob, taker, res) := by
      simp only [matchBuyLoop]
      rw [if_pos hq, if_neg hb, hlv]
      simp only []
      rw [if_neg hempty, hqm]
    rw [hred]
    exact ⟨rfl, rfl, rfl, rfl⟩
  | case6 fuel ob taker res hq bestAsk hb lvl hlv hempty maker rest hqm st ob3
      maker2 taker2 res4 matchQty v lvl1 hm lvl2 ob4 ob5 ob6 ih =>
    have hred : matchBuyLoop (fuel + 1) ob taker res =
        matchBuyLoop fuel ob6 taker2 res4 := by
      simp only [matchBuyLoop]
      rw [if_pos hq, if_neg hb, hlv]
      simp only []
      rw [if_neg hempty, hqm]
      simp only []
      rw [if_pos hm]
    rw [hred]
    have t1 : taker2.orderID = taker.orderID := by
      show (executeMatch ob maker taker maker.price res).2.2.1.orderID = _
      rw [executeMatch_eq]
    have t2 : taker2.price = taker.price := by
      show (executeMatch ob maker taker maker.price res).2.2.1.price = _
      rw [executeMatch_eq]
    have t3 : taker2.side = taker.side := by
      show (executeMatch ob maker taker maker.price res).2.2.1.side = _
      rw [executeMatch_eq]
    have t4 : taker2.quantity = taker.quantity := by
      show (executeMatch ob maker taker maker.price res).2.2.1.quantity = _
      rw [executeMatch_eq]
    obtain ⟨i1, i2, i3, i4⟩ := ih
    exact ⟨i1.trans t1, i2.trans t2, i3.trans t3, i4.trans t4⟩
  | case7 fuel ob taker res hq bestAsk hb lvl hlv hempty maker rest hqm st ob3
      maker2 taker2 res4 matchQty v lvl1 hm ob4 ih =>
    have hred : matchBuyLoop (fuel + 1) ob taker res =
        matchBuyLoop fuel ob4 taker2 res4 := by
      simp only [matchBuyLoop]
      rw [if_pos hq, if_neg hb, hlv]
      simp only []
      rw [if_neg hempty, hqm]
      simp only []
      rw [if_neg hm]
    rw [hred]
    have t1 : taker2.orderID = taker.orderID := by
      show (executeMatch ob maker taker maker.price res).2.2.1.orderID = _
      rw [executeMatch_eq]
    have t2 : taker2.price = taker.price := by
      show (executeMatch ob maker taker maker.price res).2.2.1.price = _
      rw [executeMatch_eq]
    have t3 : taker2.side = taker.side := by
      show (executeMatch ob maker taker maker.price res).2.2.1.side = _
      rw [executeMatch_eq]
    have t4 : taker2.quantity = taker.quantity := by
      show (executeMatch ob maker taker maker.price res).2.2.1.quantity = _
      rw [executeMatch_eq]
    obtain ⟨i1, i2, i3, i4⟩ := ih
    exact ⟨i1.trans t1, i2.trans t2, i3.trans t3, i4.trans t4⟩
  | case8 fuel ob taker res hq =>
    have hred : matchBuyLoop (fuel + 1) ob taker res = (ob, taker, res) := by
      simp only [matchBuyLoop]
      rw [if_neg hq]
    rw [hred]
    exact ⟨rfl, rfl, rfl, rfl⟩

end Matching

namespace Matching

/-- The sell loop never changes the taker's identity, price, side or total
quantity. -/
theorem matchSellLoop_taker_id (fuel : Nat) (ob : OrderBook) (taker : Order)
    (res : CommandResult) :
    (matchSellLoop fuel ob taker res).2.1.orderID = taker.orderID ∧
    (matchSellLoop fuel ob taker res).2.1.price = taker.price ∧
    (matchSellLoop fuel ob taker res).2.1.side = taker.side ∧
    (matchSellLoop fuel ob taker res).2.1.quantity = taker.quantity := by
  induction fuel, ob, taker, res using matchSellLoop.induct with
  | case1 ob taker res => exact ⟨rfl, rfl, rfl, rfl⟩
  | case2 fuel ob taker res hq bestBid hb =>
    have hred : matchSellLoop (fuel + 1) ob taker res = (ob, taker, res) := by
      simp only [matchSellLoop]
      rw [if_pos hq, if_pos hb]
    rw [hred]
    exact ⟨rfl, rfl, rfl, rfl⟩
  | case3 fuel ob taker res hq bestBid hb hlv =>
    have hred : matchSellLoop (fuel + 1) ob taker res = (ob, taker, res) := by
      simp only [matchSellLoop]
      rw [if_pos hq, if_neg hb, hlv]
    rw [hred]
    exact ⟨rfl, rfl, rfl, rfl⟩
  | case4 fuel ob taker res hq bestBid hb lvl hlv hempty ih =>
    have hred : matchSellLoop (fuel + 1) ob taker res =
        matchSellLoop fuel { ob with bidLevels := removeLevel ob.bidLevels bestBid }
          taker res := by
      simp only [matchSellLoop]
      rw [if_pos hq, if_neg hb, hlv]
      simp only []
      rw [if_pos hempty]
    rw [hred]
    exact ih
  | case5 fuel ob taker res hq bestBid hb lvl hlv hempty hqm =>
    have hred : matchSellLoop (fuel + 1) ob taker res = (ob, taker, res) := by
      simp only [matchSellLoop]
      rw [if_pos hq, if_neg hb, hlv]
      simp only []
      rw [if_neg hempty, hqm]
    rw [hred]
    exact ⟨rfl, rfl, rfl, rfl⟩
  | case6 fuel ob taker res hq bestBid hb lvl hlv hempty maker rest hqm st ob3
      maker2 taker2 res4 matchQty v lvl1 hm lvl2 ob4 ob5 ob6 ih =>
    have hred : matchSellLoop (fuel + 1) ob taker res =
        matchSellLoop fuel ob6 taker2 res4 := by
      simp only [matchSellLoop]
      rw [if_pos hq, if_neg hb, hlv]
      simp only []
      rw [if_neg hempty, hqm]
      simp only []
      rw [if_pos hm]
    rw [hred]
    have t1 : taker2.orderID = taker.orderID := by
      show (executeMatch ob maker taker maker.price res).2.2.1.orderID = _
      rw [executeMatch_eq]
    have t2 : taker2.price = taker.price := by
      show (executeMatch ob maker taker maker.price res).2.2.1.price = _
      rw [executeMatch_eq]
    have t3 : taker2.side = taker.side := by
      show (executeMatch ob maker taker maker.price res).2.2.1.side = _
      rw [executeMatch_eq]
    have t4 : taker2.quantity = taker.quantity := by
      show (executeMatch ob maker taker maker.price res).2.2.1.quantity = _
      rw [executeMatch_eq]
    obtain ⟨i1, i2, i3, i4⟩ := ih
    exact ⟨i1.trans t1, i2.trans t2, i3.trans t3, i4.trans t4⟩
  | case7 fuel ob taker res hq bestBid hb lvl hlv hempty maker rest hqm st ob3
      maker2 taker2 res4 matchQty v lvl1 hm ob4 ih =>
    have hred : matchSellLoop (fuel + 1) ob taker res =
        matchSellLoop fuel ob4 taker2 res4 := by
      simp only [matchSellLoop]
      rw [if_pos hq, if_neg hb, hlv]
      simp only []
      rw [if_neg hempty, hqm]
      simp only []
      rw [if_neg hm]
    rw [hred]
    have t1 : taker2.orderID = taker.orderID := by
      show (executeMatch ob maker taker maker.price res).2.2.1.orderID = _
      rw [executeMatch_eq]
    have t2 : taker2.price = taker.price := by
      show (executeMatch ob maker taker maker.price res).2.2.1.price = _
      rw [executeMatch_eq]
    have t3 : taker2.side = taker.side := by
      show (executeMatch ob maker taker maker.price res).2.2.1.side = _
      rw [executeMatch_eq]
    have t4 : taker2.quantity = taker.quantity := by
      show (executeMatch ob maker taker maker.price res).2.2.1.quantity = _
      rw [executeMatch_eq]
    obtain ⟨i1, i2, i3, i4⟩ := ih
    exact ⟨i1.trans t1, i2.trans t2, i3.trans t3, i4.trans t4⟩
  | case8 fuel ob taker res hq =>
    have hred : matchSellLoop (fuel + 1) ob taker res = (ob, taker, res) := by
      simp only [matchSellLoop]
      rw [if_neg hq]
    rw [hred]
    exact ⟨rfl, rfl, rfl, rfl⟩

/-- With enough fuel — which `matchBuyFuel` always provides — the buy loop
only returns once the source loop's exit condition holds: the taker is
exhausted, or no ask level crosses its limit any more. -/
theorem matchBuyLoop_exit (fuel : Nat) (ob : OrderBook) (taker : Order)
    (res : CommandResult)
    (hfuel : ob.askLevels.length + totalQueueLen ob.askLevels + 2 ≤ fuel) :
    ¬ (matchBuyLoop fuel ob taker res).2.1.remainingQty > 0 ∨
    (matchBuyLoop fuel ob taker res).1.getBestAsk = 0 ∨
    (matchBuyLoop fuel ob taker res).2.1.price <
      (matchBuyLoop fuel ob taker res).1.getBestAsk := by
  revert hfuel
  induction fuel, ob, taker, res using matchBuyLoop.induct with
  | case1 ob taker res =>
    intro hfuel
    exact absurd hfuel (by omega)
  | case2 fuel ob taker res hq bestAsk hb =>
    intro hfuel
    have hred : matchBuyLoop (fuel + 1) ob taker res = (ob, taker, res) := by
      simp only [matchBuyLoop]
      rw [if_pos hq, if_pos hb]
    rw [hred]
    rcases hb with hb0 | hlt
    · exact Or.inr (Or.inl hb0)
    · exact Or.inr (Or.inr hlt)
  | case3 fuel ob taker res hq bestAsk hb hlv =>
    intro hfuel
    have hb0 : ¬ ob.getBestAsk = 0 := fun hc => hb (Or.inl hc)
    obtain ⟨lvl, hl⟩ := getBestAsk_lookup ob hb0
    exact Option.noConfusion (hlv.symm.trans hl)
  | case4 fuel ob taker res hq bestAsk hb lvl hlv hempty ih =>
    intro hfuel
    have hred : matchBuyLoop (fuel + 1) ob taker res =
        matchBuyLoop fuel { ob with askLevels := removeLevel ob.askLevels bestAsk }
          taker res := by
      simp only [matchBuyLoop]
      rw [if_pos hq, if_neg hb, hlv]
      simp only []
      rw [if_pos hempty]
    rw [hred]
    have hlen := removeLevel_length_lt ob.askLevels bestAsk lvl hlv
    have hql := totalQueueLen_removeLevel_le ob.askLevels bestAsk
    refine ih ?_
    show (removeLevel ob.askLevels bestAsk).length +
      totalQueueLen (removeLevel ob.askLevels bestAsk) + 2 ≤ fuel
    omega
  | case5 fuel ob taker res hq bestAsk hb lvl hlv hempty hqm =>
    intro hfuel
    refine absurd ?_ hempty
    unfold PriceLevel.isEmpty
    rw [hqm]
    rfl
  | case6 fuel ob taker res hq bestAsk hb lvl hlv hempty maker rest hqm st ob3
      maker2 taker2 res4 matchQty v lvl1 hm lvl2 ob4 ob5 ob6 ih =>
    intro hfuel
    have hred : matchBuyLoop (fuel + 1) ob taker res =
        matchBuyLoop fuel ob6 taker2 res4 := by
      simp only [matchBuyLoop]
      rw [if_pos hq, if_neg hb, hlv]
      simp only []
      rw [if_neg hempty, hqm]
      simp only []
      rw [if_pos hm]
    rw [hred]
    have hA : ob3.askLevels = ob.askLevels := by
      show (executeMatch ob maker taker maker.price res).1.askLevels = _
      rw [executeMatch_eq]
      rfl
    have hB : ob5.askLevels = updateLevel ob3.askLevels bestAsk lvl2 := rfl
    rw [hA] at hB
    have hq2 : lvl2.queue = rest := removeOrder_head lvl1 maker2 rest rfl
    have hqm' : lvl.queue.length = rest.length + 1 := by rw [hqm]; rfl
    have hqt := totalQueueLen_updateLevel ob.askLevels bestAsk lvl2 lvl hlv
    rw [hq2] at hqt
    rcases removePriceLevelIfEmpty_sell_askLevels ob5 bestAsk with hC | hC
    · rw [hB] at hC
      have hlen : ob6.askLevels.length = ob.askLevels.length := by
        rw [hC, updateLevel_length]
      refine ih ?_
      rw [hlen, hC]
      omega
    · rw [hB] at hC
      have hlen : ob6.askLevels.length ≤ ob.askLevels.length := by
        rw [hC]
        calc (removeLevel (updateLevel ob.askLevels bestAsk lvl2) bestAsk).length
            ≤ (updateLevel ob.askLevels bestAsk lvl2).length :=
              removeLevel_length_le _ _
          _ = ob.askLevels.length := updateLevel_length _ _ _
      have hqle : totalQueueLen ob6.askLevels ≤
          totalQueueLen (updateLevel ob.askLevels bestAsk lvl2) := by
        rw [hC]
        exact totalQueueLen_removeLevel_le _ _
      refine ih ?_
      omega
  | case7 fuel ob taker res hq bestAsk hb lvl hlv hempty maker rest hqm st ob3
      maker2 taker2 res4 matchQty v lvl1 hm ob4 ih =>
    intro hfuel
    have hred : matchBuyLoop (fuel + 1) ob taker res =
        matchBuyLoop fuel ob4 taker2 res4 := by
      simp only [matchBuyLoop]
      rw [if_pos hq, if_neg hb, hlv]
      simp only []
      rw [if_neg hempty, hqm]
      simp only []
      rw [if_neg hm]
    rw [hred]
    have hm2 : maker2.remainingQty = maker.remainingQty -
        (if taker.remainingQty < maker.remainingQty then taker.remainingQty
         else maker.remainingQty) := by
      show (executeMatch ob maker taker maker.price res).2.1.remainingQty = _
      rw [executeMatch_eq]
    have ht2 : taker2.remainingQty = taker.remainingQty -
        (if taker.remainingQty < maker.remainingQty then taker.remainingQty
         else maker.remainingQty) := by
      show (executeMatch ob maker taker maker.price res).2.2.1.remainingQty = _
      rw [executeMatch_eq]
    rw [hm2] at hm
    have ht0 : ¬ taker2.remainingQty > 0 := by
      rw [ht2]
      split_ifs at hm ⊢ <;> omega
    rw [matchBuyLoop_stop fuel ob4 taker2 res4 ht0]
    exact Or.inl ht0
  | case8 fuel ob taker res hq =>
    intro hfuel
    have hred : matchBuyLoop (fuel + 1) ob taker res = (ob, taker, res) := by
      simp only [matchBuyLoop]
      rw [if_neg hq]
    rw [hred]
    exact Or.inl hq

/-- Exit condition of `matchBuyOrder`: the source's fuel always suffices. -/
theorem matchBuyOrder_exit (ob : OrderBook) (taker : Order) (res : CommandResult) :
    ¬ (matchBuyOrder ob taker res).2.1.remainingQty > 0 ∨
    (matchBuyOrder ob taker res).1.getBestAsk = 0 ∨
    (matchBuyOrder ob taker res).2.1.price <
      (matchBuyOrder ob taker res).1.getBestAsk :=
  matchBuyLoop_exit (matchBuyFuel ob taker) ob taker res
    (by unfold matchBuyFuel; omega)

end Matching

namespace Matching

/-- Sell-side mirror of `matchBuyLoop_exit`. -/
theorem matchSellLoop_exit (fuel : Nat) (ob : OrderBook) (taker : Order)
    (res : CommandResult)
    (hfuel : ob.bidLevels.length + totalQueueLen ob.bidLevels + 2 ≤ fuel) :
    ¬ (matchSellLoop fuel ob taker res).2.1.remainingQty > 0 ∨
    (matchSellLoop fuel ob taker res).1.getBestBid = 0 ∨
    (matchSellLoop fuel ob taker res).1.getBestBid <
      (matchSellLoop fuel ob taker res).2.1.price := by
  revert hfuel
  induction fuel, ob, taker, res using matchSellLoop.induct with
  | case1 ob taker res =>
    intro hfuel
    exact absurd hfuel (by omega)
  | case2 fuel ob taker res hq bestBid hb =>
    intro hfuel
    have hred : matchSellLoop (fuel + 1) ob taker res = (ob, taker, res) := by
      simp only [matchSellLoop]
      rw [if_pos hq, if_pos hb]
    rw [hred]
    rcases hb with hb0 | hlt
    · exact Or.inr (Or.inl hb0)
    · exact Or.inr (Or.inr hlt)
  | case3 fuel ob taker res hq bestBid hb hlv =>
    intro hfuel
    have hb0 : ¬ ob.getBestBid = 0 := fun hc => hb (Or.inl hc)
    obtain ⟨lvl, hl⟩ := getBestBid_lookup ob hb0
    exact Option.noConfusion (hlv.symm.trans hl)
  | case4 fuel ob taker res hq bestBid hb lvl hlv hempty ih =>
    intro hfuel
    have hred : matchSellLoop (fuel + 1) ob taker res =
        matchSellLoop fuel { ob with bidLevels := removeLevel ob.bidLevels bestBid }
          taker res := by
      simp only [matchSellLoop]
      rw [if_pos hq, if_neg hb, hlv]
      simp only []
      rw [if_pos hempty]
    rw [hred]
    have hlen := removeLevel_length_lt ob.bidLevels bestBid lvl hlv
    have hql := totalQueueLen_removeLevel_le ob.bidLevels bestBid
    refine ih ?_
    show (removeLevel ob.bidLevels bestBid).length +
      totalQueueLen (removeLevel ob.bidLevels bestBid) + 2 ≤ fuel
    omega
  | case5 fuel ob taker res hq bestBid hb lvl hlv hempty hqm =>
    intro hfuel
    refine absurd ?_ hempty
    unfold PriceLevel.isEmpty
    rw [hqm]
    rfl
  | case6 fuel ob taker res hq bestBid hb lvl hlv hempty maker rest hqm st ob3
      maker2 taker2 res4 matchQty v lvl1 hm lvl2 ob4 ob5 ob6 ih =>
    intro hfuel
    have hred : matchSellLoop (fuel + 1) ob taker res =
        matchSellLoop fuel ob6 taker2 res4 := by
      simp only [matchSellLoop]
      rw [if_pos hq, if_neg hb, hlv]
      simp only []
      rw [if_neg hempty, hqm]
      simp only []
      rw [if_pos hm]
    rw [hred]
    have hA : ob3.bidLevels = ob.bidLevels := by
      show (executeMatch ob maker taker maker.price res).1.bidLevels = _
      rw [executeMatch_eq]
      rfl
    have hB : ob5.bidLevels = updateLevel ob3.bidLevels bestBid lvl2 := rfl
    rw [hA] at hB
    have hq2 : lvl2.queue = rest := removeOrder_head lvl1 maker2 rest rfl
    have hqm' : lvl.queue.length = rest.length + 1 := by rw [hqm]; rfl
    have hqt := totalQueueLen_updateLevel ob.bidLevels bestBid lvl2 lvl hlv
    rw [hq2] at hqt
    rcases removePriceLevelIfEmpty_buy_bidLevels ob5 bestBid with hC | hC
    · rw [hB] at hC
      have hlen : ob6.bidLevels.length = ob.bidLevels.length := by
        rw [hC, updateLevel_length]
      refine ih ?_
      rw [hlen, hC]
      omega
    · rw [hB] at hC
      have hlen : ob6.bidLevels.length ≤ ob.bidLevels.length := by
        rw [hC]
        calc (removeLevel (updateLevel ob.bidLevels bestBid lvl2) bestBid).length
            ≤ (updateLevel ob.bidLevels bestBid lvl2).length :=
              removeLevel_length_le _ _
          _ = ob.bidLevels.length := updateLevel_length _ _ _
      have hqle : totalQueueLen ob6.bidLevels ≤
          totalQueueLen (updateLevel ob.bidLevels bestBid lvl2) := by
        rw [hC]
        exact totalQueueLen_removeLevel_le _ _
      refine ih ?_
      omega
  | case7 fuel ob taker res hq bestBid hb lvl hlv hempty maker rest hqm st ob3
      maker2 taker2 res4 matchQty v lvl1 hm ob4 ih =>
    intro hfuel
    have hred : matchSellLoop (fuel + 1) ob taker res =
        matchSellLoop fuel ob4 taker2 res4 := by
      simp only [matchSellLoop]
      rw [if_pos hq, if_neg hb, hlv]
      simp only []
      rw [if_neg hempty, hqm]
      simp only []
      rw [if_neg hm]
    rw [hred]
    have hm2 : maker2.remainingQty = maker.remainingQty -
        (if taker.remainingQty < maker.remainingQty then taker.remainingQty
         else maker.remainingQty) := by
      show (executeMatch ob maker taker maker.price res).2.1.remainingQty = _
      rw [executeMatch_eq]
    have ht2 : taker2.remainingQty = taker.remainingQty -
        (if taker.remainingQty < maker.remainingQty then taker.remainingQty
         else maker.remainingQty) := by
      show (executeMatch ob maker taker maker.price res).2.2.1.remainingQty = _
      rw [executeMatch_eq]
    rw [hm2] at hm
    have ht0 : ¬ taker2.remainingQty > 0 := by
      rw [ht2]
      split_ifs at hm ⊢ <;> omega
    rw [matchSellLoop_stop fuel ob4 taker2 res4 ht0]
    exact Or.inl ht0
  | case8 fuel ob taker res hq =>
    intro hfuel
    have hred : matchSellLoop (fuel + 1) ob taker res = (ob, taker, res) := by
      simp only [matchSellLoop]
      rw [if_neg hq]
    rw [hred]
    exact Or.inl hq

/-- Exit condition of `matchSellOrder`. -/
theorem matchSellOrder_exit (ob : OrderBook) (taker : Order) (res : CommandResult) :
    ¬ (matchSellOrder ob taker res).2.1.remainingQty > 0 ∨
    (matchSellOrder ob taker res).1.getBestBid = 0 ∨
    (matchSellOrder ob taker res).1.getBestBid <
      (matchSellOrder ob taker res).2.1.price :=
  matchSellLoop_exit (matchSellFuel ob taker) ob taker res
    (by unfold matchSellFuel; omega)

end Matching

namespace Matching

theorem trades_prefix_compose (r : OrderBook × Order × CommandResult)
    (res4 : CommandResult) (resTrades : List Trade) (tr : Trade)
    (hpre : ∃ trs2, r.2.2.trades = res4.trades ++ trs2)
    (h4 : res4.trades = resTrades ++ [tr]) :
    ∃ trs2, r.2.2.trades = resTrades ++ tr :: trs2 := by
  obtain ⟨trs2, hp⟩ := hpre
  refine ⟨trs2, ?_⟩
  rw [hp, h4, List.append_assoc]
  rfl

theorem matchBuyLoop_trades_extend (fuel : Nat) (ob : OrderBook) (taker : Order)
    (res : CommandResult) :
    ∃ trs2, (matchBuyLoop fuel ob taker res).2.2.trades = res.trades ++ trs2 := by
  obtain ⟨evs, trs, h1, h2, h3, h4, h5, h6⟩ := matchBuyLoop_events fuel ob taker res
  exact ⟨trs, h2⟩

theorem matchSellLoop_trades_extend (fuel : Nat) (ob : OrderBook) (taker : Order)
    (res : CommandResult) :
    ∃ trs2, (matchSellLoop fuel ob taker res).2.2.trades = res.trades ++ trs2 := by
  obtain ⟨evs, trs, h1, h2, h3, h4, h5, h6⟩ := matchSellLoop_events fuel ob taker res
  exact ⟨trs, h2⟩

/-- One step of the buy loop under an inclusive cross (`bestAsk ≤ P`): the
next trade is against the FIFO head of the best ask level, priced at the
maker's resting price, for `min(maker.remaining, taker.remaining)`. -/
theorem matchBuy_step (fuel : Nat) (ob : OrderBook) (taker : Order)
    (res : CommandResult) (lvl : PriceLevel) (maker : Order) (rest : List Order)
    (hq : taker.remainingQty > 0) (hb0 : ¬ ob.getBestAsk = 0)
    (hble : ob.getBestAsk ≤ taker.price)
    (hlv : lookupLevel ob.askLevels ob.getBestAsk = some lvl)
    (hqm : lvl.queue = maker :: rest) :
    ∃ trs2, (matchBuyLoop (fuel + 1) ob taker res).2.2.trades =
      res.trades ++ ({ tradeID := "trd_" ++ toString (ob.tradeSeq + 1), symbol := ob.symbol, makerOrderID := maker.orderID, takerOrderID := taker.orderID, price := maker.price, quantity := min maker.remainingQty taker.remainingQty, makerSide := maker.side, takerSide := taker.side } : Trade) :: trs2 := by
  have hminq : min maker.remainingQty taker.remainingQty =
      (if taker.remainingQty < maker.remainingQty then taker.remainingQty
       else maker.remainingQty) := by
    rw [Int.min_def]
    split_ifs <;> omega
  have hempty : ¬ lvl.isEmpty = true := by
    unfold PriceLevel.isEmpty
    rw [hqm]
    simp
  have hb : ¬ (ob.getBestAsk = 0 ∨ taker.price < ob.getBestAsk) := by
    intro hc
    rcases hc with h0 | hlt
    · exact hb0 h0
    · exact absurd hble (not_le.mpr hlt)
  simp only [matchBuyLoop]
  rw [if_pos hq, if_neg hb, hlv]
  simp only []
  rw [if_neg hempty, hqm]
  simp only []
  rw [hminq]
  by_cases hm : (executeMatch ob maker taker maker.price res).2.1.remainingQty = 0
  · rw [if_pos hm]
    refine trades_prefix_compose _ _ _ _ (matchBuyLoop_trades_extend fuel _ _ _) ?_
    show (executeMatch ob maker taker maker.price res).2.2.2.1.trades = _
    rw [executeMatch_eq]
  · rw [if_neg hm]
    refine trades_prefix_compose _ _ _ _ (matchBuyLoop_trades_extend fuel _ _ _) ?_
    show (executeMatch ob maker taker maker.price res).2.2.2.1.trades = _
    rw [executeMatch_eq]

/-- One step of the sell loop under an inclusive cross (`P ≤ bestBid`). -/
theorem matchSell_step (fuel : Nat) (ob : OrderBook) (taker : Order)
    (res : CommandResult) (lvl : PriceLevel) (maker : Order) (rest : List Order)
    (hq : taker.remainingQty > 0) (hb0 : ¬ ob.getBestBid = 0)
    (hble : taker.price ≤ ob.getBestBid)
    (hlv : lookupLevel ob.bidLevels ob.getBestBid = some lvl)
    (hqm : lvl.queue = maker :: rest) :
    ∃ trs2, (matchSellLoop (fuel + 1) ob taker res).2.2.trades =
      res.trades ++ ({ tradeID := "trd_" ++ toString (ob.tradeSeq + 1), symbol := ob.symbol, makerOrderID := maker.orderID, takerOrderID := taker.orderID, price := maker.price, quantity := min maker.remainingQty taker.remainingQty, makerSide := maker.side, takerSide := taker.side } : Trade) :: trs2 := by
  have hminq : min maker.remainingQty taker.remainingQty =
      (if taker.remainingQty < maker.remainingQty then taker.remainingQty
       else maker.remainingQty) := by
    rw [Int.min_def]
    split_ifs <;> omega
  have hempty : ¬ lvl.isEmpty = true := by
    unfold PriceLevel.isEmpty
    rw [hqm]
    simp
  have hb : ¬ (ob.getBestBid = 0 ∨ taker.price > ob.getBestBid) := by
    intro hc
    rcases hc with h0 | hlt
    · exact hb0 h0
    · exact absurd hble (not_le.mpr hlt)
  simp only [matchSellLoop]
  rw [if_pos hq, if_neg hb, hlv]
  simp only []
  rw [if_neg hempty, hqm]
  simp only []
  rw [hminq]
  by_cases hm : (executeMatch ob maker taker maker.price res).2.1.remainingQty = 0
  · rw [if_pos hm]
    refine trades_prefix_compose _ _ _ _ (matchSellLoop_trades_extend fuel _ _ _) ?_
    show (executeMatch ob maker taker maker.price res).2.2.2.1.trades = _
    rw [executeMatch_eq]
  · rw [if_neg hm]
    refine trades_prefix_compose _ _ _ _ (matchSellLoop_trades_extend fuel _ _ _) ?_
    show (executeMatch ob maker taker maker.price res).2.2.2.1.trades = _
    rw [executeMatch_eq]

/-- With no crossing ask level, the buy loop does nothing. -/
theorem matchBuyLoop_no_cross (fuel : Nat) (ob : OrderBook) (taker : Order)
    (res : CommandResult) (h : ob.getBestAsk = 0 ∨ taker.price < ob.getBestAsk) :
    matchBuyLoop fuel ob taker res = (ob, taker, res) := by
  cases fuel with
  | zero => rfl
  | succ fuel =>
    simp only [matchBuyLoop]
    by_cases hq : taker.remainingQty > 0
    · rw [if_pos hq, if_pos h]
    · rw [if_neg hq]

/-- With no crossing bid level, the sell loop does nothing. -/
theorem matchSellLoop_no_cross (fuel : Nat) (ob : OrderBook) (taker : Order)
    (res : CommandResult) (h : ob.getBestBid = 0 ∨ taker.price > ob.getBestBid) :
    matchSellLoop fuel ob taker res = (ob, taker, res) := by
  cases fuel with
  | zero => rfl
  | succ fuel =>
    simp only [matchSellLoop]
    by_cases hq : taker.remainingQty > 0
    · rw [if_pos hq, if_pos h]
    · rw [if_neg hq]

end Matching

namespace Matching

theorem lookupLevel_updateLevel_self (ls : List PriceLevel) (p : Int)
    (nl lvl : PriceLevel) (h : lookupLevel ls p = some lvl) (hp : nl.price = p) :
    lookupLevel (updateLevel ls p nl) p = some nl := by
  induction ls with
  | nil => exact Option.noConfusion h
  | cons l t ih =>
    unfold lookupLevel at h ih ⊢
    unfold updateLevel
    by_cases hl : l.price == p
    · rw [if_pos hl]
      refine find?_cons_eq_some (fun x => x.price == p) nl t ?_
      simp only [beq_iff_eq]
      exact hp
    · rw [if_neg hl]
      rw [find?_cons_eq_rest (fun x => x.price == p) l t
        (Bool.not_eq_true _ |>.mp hl)] at h
      rw [find?_cons_eq_rest (fun x => x.price == p) l (updateLevel t p nl)
        (Bool.not_eq_true _ |>.mp hl)]
      exact ih h

theorem lookupLevel_append_single (ls : List PriceLevel) (p : Int) (x : PriceLevel)
    (h : lookupLevel ls p = none) (hx : x.price = p) :
    lookupLevel (ls ++ [x]) p = some x := by
  induction ls with
  | nil =>
    refine find?_cons_eq_some (fun l => l.price == p) x [] ?_
    simp only [beq_iff_eq]
    exact hx
  | cons l t ih =>
    unfold lookupLevel at h ih ⊢
    by_cases hl : l.price == p
    · rw [find?_cons_eq_some (fun y => y.price == p) l t hl] at h
      exact Option.noConfusion h
    · rw [find?_cons_eq_rest (fun y => y.price == p) l t
        (Bool.not_eq_true _ |>.mp hl)] at h
      rw [List.cons_append]
      rw [find?_cons_eq_rest (fun y => y.price == p) l (t ++ [x])
        (Bool.not_eq_true _ |>.mp hl)]
      exact ih h

/-- `getOrCreatePriceLevel` + `AddOrder` puts the order at the TAIL of the
queue of the level at its own limit price. -/
theorem addRestingOrder_lookup (levels : List PriceLevel) (o : Order) :
    ∃ lvlNew, lookupLevel (addRestingOrder levels o) o.price = some lvlNew ∧
      ∃ q0, lvlNew.queue = q0 ++ [o] := by
  unfold addRestingOrder
  cases hl : lookupLevel levels o.price with
  | some lvl =>
    have hlp : lvl.price = o.price := by
      have := List.find?_some hl
      simpa using this
    refine ⟨lvl.addOrder o, ?_, lvl.queue, rfl⟩
    exact lookupLevel_updateLevel_self levels o.price (lvl.addOrder o) lvl hl hlp
  | none =>
    refine ⟨(newPriceLevel o.price).addOrder o, ?_, [], rfl⟩
    exact lookupLevel_append_single levels o.price _ hl rfl

theorem lookupClosed_storeClosed_same (m : List (String × OrderStatus))
    (id : String) (st : OrderStatus) :
    lookupClosed (storeClosed m id st) id = some st := by
  induction m with
  | nil =>
    unfold storeClosed lookupClosed
    rw [find?_cons_eq_some (fun e => e.1 == id) (id, st) [] (by simp)]
    rfl
  | cons e es ih =>
    unfold storeClosed lookupClosed
    by_cases he : e.1 == id
    · rw [if_pos he]
      rw [find?_cons_eq_some (fun x => x.1 == id) (id, st) es (by simp)]
      rfl
    · rw [if_neg he]
      unfold lookupClosed at ih
      rw [find?_cons_eq_rest (fun x => x.1 == id) e (storeClosed es id st)
        (Bool.not_eq_true _ |>.mp he)]
      exact ih

/-- `matchBuyOrder` keeps the taker's identity fields. -/
theorem matchBuyOrder_taker_id (ob : OrderBook) (taker : Order)
    (res : CommandResult) :
    (matchBuyOrder ob taker res).2.1.orderID = taker.orderID ∧
    (matchBuyOrder ob taker res).2.1.price = taker.price ∧
    (matchBuyOrder ob taker res).2.1.side = taker.side ∧
    (matchBuyOrder ob taker res).2.1.quantity = taker.quantity :=
  matchBuyLoop_taker_id (matchBuyFuel ob taker) ob taker res

/-- `matchSellOrder` keeps the taker's identity fields. -/
theorem matchSellOrder_taker_id (ob : OrderBook) (taker : Order)
    (res : CommandResult) :
    (matchSellOrder ob taker res).2.1.orderID = taker.orderID ∧
    (matchSellOrder ob taker res).2.1.price = taker.price ∧
    (matchSellOrder ob taker res).2.1.side = taker.side ∧
    (matchSellOrder ob taker res).2.1.quantity = taker.quantity :=
  matchSellLoop_taker_id (matchSellFuel ob taker) ob taker res

end Matching

namespace Matching

/-- `PlaceLimit` disposition: under passing guards, the taker keeps its
identity, price and side; a positive residue is appended to the TAIL of the
queue of its own limit-price level on its side of the book, and an exhausted
taker is recorded closed with status FILLED. -/
theorem placeLimit_disposition (ob : OrderBook) (req : PlaceOrderRequest)
    (hv : req.validate = none) (hsym : req.symbol = ob.symbol)
    (hdup1 : lookupOrder ob.orders req.orderID = none)
    (hdup2 : lookupClosed ob.closedOrders req.orderID = none) :
    ∃ ob1 res takerM, ob.placeLimit req = .ok (ob1, res) ∧
      takerM.orderID = req.orderID ∧ takerM.price = req.priceInt ∧
      takerM.side = req.side ∧
      ((takerM.remainingQty > 0 ∧
        ∃ lvlNew, (if req.side = Side.buy then lookupLevel ob1.bidLevels req.priceInt
                   else lookupLevel ob1.askLevels req.priceInt) = some lvlNew ∧
          ∃ q0, lvlNew.queue = q0 ++ [takerM]) ∨
       (¬ takerM.remainingQty > 0 ∧
        lookupClosed ob1.closedOrders req.orderID = some OrderStatus.filled)) := by
  unfold OrderBook.placeLimit OrderBook.storeOrderEntry OrderBook.nextEventSequence
  rw [hv]
  rw [if_neg (not_not_intro hsym), if_neg (by simp [hdup1]), if_neg (by simp [hdup2])]
  simp only []
  by_cases hside : req.side = Side.buy
  · rw [if_pos hside]
    obtain ⟨i1, i2, i3, i4⟩ :=
      matchBuyOrder_taker_id
        { symbol := ob.symbol, bidLevels := ob.bidLevels, askLevels := ob.askLevels,
          orders := storeOrder ob.orders req.orderID
            { orderID := req.orderID, clientOrderID := req.clientOrderID,
              accountID := req.accountID, symbol := req.symbol, side := req.side,
              price := req.priceInt, quantity := req.quantityInt,
              remainingQty := req.quantityInt, status := OrderStatus.new },
          closedOrders := ob.closedOrders, eventSeq := ob.eventSeq + 1,
          tradeSeq := ob.tradeSeq }
        { orderID := req.orderID, clientOrderID := req.clientOrderID,
          accountID := req.accountID, symbol := req.symbol, side := req.side,
          price := req.priceInt, quantity := req.quantityInt,
          remainingQty := req.quantityInt, status := OrderStatus.new }
        { orderStatusChanges := [], trades := [],
          events := [Event.accepted ("evt_" ++ toString (ob.eventSeq + 1))
            (ob.eventSeq + 1) ob.symbol req.orderID req.clientOrderID
            req.accountID req.side req.priceInt req.quantityInt OrderStatus.new] }
    set stepped :=
      matchBuyOrder
        { symbol := ob.symbol, bidLevels := ob.bidLevels, askLevels := ob.askLevels,
          orders := storeOrder ob.orders req.orderID
            { orderID := req.orderID, clientOrderID := req.clientOrderID,
              accountID := req.accountID, symbol := req.symbol, side := req.side,
              price := req.priceInt, quantity := req.quantityInt,
              remainingQty := req.quantityInt, status := OrderStatus.new },
          closedOrders := ob.closedOrders, eventSeq := ob.eventSeq + 1,
          tradeSeq := ob.tradeSeq }
        { orderID := req.orderID, clientOrderID := req.clientOrderID,
          accountID := req.accountID, symbol := req.symbol, side := req.side,
          price := req.priceInt, quantity := req.quantityInt,
          remainingQty := req.quantityInt, status := OrderStatus.new }
        { orderStatusChanges := [], trades := [],
          events := [Event.accepted ("evt_" ++ toString (ob.eventSeq + 1))
            (ob.eventSeq + 1) ob.symbol req.orderID req.clientOrderID
            req.accountID req.side req.priceInt req.quantityInt OrderStatus.new] }
      with hstep
    have j1 : stepped.2.1.orderID = req.orderID := i1
    have j2 : stepped.2.1.price = req.priceInt := i2
    have j3 : stepped.2.1.side = req.side := i3
    by_cases hrem : stepped.2.1.remainingQty > 0
    · have hside2 : stepped.2.1.side = Side.buy := by rw [j3, hside]
      rw [if_pos hrem, if_pos hside2]
      refine ⟨_, _, stepped.2.1, rfl, j1, j2, j3, Or.inl ⟨hrem, ?_⟩⟩
      rw [if_pos hside, ← j2]
      exact addRestingOrder_lookup stepped.1.bidLevels stepped.2.1
    · rw [if_neg hrem]
      refine ⟨_, _, stepped.2.1, rfl, j1, j2, j3, Or.inr ⟨hrem, ?_⟩⟩
      rw [← j1]
      exact lookupClosed_storeClosed_same _ _ _
  · rw [if_neg hside]
    obtain ⟨i1, i2, i3, i4⟩ :=
      matchSellOrder_taker_id
        { symbol := ob.symbol, bidLevels := ob.bidLevels, askLevels := ob.askLevels,
          orders := storeOrder ob.orders req.orderID
            { orderID := req.orderID, clientOrderID := req.clientOrderID,
              accountID := req.accountID, symbol := req.symbol, side := req.side,
              price := req.priceInt, quantity := req.quantityInt,
              remainingQty := req.quantityInt, status := OrderStatus.new },
          closedOrders := ob.closedOrders, eventSeq := ob.eventSeq + 1,
          tradeSeq := ob.tradeSeq }
        { orderID := req.orderID, clientOrderID := req.clientOrderID,
          accountID := req.accountID, symbol := req.symbol, side := req.side,
          price := req.priceInt, quantity := req.quantityInt,
          remainingQty := req.quantityInt, status := OrderStatus.new }
        { orderStatusChanges := [], trades := [],
          events := [Event.accepted ("evt_" ++ toString (ob.eventSeq + 1))
            (ob.eventSeq + 1) ob.symbol req.orderID req.clientOrderID
            req.accountID req.side req.priceInt req.quantityInt OrderStatus.new] }
    set stepped :=
      matchSellOrder
        { symbol := ob.symbol, bidLevels := ob.bidLevels, askLevels := ob.askLevels,
          orders := storeOrder ob.orders req.orderID
            { orderID := req.orderID, clientOrderID := req.clientOrderID,
              accountID := req.accountID, symbol := req.symbol, side := req.side,
              price := req.priceInt, quantity := req.quantityInt,
              remainingQty := req.quantityInt, status := OrderStatus.new },
          closedOrders := ob.closedOrders, eventSeq := ob.eventSeq + 1,
          tradeSeq := ob.tradeSeq }
        { orderID := req.orderID, clientOrderID := req.clientOrderID,
          accountID := req.accountID, symbol := req.symbol, side := req.side,
          price := req.priceInt, quantity := req.quantityInt,
          remainingQty := req.quantityInt, status := OrderStatus.new }
        { orderStatusChanges := [], trades := [],
          events := [Event.accepted ("evt_" ++ toString (ob.eventSeq + 1))
            (ob.eventSeq + 1) ob.symbol req.orderID req.clientOrderID
            req.accountID req.side req.priceInt req.quantityInt OrderStatus.new] }
      with hstep
    have j1 : stepped.2.1.orderID = req.orderID := i1
    have j2 : stepped.2.1.price = req.priceInt := i2
    have j3 : stepped.2.1.side = req.side := i3
    by_cases hrem : stepped.2.1.remainingQty > 0
    · have hside2 : ¬ stepped.2.1.side = Side.buy := by rw [j3]; exact hside
      rw [if_pos hrem, if_neg hside2]
      refine ⟨_, _, stepped.2.1, rfl, j1, j2, j3, Or.inl ⟨hrem, ?_⟩⟩
      rw [if_neg hside, ← j2]
      exact addRestingOrder_lookup stepped.1.askLevels stepped.2.1
    · rw [if_neg hrem]
      refine ⟨_, _, stepped.2.1, rfl, j1, j2, j3, Or.inr ⟨hrem, ?_⟩⟩
      rw [← j1]
      exact lookupClosed_storeClosed_same _ _ _

end Matching

namespace Matching

/-- C1: the matching loops trade against the best-priced opposite level
(lowest ask / highest bid) while it crosses the taker's limit inclusively,
consume each level's FIFO queue from the head, price every trade at the
maker's resting price with quantity `min(maker.remaining, taker.remaining)`,
never trade without a cross, always run to the source loop's exit condition,
and `PlaceLimit` then appends a positive residue to the tail of the level at
the taker's own limit price or records the taker closed FILLED. -/
theorem c1_matching_algorithm (ob : OrderBook) (taker : Order) (res : CommandResult)
    (fuel : Nat) (lvl : PriceLevel) (maker : Order) (rest : List Order)
    (obR : OrderBook) (req : PlaceOrderRequest) :
    ((∀ l ∈ ob.askLevels, 0 < l.price) → ob.getBestAsk ≠ 0 →
      ∀ l ∈ ob.askLevels, ob.getBestAsk ≤ l.price) ∧
    (∀ l ∈ ob.bidLevels, l.price ≤ ob.getBestBid) ∧
    (taker.remainingQty > 0 → ¬ ob.getBestAsk = 0 → ob.getBestAsk ≤ taker.price →
      lookupLevel ob.askLevels ob.getBestAsk = some lvl → lvl.queue = maker :: rest →
      ∃ trs2, (matchBuyLoop (fuel + 1) ob taker res).2.2.trades =
        res.trades ++ ({ tradeID := "trd_" ++ toString (ob.tradeSeq + 1), symbol := ob.symbol, makerOrderID := maker.orderID, takerOrderID := taker.orderID, price := maker.price, quantity := min maker.remainingQty taker.remainingQty, makerSide := maker.side, takerSide := taker.side } : Trade) :: trs2) ∧
    (taker.remainingQty > 0 → ¬ ob.getBestBid = 0 → taker.price ≤ ob.getBestBid →
      lookupLevel ob.bidLevels ob.getBestBid = some lvl → lvl.queue = maker :: rest →
      ∃ trs2, (matchSellLoop (fuel + 1) ob taker res).2.2.trades =
        res.trades ++ ({ tradeID := "trd_" ++ toString (ob.tradeSeq + 1), symbol := ob.symbol, makerOrderID := maker.orderID, takerOrderID := taker.orderID, price := maker.price, quantity := min maker.remainingQty taker.remainingQty, makerSide := maker.side, takerSide := taker.side } : Trade) :: trs2) ∧
    ((ob.getBestAsk = 0 ∨ taker.price < ob.getBestAsk) →
      matchBuyLoop fuel ob taker res = (ob, taker, res)) ∧
    ((ob.getBestBid = 0 ∨ taker.price > ob.getBestBid) →
      matchSellLoop fuel ob taker res = (ob, taker, res)) ∧
    (¬ (matchBuyOrder ob taker res).2.1.remainingQty > 0 ∨
      (matchBuyOrder ob taker res).1.getBestAsk = 0 ∨
      (matchBuyOrder ob taker res).2.1.price <
        (matchBuyOrder ob taker res).1.getBestAsk) ∧
    (¬ (matchSellOrder ob taker res).2.1.remainingQty > 0 ∨
      (matchSellOrder ob taker res).1.getBestBid = 0 ∨
      (matchSellOrder ob taker res).1.getBestBid <
        (matchSellOrder ob taker res).2.1.price) ∧
    (req.validate = none → req.symbol = obR.symbol →
      lookupOrder obR.orders req.orderID = none →
      lookupClosed obR.closedOrders req.orderID = none →
      ∃ ob1 res1 takerM, obR.placeLimit req = .ok (ob1, res1) ∧
        takerM.orderID = req.orderID ∧ takerM.price = req.priceInt ∧
        takerM.side = req.side ∧
        ((takerM.remainingQty > 0 ∧
          ∃ lvlNew, (if req.side = Side.buy then lookupLevel ob1.bidLevels req.priceInt
                     else lookupLevel ob1.askLevels req.priceInt) = some lvlNew ∧
            ∃ q0, lvlNew.queue = q0 ++ [takerM]) ∨
         (¬ takerM.remainingQty > 0 ∧
          lookupClosed ob1.closedOrders req.orderID = some OrderStatus.filled))) := by
  refine ⟨getBestAsk_least ob, getBestBid_greatest ob, ?_, ?_, ?_, ?_,
    matchBuyOrder_exit ob taker res, matchSellOrder_exit ob taker res, ?_⟩
  · intro hq hb0 hble hlv hqm
    exact matchBuy_step fuel ob taker res lvl maker rest hq hb0 hble hlv hqm
  · intro hq hb0 hble hlv hqm
    exact matchSell_step fuel ob taker res lvl maker rest hq hb0 hble hlv hqm
  · intro h
    exact matchBuyLoop_no_cross fuel ob taker res h
  · intro h
    exact matchSellLoop_no_cross fuel ob taker res h
  · intro hv hsym hd1 hd2
    exact placeLimit_disposition obR req hv hsym hd1 hd2

end Matching

/-- Resting sell maker at price 10 for the C1 witness. -/
def c1Maker : Matching.Order :=
  { orderID := "m1", clientOrderID := "cm1", accountID := "M", symbol := "BTC-USDT",
    side := Matching.Side.sell, price := 10, quantity := 1, remainingQty := 1,
    status := Matching.OrderStatus.new }

/-- Ask level at 10 holding the maker. -/
def c1Lvl : Matching.PriceLevel := { price := 10, queue := [c1Maker], volume := 1 }

/-- Book with asks at 10 and 12. -/
def c1BookAsk : Matching.OrderBook :=
  { symbol := "BTC-USDT", bidLevels := [],
    askLevels := [c1Lvl, { price := 12, queue := [], volume := 0 }],
    orders := [("m1", c1Maker)], closedOrders := [], eventSeq := 0, tradeSeq := 0 }

/-- BUY taker whose limit exactly equals the best ask (inclusive cross). -/
def c1TakerBuy : Matching.Order :=
  { orderID := "t1", clientOrderID := "ct1", accountID := "T", symbol := "BTC-USDT",
    side := Matching.Side.buy, price := 10, quantity := 2, remainingQty := 2,
    status := Matching.OrderStatus.new }

/-- BUY taker whose limit is below the best ask (no cross). -/
def c1TakerLow : Matching.Order :=
  { c1TakerBuy with price := 9 }

/-- Resting buy maker at price 10. -/
def c1MakerB : Matching.Order :=
  { orderID := "m2", clientOrderID := "cm2", accountID := "M", symbol := "BTC-USDT",
    side := Matching.Side.buy, price := 10, quantity := 1, remainingQty := 1,
    status := Matching.OrderStatus.new }

/-- Bid level at 10 holding the buy maker. -/
def c1LvlB : Matching.PriceLevel := { price := 10, queue := [c1MakerB], volume := 1 }

/-- Book with one bid level at 10. -/
def c1BookBid : Matching.OrderBook :=
  { symbol := "BTC-USDT", bidLevels := [c1LvlB], askLevels := [],
    orders := [("m2", c1MakerB)], closedOrders := [], eventSeq := 0, tradeSeq := 0 }

/-- SELL taker whose limit exactly equals the best bid. -/
def c1TakerSell : Matching.Order :=
  { orderID := "t2", clientOrderID := "ct2", accountID := "T", symbol := "BTC-USDT",
    side := Matching.Side.sell, price := 10, quantity := 2, remainingQty := 2,
    status := Matching.OrderStatus.new }

/-- Empty command result. -/
def c1Res0 : Matching.CommandResult :=
  { orderStatusChanges := [], trades := [], events := [] }

/-- Place request used for the disposition half of the C1 witness. -/
def c1PlaceReq : Matching.PlaceOrderRequest :=
  { orderID := "p1", clientOrderID := "cp1", accountID := "A", symbol := "BTC-USDT",
    side := Matching.Side.buy, priceInt := 10, quantityInt := 2 }

/-- Witness for `c1_matching_algorithm`, exercising the lowest-ask bound, the
inclusive-cross FIFO step on both sides, the no-cross exit, and the
disposition arm at concrete inputs. -/
theorem c1_matching_algorithm_witness :
    (∀ l ∈ c1BookAsk.askLevels, c1BookAsk.getBestAsk ≤ l.price) ∧
    (∃ trs2, (Matching.matchBuyLoop (5 + 1) c1BookAsk c1TakerBuy c1Res0).2.2.trades =
      c1Res0.trades ++ ({ tradeID := "trd_" ++ toString (c1BookAsk.tradeSeq + 1), symbol := c1BookAsk.symbol, makerOrderID := c1Maker.orderID, takerOrderID := c1TakerBuy.orderID, price := c1Maker.price, quantity := min c1Maker.remainingQty c1TakerBuy.remainingQty, makerSide := c1Maker.side, takerSide := c1TakerBuy.side } : Matching.Trade) :: trs2) ∧
    (∃ trs2, (Matching.matchSellLoop (5 + 1) c1BookBid c1TakerSell c1Res0).2.2.trades =
      c1Res0.trades ++ ({ tradeID := "trd_" ++ toString (c1BookBid.tradeSeq + 1), symbol := c1BookBid.symbol, makerOrderID := c1MakerB.orderID, takerOrderID := c1TakerSell.orderID, price := c1MakerB.price, quantity := min c1MakerB.remainingQty c1TakerSell.remainingQty, makerSide := c1MakerB.side, takerSide := c1TakerSell.side } : Matching.Trade) :: trs2) ∧
    Matching.matchBuyLoop 5 c1BookAsk c1TakerLow c1Res0 =
      (c1BookAsk, c1TakerLow, c1Res0) ∧
    (¬ (Matching.matchBuyOrder c1BookAsk c1TakerBuy c1Res0).2.1.remainingQty > 0 ∨
      (Matching.matchBuyOrder c1BookAsk c1TakerBuy c1Res0).1.getBestAsk = 0 ∨
      (Matching.matchBuyOrder c1BookAsk c1TakerBuy c1Res0).2.1.price <
        (Matching.matchBuyOrder c1BookAsk c1TakerBuy c1Res0).1.getBestAsk) ∧
    (∃ ob1 res1 takerM,
      (Matching.newOrderBook "BTC-USDT").placeLimit c1PlaceReq = .ok (ob1, res1) ∧
      takerM.orderID = c1PlaceReq.orderID ∧ takerM.price = c1PlaceReq.priceInt ∧
      takerM.side = c1PlaceReq.side ∧
      ((takerM.remainingQty > 0 ∧
        ∃ lvlNew, (if c1PlaceReq.side = Matching.Side.buy then
            Matching.lookupLevel ob1.bidLevels c1PlaceReq.priceInt
          else Matching.lookupLevel ob1.askLevels c1PlaceReq.priceInt) = some lvlNew ∧
          ∃ q0, lvlNew.queue = q0 ++ [takerM]) ∨
       (¬ takerM.remainingQty > 0 ∧
        Matching.lookupClosed ob1.closedOrders c1PlaceReq.orderID =
          some Matching.OrderStatus.filled))) :=
  ⟨(Matching.c1_matching_algorithm c1BookAsk c1TakerBuy c1Res0 5 c1Lvl c1Maker []
      (Matching.newOrderBook "BTC-USDT") c1PlaceReq).1 (by decide) (by decide),
   (Matching.c1_matching_algorithm c1BookAsk c1TakerBuy c1Res0 5 c1Lvl c1Maker []
      (Matching.newOrderBook "BTC-USDT") c1PlaceReq).2.2.1 (by decide) (by decide)
      (by decide) rfl rfl,
   (Matching.c1_matching_algorithm c1BookBid c1TakerSell c1Res0 5 c1LvlB c1MakerB []
      (Matching.newOrderBook "BTC-USDT") c1PlaceReq).2.2.2.1 (by decide) (by decide)
      (by decide) rfl rfl,
   (Matching.c1_matching_algorithm c1BookAsk c1TakerLow c1Res0 5 c1Lvl c1Maker []
      (Matching.newOrderBook "BTC-USDT") c1PlaceReq).2.2.2.2.1 (by decide),
   (Matching.c1_matching_algorithm c1BookAsk c1TakerBuy c1Res0 5 c1Lvl c1Maker []
      (Matching.newOrderBook "BTC-USDT") c1PlaceReq).2.2.2.2.2.2.1,
   (Matching.c1_matching_algorithm c1BookAsk c1TakerBuy c1Res0 5 c1Lvl c1Maker []
      (Matching.newOrderBook "BTC-USDT") c1PlaceReq).2.2.2.2.2.2.2.2 rfl rfl rfl rfl⟩
